import Mathlib

/-!
# MeshifAI demo front-end: a shallow embedding

The definitions below transcribe the client-side logic of the MeshifAI demo
(`src/app/components/ModelSettings.jsx`, `src/app/components/ModelGallery.jsx`,
`src/app/components/ModelsList.jsx`, `src/app/components/ImageUploader.jsx`,
`src/app/lib/utils.js`, `src/app/page.js`).

* JavaScript strings are Lean `String`s; the string methods used by the code
  (`includes`, `startsWith`, `endsWith`, `trim`) are list functions on the
  characters of the string.  Where the code counts and cuts a string
  (`length`, `substring` and `split` in `getShortFilename`), the string is the
  list of its UTF-16 code units.
* A React component is a record of its state variables together with the part
  of the browser runtime it touches: the set of live `setInterval` timers, the
  HTTP requests that are in flight, and a log of the effects it has produced.
* An `async` function is cut at each `await`: the part before the `await`
  issues the request and parks a continuation, the part after it runs when the
  response arrives and takes the response as an argument.
-/

namespace MeshifAI

/-! ## JavaScript string methods -/

/-- The method `String.prototype.includes`: `p` occurs in `s` as a contiguous block. -/
def includes (s p : String) : Bool :=
  s.data.tails.any (fun t => p.data.isPrefixOf t)

/-- The method `String.prototype.endsWith`. -/
def endsWith (s p : String) : Bool :=
  p.data.isSuffixOf s.data

/-- The method `String.prototype.startsWith`. -/
def startsWith (s p : String) : Bool :=
  p.data.isPrefixOf s.data

/-- The characters removed by `String.prototype.trim`: ECMAScript `WhiteSpace`
(TAB, VT, FF, ZWNBSP and the Unicode space separators) and `LineTerminator`
(LF, CR, LS, PS). -/
def isWhiteSpace (c : Char) : Bool :=
  let n := c.toNat
  n = 0x09 || n = 0x0B || n = 0x0C || n = 0xFEFF ||
  n = 0x20 || n = 0xA0 || n = 0x1680 || (0x2000 ≤ n && n ≤ 0x200A) ||
  n = 0x202F || n = 0x205F || n = 0x3000 ||
  n = 0x0A || n = 0x0D || n = 0x2028 || n = 0x2029

/-- The method `String.prototype.trim`: white space is removed from both ends. -/
def trim (s : String) : String :=
  ⟨((s.data.dropWhile isWhiteSpace).reverse.dropWhile isWhiteSpace).reverse⟩

/-- JavaScript truthiness of a string: every string but the empty one. -/
def truthy (s : String) : Bool :=
  !s.data.isEmpty

/-- The text JavaScript puts in place of a boolean where a string is expected
(`ToString` of a boolean). -/
def boolToString (b : Bool) : String :=
  if b then "true" else "false"

/-! ## Gallery: the filter step of `ModelGallery` -/

/-- An entry of the model list served by the `action=list` endpoint, with the
fields the gallery reads. -/
structure Model where
  filename : String
  url : String
  size : Int
  created : String
deriving DecidableEq

/-- The type filter, `ModelGallery.jsx` lines 833-838. -/
def applyTypeFilter (filter : String) (filtered : List Model) : List Model :=
  if filter = "textured" then
    filtered.filter (fun model => includes model.filename "textured")
  else if filter = "white" then
    filtered.filter (fun model => includes model.filename "white")
  else
    filtered

/-- The search filter, `ModelGallery.jsx` lines 840-848.  `toLowerCase` is the
built-in `String.prototype.toLowerCase`.  The callback passes the *result* of
the inner `includes` call, a boolean, as the argument of the outer `includes`
call, which converts it to the text `true` or `false`. -/
def applySearchFilter (toLowerCase : String → String) (searchQuery : String)
    (filtered : List Model) : List Model :=
  if truthy (trim searchQuery) then
    let query := toLowerCase searchQuery
    filtered.filter (fun model =>
      includes (toLowerCase model.filename)
        (boolToString (includes (toLowerCase model.filename) query)))
  else
    filtered

/-- The list the filter effect hands to `sortModels` (`ModelGallery.jsx` lines
831-848): a copy of `models`, then the type filter, then the search filter. -/
def filterStep (toLowerCase : String → String) (models : List Model)
    (filter searchQuery : String) : List Model :=
  applySearchFilter toLowerCase searchQuery (applyTypeFilter filter models)

/-- ASCII lower-casing; `String.prototype.toLowerCase` agrees with it on
strings of ASCII characters. -/
def asciiLower (s : String) : String :=
  ⟨s.data.map Char.toLower⟩

/-! ## Settings component: data -/

/-- The record `ImageUploader` passes to `onImageUploaded`, with the two fields
`onSubmit` reads; `none` is a missing (undefined) property. -/
structure UploadedImage where
  url : Option String
  serverUrl : Option String
deriving DecidableEq

/-- The values of the settings form, as `react-hook-form` hands them to `onSubmit`. -/
structure FormData where
  steps : Int
  guidance_scale : Rat
  check_box_rembg : Bool
  octree_resolution : String
  caption : String
  api_key : String
deriving DecidableEq

/-- The object `requestData` of `onSubmit`, lines 79-89. -/
structure RequestData where
  image : String
  model : String
  steps : Int
  guidance_scale : Rat
  check_box_rembg : Bool
  octree_resolution : String
  caption : String
  seed : Nat
  api_key : String
deriving DecidableEq

/-- An HTTP request issued by the component. -/
inductive Request where
  /-- The request `POST ?action=create` with its body and its `X-API-Key` header. -/
  | create (body : RequestData) (apiKey : String)
  /-- The request `GET ?action=status&id=...` with its `X-API-Key` header. -/
  | status (id : String) (apiKey : String)
  /-- The request `POST ?action=download` with the `urls` of its body. -/
  | download (urls : List String)
deriving DecidableEq

/-- A notification shown through `react-hot-toast`. -/
inductive Toast where
  | error (message : String)
  | success (message : String)
deriving DecidableEq

/-- The argument of a call of `onModelGenerated`, lines 210-215. -/
structure GeneratedModel where
  id : Option String
  url : String
  filename : String
  created : String
deriving DecidableEq

/-- An entry of `response.data.downloaded`. -/
structure Downloaded where
  download_url : String
  filename : String
deriving DecidableEq

/-- The property `response.data.output` of a status response: a falsy value
(missing, null), a truthy value that is not an array, or an array of URLs. -/
inductive Output where
  | absent
  | notArray
  | array (urls : List String)
deriving DecidableEq

/-- The body `response.data` of a 2xx response, with the properties the
component reads; `none` is a missing property, `success` is the truthiness of
`response.data.success`. -/
structure ResponseData where
  id : Option String
  status : Option String
  output : Output
  error : Option String
  success : Bool
  downloaded : Option (List Downloaded)
deriving DecidableEq

/-- The outcome of an `axios` call: the promise resolves with a 2xx response,
or it is rejected (network error, non-2xx status) with an error that has a
`message` and, when the server answered, the `error` property of its body. -/
inductive Response where
  | ok (data : ResponseData)
  | failure (message : String) (serverError : Option String)
deriving DecidableEq

/-- A live `setInterval` timer created by `startPolling`, with the variables
its callback closes over: `id` and `apiKey` (the arguments of `startPolling`)
and `predictionId` (the state variable as bound when the handler was created).
The handle `id` stands for the timer id returned by `setInterval`, which is
never 0, so a recorded handle is always truthy. -/
structure Timer where
  id : Nat
  jobId : String
  apiKey : String
  predictionId : Option String
deriving DecidableEq

/-- A request in flight, with the continuation that waits for it. -/
inductive Pending where
  /-- The handler `onSubmit` waits at line 97; `pollInterval` and `predictionId`
  are the state variables as bound in the render whose handler is running. -/
  | create (apiKey : String) (pollInterval : Option Nat) (predictionId : Option String)
  /-- The callback of timer `t` waits at line 132. -/
  | status (t : Timer)
  /-- The function `downloadModelFiles` waits at line 201. -/
  | download (predictionId : Option String)
deriving DecidableEq

/-- The state of `ModelSettings` and of the runtime around it. -/
structure State where
  /-- The prop `uploadedImage`. -/
  uploadedImage : Option UploadedImage
  /-- The prop `isGenerating`, set through `onGeneratingChange`. -/
  isGenerating : Bool
  /-- The state variable `pollInterval`: the recorded timer. -/
  pollInterval : Option Nat
  generationProgress : Nat
  predictionId : Option String
  showApiKey : Bool
  /-- The live interval timers. -/
  timers : List Timer
  /-- The handle the next `setInterval` call returns. -/
  nextTimer : Nat
  /-- The requests in flight. -/
  pending : List Pending
  /-- Every HTTP request issued so far, oldest first. -/
  requests : List Request
  /-- Every notification shown so far. -/
  toasts : List Toast
  /-- Every call of `onModelGenerated` so far. -/
  generated : List GeneratedModel
deriving DecidableEq

/-- The expression `a || b` on optional strings: `a` when it is truthy, else `b`. -/
def orElse (a b : Option String) : Option String :=
  match a with
  | some s => if truthy s then some s else b
  | none => b

/-- The expression `a || d` where `d` is a string literal. -/
def orDefault (a : Option String) (d : String) : String :=
  match a with
  | some s => if truthy s then s else d
  | none => d

/-! ## Settings component: handlers -/

/-- The call `clearInterval(t)`: timer `t` is no longer live. -/
def clearInterval (s : State) (t : Nat) : State :=
  { s with timers := s.timers.filter (fun x => x.id != t) }

/-- The call `toast.error(message)`. -/
def toastError (s : State) (message : String) : State :=
  { s with toasts := s.toasts ++ [Toast.error message] }

/-- The call `toast.success(message)`. -/
def toastSuccess (s : State) (message : String) : State :=
  { s with toasts := s.toasts ++ [Toast.success message] }

/-- The function `startPolling`, lines 123-171.  `pollInterval` and
`predictionId` are the state variables as bound in the closure that calls it.
The body of the interval callback is `pollTick` followed by `pollResume`. -/
def startPolling (pollInterval : Option Nat) (predictionId : Option String)
    (s : State) (id apiKey : String) : State :=
  let s1 := match pollInterval with
    | some t => clearInterval s t
    | none => s
  let interval := s1.nextTimer
  { s1 with
    timers := s1.timers ++ [{ id := interval, jobId := id, apiKey := apiKey,
                              predictionId := predictionId }]
    nextTimer := interval + 1
    pollInterval := some interval }

/-- The `catch` block of `onSubmit`, lines 115-120, for an error with the given
`message` and `response?.data?.error`. -/
def onSubmitCatch (s : State) (message : String) (serverError : Option String) : State :=
  let s1 := toastError s ("Failed to generate model: " ++ orDefault serverError message)
  { s1 with isGenerating := false, generationProgress := 0 }

/-- The handler `onSubmit` up to its `await`, lines 53-106.  `reparse` is the
composite of lines 92-99, `JSON.parse` of the post-processed `JSON.stringify`
text: it yields the object that is posted, or throws with a message.  `seed`
is the value of `Math.floor(Math.random() * 1000000)`. -/
def onSubmit (reparse : RequestData → Except String RequestData)
    (s : State) (data : FormData) (seed : Nat) : State :=
  match s.uploadedImage with
  | none => toastError s "Please upload an image first"
  | some uploadedImage =>
    if !truthy data.api_key then
      toastError { s with showApiKey := true } "API key is required to generate models"
    else
      match orElse uploadedImage.serverUrl uploadedImage.url with
      | none => s -- `imageUrl.startsWith` throws outside the `try`: nothing else runs
      | some imageUrl =>
        if startsWith imageUrl "blob:" then
          toastError s
            "Invalid image URL. Please ensure the image was properly uploaded to the server."
        else
          let s1 := { s with isGenerating := true, generationProgress := 5 }
          let requestData : RequestData :=
            { image := imageUrl
              model := "tencent/hunyuan3d-2"
              steps := data.steps
              guidance_scale := data.guidance_scale
              check_box_rembg := data.check_box_rembg
              octree_resolution := data.octree_resolution
              caption := data.caption
              seed := seed
              api_key := data.api_key }
          match reparse requestData with
          | .error message => onSubmitCatch s1 message none
          | .ok body =>
            { s1 with
              requests := s1.requests ++ [Request.create body data.api_key]
              pending := s1.pending ++ [Pending.create data.api_key s.pollInterval s.predictionId] }

/-- The handler `onSubmit` after its `await`, lines 108-120, run when the
creation request is answered. -/
def onSubmitResume (s : State) (apiKey : String) (pollInterval : Option Nat)
    (predictionId : Option String) (r : Response) : State :=
  match r with
  | .failure message serverError => onSubmitCatch s message serverError
  | .ok data =>
    match data.id with
    | some id =>
      if truthy id then
        startPolling pollInterval predictionId
          { s with predictionId := some id, generationProgress := 10 } id apiKey
      else
        onSubmitCatch s (orDefault data.error "Failed to start generation") none
    | none => onSubmitCatch s (orDefault data.error "Failed to start generation") none

/-- The interval callback up to its `await`, lines 131-139: timer `t` fires and
a status request is issued. -/
def pollTick (s : State) (t : Timer) : State :=
  { s with
    requests := s.requests ++ [Request.status t.jobId t.apiKey]
    pending := s.pending ++ [Pending.status t] }

/-- The `catch` block of the interval callback, lines 160-167. -/
def pollCatch (s : State) (interval : Nat) (message : String) : State :=
  let s1 := { clearInterval s interval with pollInterval := none }
  let s2 := toastError s1 ("Error checking model status: " ++ message)
  { s2 with isGenerating := false, generationProgress := 0 }

/-- The choice of `urls` in `downloadModelFiles`, lines 180-184. -/
def selectUrls (output : List String) : List String :=
  let texturedModels := output.filter (fun url => includes url "textured_mesh.glb")
  let allModels := output.filter (fun url => endsWith url ".glb")
  if texturedModels.length > 0 then texturedModels else allModels

/-- The `catch` block of `downloadModelFiles`, lines 221-223. -/
def downloadCatch (s : State) (message : String) : State :=
  toastError s ("Failed to download model: " ++ message)

/-- The `finally` block of `downloadModelFiles`, lines 224-228. -/
def downloadFinally (s : State) : State :=
  { s with isGenerating := false, generationProgress := 0, predictionId := none }

/-- The function `downloadModelFiles` up to its `await`, lines 173-204, called
from the callback of timer `t`.  `reparseUrls` is the composite of lines
196-203 on the `urls` of the request object.  The result is `.error message`
when the function throws to its caller (line 175). -/
def downloadModelFiles (reparseUrls : List String → Except String (List String))
    (s : State) (t : Timer) (output : Output) : Except String State :=
  match output with
  | .absent => .error "No output files found"
  | .notArray => .error "No output files found"
  | .array output =>
    let urls := selectUrls output
    if urls.length = 0 then
      .ok (downloadFinally (downloadCatch s "No GLB model files found in output"))
    else
      match reparseUrls urls with
      | .error message => .ok (downloadFinally (downloadCatch s message))
      | .ok body =>
        .ok { s with
              requests := s.requests ++ [Request.download body]
              pending := s.pending ++ [Pending.download t.predictionId] }

/-- The function `downloadModelFiles` after its `await`, lines 206-228, run when
the download request is answered; `now` is `new Date().toISOString()`. -/
def downloadResume (s : State) (predictionId : Option String) (r : Response)
    (now : String) : State :=
  match r with
  | .failure message _ => downloadFinally (downloadCatch s message)
  | .ok data =>
    if data.success then
      match data.downloaded with
      | none => downloadFinally (downloadCatch s "Cannot read properties of undefined")
      | some [] => downloadFinally (downloadCatch s "Failed to download model files")
      | some (modelData :: _) =>
        let s1 := { s with generated := s.generated ++
                      [{ id := predictionId, url := modelData.download_url,
                         filename := modelData.filename, created := now }] }
        downloadFinally (toastSuccess s1 "3D model generated successfully!")
    else
      downloadFinally (downloadCatch s "Failed to download model files")

/-- The updater passed to `setGenerationProgress` on a `processing` status,
lines 145-147. -/
def nextProgress (prevProgress : Nat) : Nat :=
  if prevProgress < 90 then prevProgress + 5 else prevProgress

/-- The interval callback after its `await`, lines 141-167, run when the status
request issued by timer `t` is answered. -/
def pollResume (reparseUrls : List String → Except String (List String))
    (s : State) (t : Timer) (r : Response) : State :=
  match r with
  | .failure message _ => pollCatch s t.id message
  | .ok data =>
    if data.status = some "processing" then
      { s with generationProgress := nextProgress s.generationProgress }
    else if data.status = some "succeeded" then
      let s1 := { clearInterval s t.id with pollInterval := none, generationProgress := 100 }
      match downloadModelFiles reparseUrls s1 t data.output with
      | .ok s2 => s2
      | .error message => pollCatch s1 t.id message
    else if data.status = some "failed" then
      let s1 := { clearInterval s t.id with pollInterval := none }
      pollCatch s1 t.id (orDefault data.error "Generation failed")
    else
      s

/-- The function `cancelGeneration`, lines 231-241. -/
def cancelGeneration (s : State) : State :=
  let s1 := match s.pollInterval with
    | some t => { clearInterval s t with pollInterval := none }
    | none => s
  let s2 := { s1 with isGenerating := false, generationProgress := 0, predictionId := none }
  toastSuccess s2 "Generation cancelled"

/-- The clean-up function returned by the effect, lines 45-50; `pollInterval`
is the state variable as bound in the render that installed the effect. -/
def effectCleanup (pollInterval : Option Nat) (s : State) : State :=
  match pollInterval with
  | some t => clearInterval s t
  | none => s

/-! ## Settings component: the event loop -/

/-- The two `JSON.stringify` / `replace` / `JSON.parse` composites of the
component (lines 92-99 and 196-203), each of which yields the body that is
posted or throws with a message. -/
structure Env where
  reparse : RequestData → Except String RequestData
  reparseUrls : List String → Except String (List String)

/-- What can happen to the mounted component. -/
inductive Event where
  /-- The form is submitted with the given values; `seed` is the random seed drawn. -/
  | submit (data : FormData) (seed : Nat)
  /-- The live timer with the given handle fires. -/
  | tick (timer : Nat)
  /-- The `i`-th request in flight is answered with `r`, at time `now`. -/
  | respond (i : Nat) (r : Response) (now : String)
  /-- The function `cancelGeneration` is called. -/
  | cancel
  /-- The parent passes a new `uploadedImage` object. -/
  | imageUploaded (image : UploadedImage)

/-- React commits the state `next` computed by a handler that ran in state
`prev`.  The effect of lines 39-51 has the dependencies
`[uploadedImage, reset, pollInterval]`: when `pollInterval` has changed, the
clean-up installed by the previous render runs, with the previous value. -/
def rerender (prev next : State) : State :=
  if prev.pollInterval = next.pollInterval then next
  else effectCleanup prev.pollInterval next

/-- The continuation parked with a request in flight, run on its response. -/
def resume (env : Env) (s : State) (p : Pending) (r : Response) (now : String) : State :=
  match p with
  | .create apiKey pollInterval predictionId =>
    onSubmitResume s apiKey pollInterval predictionId r
  | .status t => pollResume env.reparseUrls s t r
  | .download predictionId => downloadResume s predictionId r now

/-- One turn of the event loop; `none` when the event cannot happen in `s`.
The submit button is disabled unless there is an image and `isGenerating` is
false (line 378); a timer fires only while it is live; a response answers a
request that is in flight. -/
def step (env : Env) (s : State) : Event → Option State
  | .submit data seed =>
    if s.uploadedImage.isSome && !s.isGenerating then
      some (rerender s (onSubmit env.reparse s data seed))
    else none
  | .tick timer =>
    match s.timers.find? (fun t => t.id == timer) with
    | some t => some (rerender s (pollTick s t))
    | none => none
  | .respond i r now =>
    match s.pending[i]? with
    | some p =>
      some (rerender s (resume env { s with pending := s.pending.eraseIdx i } p r now))
    | none => none
  | .cancel => some (rerender s (cancelGeneration s))
  | .imageUploaded image =>
    some (effectCleanup s.pollInterval { s with uploadedImage := some image })

/-- A sequence of turns of the event loop. -/
def run (env : Env) (s : State) : List Event → Option State
  | [] => some s
  | e :: es => (step env s e).bind (fun s1 => run env s1 es)

/-- The component as first mounted by `Home`, which renders it once an image
has been uploaded. -/
def init (image : UploadedImage) : State :=
  { uploadedImage := some image
    isGenerating := false
    pollInterval := none
    generationProgress := 0
    predictionId := none
    showApiKey := false
    timers := []
    nextTimer := 0
    pending := []
    requests := []
    toasts := []
    generated := [] }

/-- The states the component can be in. -/
def Reachable (env : Env) (s : State) : Prop :=
  ∃ image es, run env (init image) es = some s

/-- A poll: the timer fires and the status request it issues is answered with
`r` before anything else happens. -/
def poll (env : Env) (s : State) (timer : Nat) (r : Response) : Option State :=
  (step env s (.tick timer)).bind (fun s1 => step env s1 (.respond s.pending.length r ""))

/-- Successive polls of one timer, answered with the bodies `ds` in turn. -/
def polls (env : Env) (s : State) (timer : Nat) : List ResponseData → Option State
  | [] => some s
  | d :: ds => (poll env s timer (.ok d)).bind (fun s1 => polls env s1 timer ds)

/-- The composites of an `Env` when no text needs escaping: the posted body is
the object itself. -/
def plainEnv : Env :=
  { reparse := fun x => .ok x
    reparseUrls := fun x => .ok x }


/-! ## A sample session -/

/-- An uploaded image with a local preview URL and a server URL. -/
def sampleImage : UploadedImage :=
  { url := some "blob:http://localhost:3000/1f0c", serverUrl := some "https://h/up/duck.png" }

/-- The default form values with an access key filled in. -/
def sampleForm : FormData :=
  { steps := 30, guidance_scale := 5, check_box_rembg := true, octree_resolution := "256",
    caption := "", api_key := "key" }

/-- The body of a creation response that carries the job id `id`. -/
def createdData (id : String) : ResponseData :=
  { id := some id, status := some "starting", output := .absent, error := none,
    success := false, downloaded := none }

/-- The body of a status response with the given status and nothing else. -/
def statusData (status : String) : ResponseData :=
  { id := none, status := some status, output := .absent, error := none,
    success := false, downloaded := none }

/-- The session in which job `A` has been created and its timer has fired once:
one timer is live and one status request is in flight. -/
def samplePolling : State :=
  { uploadedImage := some sampleImage
    isGenerating := true
    pollInterval := some 0
    generationProgress := 10
    predictionId := some "A"
    showApiKey := false
    timers := [{ id := 0, jobId := "A", apiKey := "key", predictionId := none }]
    nextTimer := 1
    pending := [Pending.status { id := 0, jobId := "A", apiKey := "key", predictionId := none }]
    requests :=
      [Request.create
        { image := "https://h/up/duck.png", model := "tencent/hunyuan3d-2", steps := 30,
          guidance_scale := 5, check_box_rembg := true, octree_resolution := "256",
          caption := "", seed := 7, api_key := "key" } "key",
       Request.status "A" "key"]
    toasts := []
    generated := [] }

/-- The session in which the form has been submitted and the creation request
is in flight. -/
def sampleSubmitted : State :=
  { uploadedImage := some sampleImage
    isGenerating := true
    pollInterval := none
    generationProgress := 5
    predictionId := none
    showApiKey := false
    timers := []
    nextTimer := 0
    pending := [Pending.create "key" none none]
    requests :=
      [Request.create
        { image := "https://h/up/duck.png", model := "tencent/hunyuan3d-2", steps := 30,
          guidance_scale := 5, check_box_rembg := true, octree_resolution := "256",
          caption := "", seed := 7, api_key := "key" } "key"]
    toasts := []
    generated := [] }

/-! ## Predicates on states -/

/-- The invariant of the event loop: at most one timer is live, a live timer
is the recorded one, and handles already handed out lie below `nextTimer`. -/
def Inv (s : State) : Prop :=
  s.timers.length ≤ 1 ∧
  (∀ x ∈ s.timers, s.pollInterval = some x.id) ∧
  (∀ c, s.pollInterval = some c → c < s.nextTimer) ∧
  (∀ t, Pending.status t ∈ s.pending → t.id < s.nextTimer)

/-- A handler run that creates no timer: it may clear timers, reset the
recorded timer to null and issue status requests for live timers only. -/
def Quiet (s next : State) : Prop :=
  next.timers.Sublist s.timers ∧
  (next.pollInterval = s.pollInterval ∨ next.pollInterval = none) ∧
  next.nextTimer = s.nextTimer ∧
  (∀ t, Pending.status t ∈ next.pending → Pending.status t ∈ s.pending ∨ t ∈ s.timers)

/-- Timer `c` has been handed out and is not live. -/
def Dead (c : Nat) (s : State) : Prop :=
  c < s.nextTimer ∧ ∀ x ∈ s.timers, x.id ≠ c

/-! ## Image uploader (`ImageUploader.jsx`) -/

/-- A `File` object, with the properties the uploader reads. -/
structure File where
  name : String
  size : Nat
  type : String
deriving DecidableEq

/-- What becomes of the upload request of `uploadImage`, lines 34-53. -/
inductive UploadOutcome where
  /-- The call `fetch` is rejected (network error) with this message. -/
  | rejected (message : String)
  /-- The response has `ok = false`, with this status and status text. -/
  | notOk (status : Nat) (statusText : String)
  /-- The call `response.json()` is rejected with this message. -/
  | invalidJson (message : String)
  /-- The response is ok and its body has these properties; `success` is the
  truthiness of `data.success`. -/
  | body (success : Bool) (url filename error : Option String)
deriving DecidableEq

/-- A request issued by the uploader. -/
inductive UploadRequest where
  /-- The request `OPTIONS upload.php` of lines 21-27. -/
  | preflight
  /-- The request `POST upload.php` with the file in its form data. -/
  | upload (file : File)
deriving DecidableEq

/-- The argument of `setPreviewImage`. -/
structure PreviewImage where
  url : String
  name : String
  size : Nat
deriving DecidableEq

/-- The state of `ImageUploader` with a log of its effects. -/
structure Uploader where
  isUploading : Bool
  previewImage : Option PreviewImage
  /-- Every request issued so far. -/
  requests : List UploadRequest
  /-- Every notification shown so far. -/
  toasts : List Toast
  /-- The argument of every call of `onImageUploaded` so far. -/
  uploaded : List (Option UploadedImage)
deriving DecidableEq

/-- The `catch` block of `uploadImage`, lines 75-109, for an error with the
given message; `development` is `process.env.NODE_ENV === "development"` and
`createObjectURL` is `URL.createObjectURL`. -/
def uploadCatch (development : Bool) (createObjectURL : File → String) (s : Uploader)
    (file : File) (message : String) : Uploader :=
  let s1 :=
    if includes message "Network Error" || includes message "Failed to fetch" then
      { s with toasts := s.toasts ++ [Toast.error
          "Network error: Could not connect to the server. Please check your internet connection."] }
    else
      { s with toasts := s.toasts ++ [Toast.error ("Failed to upload image: " ++ message)] }
  if development then
    let mockServerUrl := "https://example.com/fake-upload-path/" ++ file.name
    let mockImageData : UploadedImage :=
      { url := some (createObjectURL file), serverUrl := some mockServerUrl }
    { s1 with
      previewImage := some { url := createObjectURL file, name := file.name, size := file.size }
      uploaded := s1.uploaded ++ [some mockImageData]
      toasts := s1.toasts ++ [Toast.success "Using local preview (development mode)"] }
  else
    s1

/-- The function `uploadImage`, lines 13-111, run to its end on the given
outcome of the upload request.  The outcome of the preflight request is of no
consequence (lines 28-31). -/
def uploadImage (development : Bool) (createObjectURL : File → String) (s : Uploader)
    (file : File) (outcome : UploadOutcome) : Uploader :=
  let s1 := { s with
    isUploading := true
    requests := s.requests ++ [UploadRequest.preflight, UploadRequest.upload file] }
  let s2 :=
    match outcome with
    | .rejected message => uploadCatch development createObjectURL s1 file message
    | .notOk status statusText =>
      uploadCatch development createObjectURL s1 file
        ("Server responded with " ++ toString status ++ ": " ++ statusText)
    | .invalidJson message => uploadCatch development createObjectURL s1 file message
    | .body success url _ error =>
      if success then
        let imageData : UploadedImage :=
          { url := some (createObjectURL file), serverUrl := url }
        { s1 with
          previewImage := some { url := createObjectURL file, name := file.name,
                                 size := file.size }
          uploaded := s1.uploaded ++ [some imageData]
          toasts := s1.toasts ++ [Toast.success "Image uploaded successfully!"] }
      else
        { s1 with toasts := s1.toasts ++
            [Toast.error (orDefault error "Failed to upload image")] }
  { s2 with isUploading := false }

/-- The callback `onDrop`, lines 113-125, with the outcome of the upload it
may start. -/
def onDrop (development : Bool) (createObjectURL : File → String) (s : Uploader)
    (acceptedFiles : List File) (outcome : UploadOutcome) : Uploader :=
  match acceptedFiles with
  | [] => s
  | file :: _ =>
    if startsWith file.type "image/" then
      uploadImage development createObjectURL s file outcome
    else
      { s with toasts := s.toasts ++ [Toast.error "Please upload an image file"] }

/-- The uploader as first rendered. -/
def Uploader.init : Uploader :=
  { isUploading := false, previewImage := none, requests := [], toasts := [], uploaded := [] }

/-- A blob URL for a file. -/
def sampleObjectURL (file : File) : String :=
  "blob:http://localhost:3000/" ++ file.name

/-! ## Utilities (`lib/utils.js`) -/

/-- A value passed to `cn`: a class name, or what a conditional expression such
as `cond && name` leaves when the condition fails. -/
inductive ClassValue where
  | str (s : String)
  | bool (b : Bool)
  | null
  | undefined
deriving DecidableEq

/-- The function `Boolean` on a `ClassValue`: its truthiness. -/
def ClassValue.truthy : ClassValue → Bool
  | .str s => MeshifAI.truthy s
  | .bool b => b
  | .null => false
  | .undefined => false

/-- The text `Array.prototype.join` puts for an element: the empty text for
`null` and `undefined`, else `ToString` of the element. -/
def ClassValue.text : ClassValue → String
  | .str s => s
  | .bool b => boolToString b
  | .null => ""
  | .undefined => ""

/-- The method `Array.prototype.join` on an array of texts. -/
def join (separator : String) : List String → String
  | [] => ""
  | [a] => a
  | a :: b :: l => a ++ separator ++ join separator (b :: l)

/-- The function `cn`, `utils.js` lines 6-8. -/
def cn (classes : List ClassValue) : String :=
  join " " ((classes.filter ClassValue.truthy).map ClassValue.text)

/-! ## Gallery: `sortModels` -/

/-- The difference `new Date(x) - new Date(y)` as the sort reads it; `none` is
an invalid date, whose time value is `NaN`, and a comparator result of `NaN`
counts as `+0`. -/
def dateDifference (x y : Option Int) : Int :=
  match x, y with
  | some a, some b => a - b
  | _, _ => 0

/-- The variable `comparison` of the comparator, lines 859-876.  `localeCompare`
is `String.prototype.localeCompare` and `time` gives the time value of
`new Date(created)`. -/
def comparison (localeCompare : String → String → Int) (time : String → Option Int)
    (sortBy : String) (a b : Model) : Int :=
  if sortBy = "newest" then dateDifference (time b.created) (time a.created)
  else if sortBy = "oldest" then dateDifference (time a.created) (time b.created)
  else if sortBy = "size" then b.size - a.size
  else if sortBy = "name" then localeCompare a.filename b.filename
  else dateDifference (time b.created) (time a.created)

/-- The comparator passed to `sort`, lines 858-879. -/
def comparator (localeCompare : String → String → Int) (time : String → Option Int)
    (sortBy direction : String) (a b : Model) : Int :=
  if direction = "asc" then -comparison localeCompare time sortBy a b
  else comparison localeCompare time sortBy a b

/-- The function `sortModels`, lines 857-880: a sorted copy of `models`.
`Array.prototype.sort` is stable and puts `a` before `b` when the comparator
is negative on `(a, b)`; insertion sort is such a sort. -/
def sortModels (localeCompare : String → String → Int) (time : String → Option Int)
    (models : List Model) (sortBy direction : String) : List Model :=
  models.insertionSort
    (fun a b => comparator localeCompare time sortBy direction a b ≤ 0)

/-- Comparison of two texts by code points, as an integer below, at or above 0;
`localeCompare` agrees with its sign on lower-case ASCII letters, digits and
the dot. -/
def codePointCompare (a b : String) : Int :=
  if a.data < b.data then -1 else if b.data < a.data then 1 else 0

/-! ## Settings component: teardown -/

/-- The component is torn down: React runs the clean-up installed by the last
render, lines 45-50, with the `pollInterval` of that render. -/
def unmount (s : State) : State :=
  effectCleanup s.pollInterval s

/-- The state setters of an unmounted component do nothing: the state
variables keep the values they had before the handler ran.  The prop
`isGenerating` is state of the parent and does change. -/
def settersIgnored (prev next : State) : State :=
  { next with
    pollInterval := prev.pollInterval
    generationProgress := prev.generationProgress
    predictionId := prev.predictionId
    showApiKey := prev.showApiKey }

/-- One turn of the event loop after teardown: the form is gone, so the only
events are timers that are still live and responses to requests in flight,
whose continuations run as before; nothing is rendered any more. -/
def stepUnmounted (env : Env) (s : State) : Event → Option State
  | .tick timer =>
    match s.timers.find? (fun t => t.id == timer) with
    | some t => some (settersIgnored s (pollTick s t))
    | none => none
  | .respond i r now =>
    match s.pending[i]? with
    | some p =>
      some (settersIgnored s (resume env { s with pending := s.pending.eraseIdx i } p r now))
    | none => none
  | _ => none

/-- A sequence of turns of the event loop after teardown. -/
def runUnmounted (env : Env) (s : State) : List Event → Option State
  | [] => some s
  | e :: es => (stepUnmounted env s e).bind (fun s1 => runUnmounted env s1 es)

/-- The request is a status request. -/
def Request.isStatus : Request → Bool
  | .status _ _ => true
  | _ => false

/-- The request in flight is a creation request. -/
def Pending.isCreate : Pending → Bool
  | .create _ _ _ => true
  | _ => false

/-- A handler run that creates no timer, parks no creation request and issues
no status request. -/
def Still (s next : State) : Prop :=
  next.timers.Sublist s.timers ∧
  next.nextTimer = s.nextTimer ∧
  (∀ p ∈ next.pending, p ∈ s.pending ∨ p.isCreate = false) ∧
  next.requests.filter Request.isStatus = s.requests.filter Request.isStatus

/-! ## JSON text: `JSON.stringify`, the two `replace` calls, `JSON.parse` -/

/-- A JSON value.  A number is kept as its token, the text that stands for it. -/
inductive Json where
  | null
  | bool (b : Bool)
  | num (token : String)
  | str (s : String)
  | arr (items : List Json)
  | obj (members : List (String × Json))

/-- The hexadecimal digit for a number below 16, in lower case. -/
def hexDigit (n : Nat) : Char :=
  if n < 10 then Char.ofNat (48 + n) else Char.ofNat (87 + n)

/-- The escape of one character inside a JSON string literal, as
`JSON.stringify` writes it (`QuoteJSONString`). -/
def escapeChar (c : Char) : List Char :=
  if c = '"' then ['\\', '"']
  else if c = '\\' then ['\\', '\\']
  else if c.toNat = 0x08 then ['\\', 'b']
  else if c.toNat = 0x0C then ['\\', 'f']
  else if c.toNat = 0x0A then ['\\', 'n']
  else if c.toNat = 0x0D then ['\\', 'r']
  else if c.toNat = 0x09 then ['\\', 't']
  else if c.toNat < 0x20 then
    ['\\', 'u', '0', '0', hexDigit (c.toNat / 16), hexDigit (c.toNat % 16)]
  else [c]

/-- The JSON string literal for a text: `JSON.stringify` of a string. -/
def quote (s : String) : List Char :=
  '"' :: (s.data.flatMap escapeChar ++ ['"'])

mutual
/-- The characters of `JSON.stringify(value)` (no indentation). -/
def stringifyChars : Json → List Char
  | .null => "null".data
  | .bool b => (boolToString b).data
  | .num token => token.data
  | .str s => quote s
  | .arr items => '[' :: (stringifyItems items ++ [']'])
  | .obj members => '{' :: (stringifyMembers members ++ ['}'])
/-- The elements of an array, separated by commas. -/
def stringifyItems : List Json → List Char
  | [] => []
  | [a] => stringifyChars a
  | a :: b :: l => stringifyChars a ++ ',' :: stringifyItems (b :: l)
/-- The members of an object, separated by commas. -/
def stringifyMembers : List (String × Json) → List Char
  | [] => []
  | [(k, v)] => quote k ++ ':' :: stringifyChars v
  | (k, v) :: b :: l => quote k ++ ':' :: (stringifyChars v ++ ',' :: stringifyMembers (b :: l))
end

/-- The method `JSON.stringify`. -/
def stringify (value : Json) : String :=
  ⟨stringifyChars value⟩

/-- The call `text.replace(/ab/g, c)` for a pattern of two literal characters
`a`, `b` and a replacement of one character: every occurrence, from the left,
without overlap. -/
def replacePair (a b c : Char) : List Char → List Char
  | [] => []
  | [x] => [x]
  | x :: y :: rest =>
    if x = a ∧ y = b then c :: replacePair a b c rest
    else x :: replacePair a b c (y :: rest)

/-- The post-processing of lines 92-94 and 196-198:
`.replace(/\\"/g, '"').replace(/\\\//g, '/')`. -/
def postProcess (jsonString : String) : String :=
  ⟨replacePair '\\' '/' '/' (replacePair '\\' '"' '"' jsonString.data)⟩

/-- JSON white space is skipped. -/
def skipSpace : List Char → List Char
  | [] => []
  | c :: rest =>
    if c = ' ' ∨ c = '\t' ∨ c = '\n' ∨ c = '\r' then skipSpace rest else c :: rest

/-- The value of a hexadecimal digit. -/
def hexValue (c : Char) : Option Nat :=
  if '0' ≤ c ∧ c ≤ '9' then some (c.toNat - 48)
  else if 'a' ≤ c ∧ c ≤ 'f' then some (c.toNat - 87)
  else if 'A' ≤ c ∧ c ≤ 'F' then some (c.toNat - 55)
  else none

/-- The rest of a JSON string literal, after its opening quote: the text it
stands for and what follows the closing quote; `none` when the literal is
malformed.  `acc` holds the characters read so far, last first. -/
def parseStringBody (acc : List Char) : List Char → Option (String × List Char)
  | [] => none
  | '"' :: rest => some (⟨acc.reverse⟩, rest)
  | '\\' :: 'u' :: a :: b :: c :: d :: rest =>
    match hexValue a, hexValue b, hexValue c, hexValue d with
    | some x, some y, some z, some w =>
      parseStringBody (Char.ofNat (((x * 16 + y) * 16 + z) * 16 + w) :: acc) rest
    | _, _, _, _ => none
  | '\\' :: e :: rest =>
    if e = '"' then parseStringBody ('"' :: acc) rest
    else if e = '\\' then parseStringBody ('\\' :: acc) rest
    else if e = '/' then parseStringBody ('/' :: acc) rest
    else if e = 'b' then parseStringBody (Char.ofNat 0x08 :: acc) rest
    else if e = 'f' then parseStringBody (Char.ofNat 0x0C :: acc) rest
    else if e = 'n' then parseStringBody ('\n' :: acc) rest
    else if e = 'r' then parseStringBody ('\r' :: acc) rest
    else if e = 't' then parseStringBody ('\t' :: acc) rest
    else none
  | c :: rest =>
    if c.toNat < 0x20 ∨ c = '\\' then none else parseStringBody (c :: acc) rest

/-- The digits at the head of a text, and the rest. -/
def spanDigits : List Char → List Char × List Char
  | [] => ([], [])
  | c :: rest =>
    if c.isDigit then ((spanDigits rest).1.cons c, (spanDigits rest).2) else ([], c :: rest)

/-- A JSON number at the head of a text: its token and the rest. -/
def parseNumber (input : List Char) : Option (String × List Char) :=
  let (sign, s1) := match input with
    | '-' :: rest => (['-'], rest)
    | _ => ([], input)
  let (int, s2) := spanDigits s1
  if int = [] ∨ (int.length > 1 ∧ int.head? = some '0') then none
  else
    let fraction : Option (List Char × List Char) := match s2 with
      | '.' :: rest =>
        let (digits, s3) := spanDigits rest
        if digits = [] then none else some ('.' :: digits, s3)
      | _ => some ([], s2)
    match fraction with
    | none => none
    | some (frac, s3) =>
      let exponent : Option (List Char × List Char) := match s3 with
        | e :: rest =>
          if e = 'e' ∨ e = 'E' then
            let (esign, s4) := match rest with
              | '+' :: r => (['+'], r)
              | '-' :: r => (['-'], r)
              | _ => ([], rest)
            let (digits, s5) := spanDigits s4
            if digits = [] then none else some (e :: (esign ++ digits), s5)
          else some ([], s3)
        | [] => some ([], s3)
      match exponent with
      | none => none
      | some (exp, s5) => some (⟨sign ++ int ++ frac ++ exp⟩, s5)

/-- The member `key: value` is added to an object under construction; a key
that is already there gets the new value. -/
def setMember (key : String) (value : Json) : List (String × Json) → List (String × Json)
  | [] => [(key, value)]
  | (k, v) :: l => if k = key then (k, value) :: l else (k, v) :: setMember key value l

mutual
/-- A JSON value at the head of a text (after white space): the value and the
rest.  `fuel` bounds the nesting and the number of elements. -/
def parseValue : Nat → List Char → Option (Json × List Char)
  | 0, _ => none
  | fuel + 1, input =>
    match skipSpace input with
    | '{' :: rest =>
      match skipSpace rest with
      | '}' :: rest1 => some (.obj [], rest1)
      | rest1 => parseMembers fuel [] rest1
    | '[' :: rest =>
      match skipSpace rest with
      | ']' :: rest1 => some (.arr [], rest1)
      | rest1 => parseItems fuel [] rest1
    | '"' :: rest =>
      match parseStringBody [] rest with
      | some (s, rest1) => some (.str s, rest1)
      | none => none
    | 't' :: 'r' :: 'u' :: 'e' :: rest => some (.bool true, rest)
    | 'f' :: 'a' :: 'l' :: 's' :: 'e' :: rest => some (.bool false, rest)
    | 'n' :: 'u' :: 'l' :: 'l' :: rest => some (.null, rest)
    | other =>
      match parseNumber other with
      | some (token, rest1) => some (.num token, rest1)
      | none => none
/-- The elements of an array and its closing bracket; `acc` holds the elements
read so far, last first. -/
def parseItems : Nat → List Json → List Char → Option (Json × List Char)
  | 0, _, _ => none
  | fuel + 1, acc, input =>
    match parseValue fuel input with
    | none => none
    | some (v, rest) =>
      match skipSpace rest with
      | ',' :: rest1 => parseItems fuel (v :: acc) rest1
      | ']' :: rest1 => some (.arr (v :: acc).reverse, rest1)
      | _ => none
/-- The members of an object and its closing brace. -/
def parseMembers : Nat → List (String × Json) → List Char → Option (Json × List Char)
  | 0, _, _ => none
  | fuel + 1, acc, input =>
    match skipSpace input with
    | '"' :: rest =>
      match parseStringBody [] rest with
      | none => none
      | some (key, rest1) =>
        match skipSpace rest1 with
        | ':' :: rest2 =>
          match parseValue fuel rest2 with
          | none => none
          | some (v, rest3) =>
            match skipSpace rest3 with
            | ',' :: rest4 => parseMembers fuel (setMember key v acc) rest4
            | '}' :: rest4 => some (.obj (setMember key v acc), rest4)
            | _ => none
        | _ => none
    | _ => none
end

/-- The function `JSON.parse`: the value a text stands for, or `none` when it
throws a `SyntaxError`.  The length of the text is fuel enough. -/
def parse (text : String) : Option Json :=
  match parseValue (text.data.length + 1) text.data with
  | some (value, rest) => if skipSpace rest = [] then some value else none
  | none => none

/-- Lines 92-99 and 196-203: `JSON.parse` of the post-processed
`JSON.stringify` text of a value. -/
def reparseJson (value : Json) : Option Json :=
  parse (postProcess (stringify value))

/-- The digits after the decimal point of `r / d`, for `r < d`, at most `fuel`
of them. -/
def fractionDigits : Nat → Nat → Nat → List Char
  | 0, _, _ => []
  | fuel + 1, r, d =>
    if r = 0 then [] else Char.ofNat (48 + r * 10 / d) :: fractionDigits fuel (r * 10 % d) d

/-- The token `JSON.stringify` writes for a number with a short decimal
expansion, such as the values of the sliders. -/
def numberToken (q : Rat) : String :=
  let n := q.num.natAbs
  let whole := (if q.num < 0 then "-" else "") ++ toString (n / q.den)
  if n % q.den = 0 then whole
  else whole ++ "." ++ ⟨fractionDigits 20 (n % q.den) q.den⟩

/-- The object `requestData` of `onSubmit` as a JSON value, with its keys in
the order of lines 79-89. -/
def requestJson (r : RequestData) : Json :=
  .obj [("image", .str r.image),
        ("model", .str r.model),
        ("steps", .num (toString r.steps)),
        ("guidance_scale", .num (numberToken r.guidance_scale)),
        ("check_box_rembg", .bool r.check_box_rembg),
        ("octree_resolution", .str r.octree_resolution),
        ("caption", .str r.caption),
        ("seed", .num (toString r.seed)),
        ("api_key", .str r.api_key)]

/-- The object `downloadRequest` of `downloadModelFiles` as a JSON value. -/
def downloadJson (urls : List String) : Json :=
  .obj [("urls", .arr (urls.map Json.str))]

/-- The member of an object under a key, as `body[key]` reads it. -/
def member (key : String) : List (String × Json) → Option Json
  | [] => none
  | (k, v) :: l => if k = key then some v else member key l

/-- An element of the `urls` array of a posted body: a string is its text; an
element that is not a string is recorded by its JSON text. -/
def itemText : Json → String
  | .str s => s
  | other => stringify other

/-- The URL list of a posted body: the elements of its member `urls`. -/
def urlsOfBody : Json → List String
  | .obj members =>
    match member "urls" members with
    | some (.arr items) => items.map itemText
    | _ => []
  | _ => []

/-- Lines 190-203 of `downloadModelFiles` on the chosen `urls`: the object
`{ urls }` goes through `JSON.stringify`, the two `replace` calls and
`JSON.parse`.  The result is the URL list of the body that is posted, or the
`SyntaxError` that `JSON.parse` throws (the wording of its message depends on
the engine). -/
def reparseUrlsJson (urls : List String) : Except String (List String) :=
  match reparseJson (downloadJson urls) with
  | none => .error "Unexpected token in JSON"
  | some body => .ok (urlsOfBody body)

/-- A character that `JSON.stringify` writes as it is and that is neither a
double quote nor a backslash. -/
def plainChar (c : Char) : Bool :=
  c != '"' && c != '\\' && decide (0x20 ≤ c.toNat)

/-- A text without double quotes, backslashes and control characters. -/
def plainText (s : String) : Bool :=
  s.data.all plainChar

/-- The request object built from the sample form, with the given caption. -/
def sampleRequest (caption : String) : RequestData :=
  { image := "https://h/up/duck.png", model := "tencent/hunyuan3d-2", steps := 30,
    guidance_scale := 5, check_box_rembg := true, octree_resolution := "256",
    caption := caption, seed := 7, api_key := "key" }

/-! ## Gallery: `sortModels` as a call -/

/-- The method `Array.prototype.sort` sorts the array in place and returns it:
the array after the call, and the value returned. -/
def sortInPlace (le : Model → Model → Prop) [DecidableRel le] (array : List Model) :
    List Model × List Model :=
  (array.insertionSort le, array.insertionSort le)

/-- The call `sortModels(models, sortBy, direction)`, lines 857-880: the array
`models` after the call, and the value returned.  The method `sort` is called
on the copy `[...models]`, a new array. -/
def sortModelsCall (localeCompare : String → String → Int) (time : String → Option Int)
    (models : List Model) (sortBy direction : String) : List Model × List Model :=
  let copy := models
  (models, (sortInPlace
    (fun a b => comparator localeCompare time sortBy direction a b ≤ 0) copy).2)

/-! ## Gallery: fetching, selecting -/

/-- What becomes of the request `GET ?action=list`. -/
inductive ListOutcome where
  /-- The promise is rejected (network error, non-2xx status), with the message
  of the error and the `error` property of the response body, if any. -/
  | rejected (message : String) (serverError : Option String)
  /-- The response is 2xx and its body has these properties; `success` is the
  truthiness of `data.success`, `none` is a missing property. -/
  | body (success : Bool) (models : Option (List Model)) (error : Option String)

/-- The state of `ModelGallery` with a log of its effects. -/
structure Gallery where
  models : List Model
  filteredModels : List Model
  isLoading : Bool
  error : Option String
  filter : String
  searchQuery : String
  sortBy : String
  sortDirection : String
  selectedModel : Option Model
  /-- Every notification shown so far. -/
  toasts : List Toast
  /-- The argument of every call of the parent callback `onSelectModel` so far. -/
  selected : List Model

/-- The `catch` block of `fetchModels` in `ModelGallery`, lines 905-908. -/
def Gallery.fetchCatch (g : Gallery) : Gallery :=
  { g with
    error := some "Failed to load models. Please try again."
    toasts := g.toasts ++ [Toast.error "Failed to load models"] }

/-- The function `fetchModels` of `ModelGallery`, lines 883-912, run to its end
on the given outcome of the list request. -/
def Gallery.fetchModels (localeCompare : String → String → Int)
    (time : String → Option Int) (g : Gallery) (outcome : ListOutcome) : Gallery :=
  let g1 := { g with isLoading := true, error := none }
  let g2 :=
    match outcome with
    | .rejected _ _ => g1.fetchCatch
    | .body success models _ =>
      if success then
        let modelData := models.getD []
        { g1 with
          models := modelData
          filteredModels := sortModels localeCompare time modelData g.sortBy g.sortDirection }
      else g1.fetchCatch
  { g2 with isLoading := false }

/-- The filter effect of `ModelGallery`, lines 828-854. -/
def Gallery.filterEffect (toLowerCase : String → String)
    (localeCompare : String → String → Int) (time : String → Option Int) (g : Gallery) :
    Gallery :=
  if g.models.length = 0 then g
  else
    let filtered := filterStep toLowerCase g.models g.filter g.searchQuery
    { g with filteredModels := sortModels localeCompare time filtered g.sortBy g.sortDirection }

/-- The handler `handleModelSelect`, lines 977-980. -/
def Gallery.handleModelSelect (g : Gallery) (model : Model) : Gallery :=
  { g with selectedModel := some model }

/-- The handler `handleCloseModal`, lines 983-988. -/
def Gallery.handleCloseModal (g : Gallery) (selectForMainViewer : Bool) : Gallery :=
  let g1 :=
    match g.selectedModel with
    | some model =>
      if selectForMainViewer then { g with selected := g.selected ++ [model] } else g
    | none => g
  { g1 with selectedModel := none }

/-- What the user can do in the gallery, by the elements it renders and the
handlers it defines. -/
inductive GalleryAction where
  /-- The refresh button (line 998), with the outcome of the list request. -/
  | refresh (outcome : ListOutcome)
  /-- A click on a model card: `onSelect={handleModelSelect}` (line 1050). -/
  | selectCard (model : Model)
  /-- The modal is closed, by its button, its overlay or the escape key: all
  three call `onClose`, which is `() => handleCloseModal(false)` (line 1062). -/
  | closeModal
  /-- The handler `handleSearchChange`, lines 929-931. -/
  | searchChange (value : String)
  /-- The handler `clearSearch`, lines 934-939. -/
  | clearSearch

/-- One action of the user in the gallery, followed by the filter effect when
one of its dependencies has been set. -/
def Gallery.act (toLowerCase : String → String) (localeCompare : String → String → Int)
    (time : String → Option Int) (g : Gallery) : GalleryAction → Gallery
  | .refresh outcome =>
    match outcome with
    | .body true models error =>
      (g.fetchModels localeCompare time (.body true models error)).filterEffect
        toLowerCase localeCompare time
    | other => g.fetchModels localeCompare time other
  | .selectCard model => g.handleModelSelect model
  | .closeModal => g.handleCloseModal false
  | .searchChange value =>
    Gallery.filterEffect toLowerCase localeCompare time { g with searchQuery := value }
  | .clearSearch =>
    Gallery.filterEffect toLowerCase localeCompare time { g with searchQuery := "" }

/-- A sequence of actions of the user in the gallery. -/
def Gallery.run (toLowerCase : String → String) (localeCompare : String → String → Int)
    (time : String → Option Int) (g : Gallery) (actions : List GalleryAction) : Gallery :=
  actions.foldl (Gallery.act toLowerCase localeCompare time) g

/-- The state of `ModelsList` with a log of its notifications. -/
structure ModelsList where
  models : List Model
  isLoading : Bool
  error : Option String
  toasts : List Toast

/-- The `catch` block of `fetchModels` in `ModelsList`, lines 28-31, for an
error with the given message and `response?.data?.error`. -/
def ModelsList.fetchCatch (l : ModelsList) (message : String) (serverError : Option String) :
    ModelsList :=
  { l with
    error := some ("Failed to load models: " ++ orDefault serverError message)
    toasts := l.toasts ++ [Toast.error "Failed to load models"] }

/-- The function `fetchModels` of `ModelsList`, lines 14-35, run to its end on
the given outcome of the list request. -/
def ModelsList.fetchModels (l : ModelsList) (outcome : ListOutcome) : ModelsList :=
  let l1 := { l with isLoading := true, error := none }
  let l2 :=
    match outcome with
    | .rejected message serverError => l1.fetchCatch message serverError
    | .body success models error =>
      if success then { l1 with models := models.getD [] }
      else l1.fetchCatch (orDefault error "Failed to fetch models") none
  { l2 with isLoading := false }

/-! ## Gallery: `getShortFilename` -/

/-- The UTF-16 code units of a character: one unit, or a surrogate pair for a
character outside the Basic Multilingual Plane. -/
def utf16Char (c : Char) : List Nat :=
  if c.toNat < 0x10000 then [c.toNat]
  else [0xD800 + (c.toNat - 0x10000) / 0x400, 0xDC00 + (c.toNat - 0x10000) % 0x400]

/-- A JavaScript string as the sequence of its UTF-16 code units, which is what
`length`, `substring` and `split` count and cut. -/
def utf16 (s : String) : List Nat :=
  s.data.flatMap utf16Char

/-- The code unit of the dot. -/
def dot : Nat := 46

/-- The method `String.prototype.split` for a separator of one code unit: the
pieces of the text between the occurrences of the separator. -/
def splitUnits (separator : Nat) : List Nat → List (List Nat)
  | [] => [[]]
  | c :: rest =>
    if c = separator then [] :: splitUnits separator rest
    else
      match splitUnits separator rest with
      | [] => [[c]]
      | piece :: pieces => (c :: piece) :: pieces

/-- The method `Array.prototype.join` on texts given by their code units. -/
def joinUnits (separator : List Nat) : List (List Nat) → List Nat
  | [] => []
  | [a] => a
  | a :: b :: l => a ++ separator ++ joinUnits separator (b :: l)

/-- The function `getShortFilename`, lines 40-54, on the code units of the
filename: `length` counts code units and `substring(0, 8)` keeps the first 8
code units. -/
def getShortFilename (filename : List Nat) : List Nat :=
  let nameParts := splitUnits dot filename
  if nameParts.length > 1 then
    let ext := nameParts.getLast?.getD []
    let baseName := joinUnits [dot] nameParts.dropLast
    if baseName.length > 8 then baseName.take 8 ++ [dot, dot, dot] ++ ext
    else baseName ++ [dot] ++ ext
  else if filename.length > 10 then filename.take 8 ++ [dot, dot, dot]
  else filename

/-! ## The page (`page.js`) -/

/-- The URL of the example model the page shows at first, lines 24 and 38. -/
def exampleModelUrl : String :=
  "https://tinker.0xretro.dev/MeshifAI/ExampleModels/Rubber_Duck_textured.glb"

/-- The state of `Home` that `handleImageUploaded` touches. -/
structure Home where
  uploadedImage : Option UploadedImage
  generatedModel : Option GeneratedModel
deriving DecidableEq

/-- The handler `handleImageUploaded`, lines 35-41; the argument is `null` when
the image is removed. -/
def handleImageUploaded (h : Home) (imageData : Option UploadedImage) : Home :=
  let h1 := { h with uploadedImage := imageData }
  match h.generatedModel with
  | some generatedModel =>
    if generatedModel.url ≠ exampleModelUrl then { h1 with generatedModel := none } else h1
  | none => h1

/-- The time values of two creation dates, for examples. -/
def sampleTime (created : String) : Option Int :=
  if created = "2025-01-01T00:00:00.000Z" then some 1735689600000
  else if created = "2025-01-02T00:00:00.000Z" then some 1735776000000
  else none

/-- Two models, the older and smaller one first. -/
def sampleModels : List Model :=
  [{ filename := "a.glb", url := "https://h/a.glb", size := 100,
     created := "2025-01-01T00:00:00.000Z" },
   { filename := "b.glb", url := "https://h/b.glb", size := 200,
     created := "2025-01-02T00:00:00.000Z" }]

/-- The body of a status response for a succeeded job with one textured mesh. -/
def succeededData : ResponseData :=
  { id := none, status := some "succeeded",
    output := .array ["https://h/out/textured_mesh.glb"], error := none,
    success := false, downloaded := none }

/-- The body of a download response with one downloaded file. -/
def downloadedData : ResponseData :=
  { id := none, status := none, output := .absent, error := none, success := true,
    downloaded := some [{ download_url := "https://h/models/a.glb", filename := "a.glb" }] }

/-- A session without cancellation: job `A` is created and polled twice before
an answer arrives; the first poll is answered `succeeded`, which starts the
download, and the second fails on the network, which sets the generating flag
to false; a second job `B` is submitted and created; then the download of job
`A` is answered. -/
def staleDownloadSession : List Event :=
  [.submit sampleForm 7,
   .respond 0 (.ok (createdData "A")) "",
   .tick 0,
   .tick 0,
   .respond 0 (.ok succeededData) "",
   .respond 0 (.failure "Network Error" none) "",
   .submit sampleForm 8,
   .respond 1 (.ok (createdData "B")) "",
   .respond 0 (.ok downloadedData) "2025-01-01T00:00:00.000Z"]

/-- A session with a cancellation: a job is submitted and cancelled before its
creation request is answered, a second job is submitted and created, and then
the first creation request fails. -/
def staleCreationSession : List Event :=
  [.submit sampleForm 7,
   .cancel,
   .submit sampleForm 8,
   .respond 1 (.ok (createdData "B")) "",
   .respond 0 (.failure "Network Error" none) ""]

/-- A session without cancellation that ends with a timer recorded and a
creation request in flight: job `A` is created and polled twice before an
answer arrives; the first poll is answered `failed`, which sets the generating
flag to false, and the form is submitted again; the second poll is answered
`failed` too, and the form is submitted a third time; then the second creation
request is answered with the id `B`. -/
def doubleCreationSession : List Event :=
  [.submit sampleForm 7,
   .respond 0 (.ok (createdData "A")) "",
   .tick 0,
   .tick 0,
   .respond 0 (.ok (statusData "failed")) "",
   .submit sampleForm 8,
   .respond 0 (.ok (statusData "failed")) "",
   .submit sampleForm 9,
   .respond 0 (.ok (createdData "B")) ""]

/-- The state at the end of `doubleCreationSession`: timer 1 polls job `B` and
is recorded, and the third creation request is in flight; its handler has the
`pollInterval` of its render, `null`, in its closure. -/
def doubleCreationState : State :=
  { uploadedImage := some sampleImage
    isGenerating := true
    pollInterval := some 1
    generationProgress := 10
    predictionId := some "B"
    showApiKey := false
    timers := [{ id := 1, jobId := "B", apiKey := "key", predictionId := some "A" }]
    nextTimer := 2
    pending := [Pending.create "key" none (some "A")]
    requests :=
      [Request.create { sampleRequest "" with seed := 7 } "key",
       Request.status "A" "key",
       Request.status "A" "key",
       Request.create { sampleRequest "" with seed := 8 } "key",
       Request.create { sampleRequest "" with seed := 9 } "key"]
    toasts := [Toast.error "Error checking model status: Generation failed",
               Toast.error "Error checking model status: Generation failed"]
    generated := [] }

/-! ## String methods against the list relations of Mathlib -/

theorem includes_iff (s p : String) : includes s p = true ↔ p.data <:+: s.data := by
  unfold includes
  rw [List.any_eq_true, List.infix_iff_prefix_suffix]
  constructor
  · rintro ⟨t, ht, hp⟩
    exact ⟨t, List.isPrefixOf_iff_prefix.mp hp, (List.mem_tails t s.data).mp ht⟩
  · rintro ⟨t, hp, ht⟩
    exact ⟨t, (List.mem_tails t s.data).mpr ht, List.isPrefixOf_iff_prefix.mpr hp⟩

theorem endsWith_iff (s p : String) : endsWith s p = true ↔ p.data <:+ s.data := by
  unfold endsWith
  exact List.isSuffixOf_iff_suffix

theorem startsWith_iff (s p : String) : startsWith s p = true ↔ p.data <+: s.data := by
  unfold startsWith
  exact List.isPrefixOf_iff_prefix

theorem trim_of_all_whiteSpace (q : String) (h : ∀ c ∈ q.data, isWhiteSpace c = true) :
    truthy (trim q) = false := by
  have h1 : q.data.dropWhile isWhiteSpace = [] := List.dropWhile_eq_nil_iff.mpr h
  simp [truthy, trim, h1]

/-! ## The choice of URLs in `downloadModelFiles` -/

theorem selectUrls_eq (output : List String) :
    selectUrls output =
      if output.filter (fun url => decide ("textured_mesh.glb".data <:+: url.data)) ≠ [] then
        output.filter (fun url => decide ("textured_mesh.glb".data <:+: url.data))
      else output.filter (fun url => decide (".glb".data <:+ url.data)) := by
  have h1 : (fun url => includes url "textured_mesh.glb") =
      (fun url => decide ("textured_mesh.glb".data <:+: url.data)) := by
    funext url
    rw [Bool.eq_iff_iff, includes_iff]
    simp
  have h2 : (fun url => endsWith url ".glb") =
      (fun url => decide (".glb".data <:+ url.data)) := by
    funext url
    rw [Bool.eq_iff_iff, endsWith_iff]
    simp
  unfold selectUrls
  simp only [h1, h2, gt_iff_lt, List.length_pos, ne_eq]

/-- The requests of `downloadModelFiles` when the composite of lines 196-203
hands back the chosen list. -/
theorem downloadModelFiles_of_reparse
    (reparseUrls : List String → Except String (List String)) (s : State) (t : Timer)
    (output : List String)
    (h : reparseUrls (selectUrls output) = .ok (selectUrls output)) :
    ∃ s1, downloadModelFiles reparseUrls s t (.array output) = .ok s1 ∧
      s1.requests = s.requests ++
        (if output.filter (fun url => decide ("textured_mesh.glb".data <:+: url.data)) ≠ [] then
          [Request.download
            (output.filter (fun url => decide ("textured_mesh.glb".data <:+: url.data)))]
        else if output.filter (fun url => decide (".glb".data <:+ url.data)) ≠ [] then
          [Request.download (output.filter (fun url => decide (".glb".data <:+ url.data)))]
        else []) := by
  have hsel := selectUrls_eq output
  by_cases h0 : (selectUrls output).length = 0
  · refine ⟨downloadFinally (downloadCatch s "No GLB model files found in output"), ?_, ?_⟩
    · simp only [downloadModelFiles, h0, if_true]
    · have hnil : selectUrls output = [] := List.length_eq_zero.mp h0
      rw [hnil] at hsel
      split_ifs at hsel with ha
      · exact absurd hsel.symm ha
      · rw [if_neg ha, if_neg (by rw [← hsel]; simp)]
        simp [downloadFinally, downloadCatch, toastError]
  · refine ⟨{ s with
              requests := s.requests ++ [Request.download (selectUrls output)]
              pending := s.pending ++ [Pending.download t.predictionId] }, ?_, ?_⟩
    · simp only [downloadModelFiles, h0, if_false, h]
    · have hne : selectUrls output ≠ [] := fun e => h0 (by rw [e]; rfl)
      split_ifs at hsel with ha
      · rw [if_pos ha, ← hsel]
      · rw [if_neg ha, if_pos (by rw [← hsel]; exact hne), ← hsel]

/-! ## The JSON round trip of a list of plain URLs -/

theorem escapeChar_plain (c : Char) (h : plainChar c = true) : escapeChar c = [c] := by
  simp only [plainChar, Bool.and_eq_true, bne_iff_ne, ne_eq, decide_eq_true_eq] at h
  obtain ⟨⟨h1, h2⟩, h3⟩ := h
  have a1 : ¬ c.toNat = 0x08 := by omega
  have a2 : ¬ c.toNat = 0x0C := by omega
  have a3 : ¬ c.toNat = 0x0A := by omega
  have a4 : ¬ c.toNat = 0x0D := by omega
  have a5 : ¬ c.toNat = 0x09 := by omega
  have a6 : ¬ c.toNat < 0x20 := by omega
  simp only [escapeChar, h1, h2, a1, a2, a3, a4, a5, a6, if_false]

theorem flatMap_escapeChar_plain (l : List Char) (h : ∀ c ∈ l, plainChar c = true) :
    l.flatMap escapeChar = l := by
  induction l with
  | nil => rfl
  | cons c rest ih =>
    rw [List.flatMap_cons, escapeChar_plain c (h c (List.mem_cons_self _ _)),
      ih (fun d hd => h d (List.mem_cons_of_mem _ hd))]
    rfl

theorem quote_plain (s : String) (h : plainText s = true) :
    quote s = '"' :: (s.data ++ ['"']) := by
  simp only [plainText, List.all_eq_true] at h
  simp only [quote, flatMap_escapeChar_plain s.data h]

theorem replacePair_of_not_mem (a b c : Char) (l : List Char) (h : a ∉ l) :
    replacePair a b c l = l := by
  induction l with
  | nil => rfl
  | cons x rest ih =>
    cases rest with
    | nil => rfl
    | cons y rest2 =>
      have hx : ¬ x = a := fun e => h (e ▸ List.mem_cons_self _ _)
      have hr := ih (fun hm => h (List.mem_cons_of_mem _ hm))
      simp only [replacePair, hx, false_and, if_false, hr]

theorem parseStringBody_plain (cs : List Char) (h : ∀ c ∈ cs, plainChar c = true)
    (acc rest : List Char) :
    parseStringBody acc (cs ++ '"' :: rest) = some (⟨acc.reverse ++ cs⟩, rest) := by
  induction cs generalizing acc with
  | nil => simp [parseStringBody]
  | cons c cs ih =>
    have hc := h c (List.mem_cons_self _ _)
    simp only [plainChar, Bool.and_eq_true, bne_iff_ne, ne_eq, decide_eq_true_eq] at hc
    obtain ⟨⟨h1, h2⟩, h3⟩ := hc
    have h4 : ¬ c.toNat < 0x20 := by omega
    have hstep : parseStringBody acc (c :: (cs ++ '"' :: rest)) =
        parseStringBody (c :: acc) (cs ++ '"' :: rest) := by
      rw [parseStringBody]
      · simp only [h4, h2, or_self, if_false]
      · intro e
        exact h1 e
      · intro a b c1 d r e _
        exact h2 e
      · intro e1 r e _
        exact h2 e
    rw [List.cons_append, hstep, ih (fun d hd => h d (List.mem_cons_of_mem _ hd))]
    simp

theorem parseValue_string (fuel : Nat) (rest : List Char) :
    parseValue (fuel + 1) ('"' :: rest) =
      match parseStringBody [] rest with
      | some (s, rest1) => some (.str s, rest1)
      | none => none :=
  rfl

theorem parseValue_quote (fuel : Nat) (s : String) (h : plainText s = true) (rest : List Char) :
    parseValue (fuel + 1) (quote s ++ rest) = some (.str s, rest) := by
  have hs : ∀ c ∈ s.data, plainChar c = true := by
    simpa only [plainText, List.all_eq_true] using h
  have hb := parseStringBody_plain s.data hs [] rest
  rw [quote_plain s h]
  simp only [List.cons_append, List.append_assoc, List.singleton_append, List.nil_append,
    List.reverse_nil] at hb ⊢
  rw [parseValue_string, hb]

theorem parseItems_comma (fuel : Nat) (acc : List Json) (input rest1 : List Char) (v : Json)
    (h : parseValue fuel input = some (v, ',' :: rest1)) :
    parseItems (fuel + 1) acc input = parseItems fuel (v :: acc) rest1 := by
  rw [parseItems, h]
  rfl

theorem parseItems_close (fuel : Nat) (acc : List Json) (input rest1 : List Char) (v : Json)
    (h : parseValue fuel input = some (v, ']' :: rest1)) :
    parseItems (fuel + 1) acc input = some (.arr (v :: acc).reverse, rest1) := by
  rw [parseItems, h]
  rfl

theorem stringifyItems_one (u : String) : stringifyItems [.str u] = quote u :=
  rfl

theorem stringifyItems_more (u v : String) (l : List Json) :
    stringifyItems (.str u :: .str v :: l) = quote u ++ ',' :: stringifyItems (.str v :: l) :=
  rfl

theorem parseItems_plain (us : List String) :
    ∀ (u : String) (acc : List Json) (rest : List Char) (fuel : Nat),
      (∀ x ∈ u :: us, plainText x = true) → us.length + 2 ≤ fuel →
      parseItems fuel acc (stringifyItems ((u :: us).map Json.str) ++ ']' :: rest) =
        some (.arr (acc.reverse ++ (u :: us).map Json.str), rest) := by
  induction us with
  | nil =>
    intro u acc rest fuel h hf
    obtain ⟨k, rfl⟩ : ∃ k, fuel = k + 2 := ⟨fuel - 2, by simp at hf; omega⟩
    have hv := parseValue_quote k u (h u (List.mem_cons_self _ _)) (']' :: rest)
    simp only [List.map_cons, List.map_nil, stringifyItems_one]
    rw [parseItems_close (k + 1) acc _ rest (.str u) hv]
    simp
  | cons v vs ih =>
    intro u acc rest fuel h hf
    obtain ⟨k, rfl⟩ : ∃ k, fuel = k + 2 := ⟨fuel - 2, by simp at hf; omega⟩
    have hv := parseValue_quote k u (h u (List.mem_cons_self _ _))
      (',' :: (stringifyItems ((v :: vs).map Json.str) ++ ']' :: rest))
    simp only [List.map_cons, stringifyItems_more, List.append_assoc, List.cons_append] at hv ⊢
    rw [parseItems_comma (k + 1) acc _ _ (.str u) hv]
    have hi := ih v (.str u :: acc) rest (k + 1)
      (fun x hx => h x (List.mem_cons_of_mem _ hx)) (by simp at hf ⊢; omega)
    simp only [List.map_cons] at hi
    rw [hi]
    simp

theorem length_le_stringifyItems (us : List String) :
    us.length ≤ (stringifyItems (us.map Json.str)).length := by
  induction us with
  | nil => simp
  | cons u us ih =>
    cases us with
    | nil => simp [stringifyItems_one, quote]
    | cons v vs =>
      simp only [List.map_cons, stringifyItems_more, List.length_append, List.length_cons] at ih ⊢
      simp only [quote, List.length_cons, List.length_append]
      omega

theorem not_mem_stringifyItems (us : List String) (h : ∀ x ∈ us, plainText x = true) :
    '\\' ∉ stringifyItems (us.map Json.str) := by
  have hq : ∀ x, plainText x = true → '\\' ∉ quote x := by
    intro x hx
    rw [quote_plain x hx]
    simp only [plainText, List.all_eq_true] at hx
    intro hm
    simp only [List.mem_cons, List.mem_append, List.mem_singleton] at hm
    rcases hm with hm | hm | hm
    · exact absurd hm (by decide)
    · have := hx _ hm
      revert this
      decide
    · rcases hm with hm | hm
      · exact absurd hm (by decide)
      · exact absurd hm (List.not_mem_nil _)
  induction us with
  | nil =>
    intro hm
    exact absurd hm (List.not_mem_nil _)
  | cons u us ih =>
    have hu := hq u (h u (List.mem_cons_self _ _))
    have hr := ih (fun x hx => h x (List.mem_cons_of_mem _ hx))
    cases us with
    | nil => simpa only [List.map_cons, List.map_nil, stringifyItems_one] using hu
    | cons v vs =>
      simp only [List.map_cons, stringifyItems_more] at hr ⊢
      intro hm
      simp only [List.mem_append, List.mem_cons] at hm
      rcases hm with hm | hm | hm
      · exact hu hm
      · exact absurd hm (by decide)
      · exact hr hm

theorem stringifyChars_downloadJson (urls : List String) :
    stringifyChars (downloadJson urls) =
      '{' :: '"' :: 'u' :: 'r' :: 'l' :: 's' :: '"' :: ':' :: '[' ::
        (stringifyItems (urls.map Json.str) ++ [']', '}']) := by
  simp [downloadJson, stringifyChars, stringifyMembers, quote, escapeChar]

theorem parseValue_object (fuel : Nat) (rest : List Char) :
    parseValue (fuel + 1) ('{' :: '"' :: rest) = parseMembers fuel [] ('"' :: rest) :=
  rfl

theorem parseValue_array_empty (fuel : Nat) (rest : List Char) :
    parseValue (fuel + 1) ('[' :: ']' :: rest) = some (.arr [], rest) :=
  rfl

theorem parseValue_array (fuel : Nat) (rest : List Char) :
    parseValue (fuel + 1) ('[' :: '"' :: rest) = parseItems fuel [] ('"' :: rest) :=
  rfl

theorem parseMembers_urls (fuel : Nat) (input rest : List Char) (v : Json)
    (h : parseValue fuel input = some (v, '}' :: rest)) :
    parseMembers (fuel + 1) [] ('"' :: 'u' :: 'r' :: 'l' :: 's' :: '"' :: ':' :: input) =
      some (.obj [("urls", v)], rest) := by
  have e : parseMembers (fuel + 1) [] ('"' :: 'u' :: 'r' :: 'l' :: 's' :: '"' :: ':' :: input) =
      match parseValue fuel input with
      | none => none
      | some (v, rest3) =>
        match skipSpace rest3 with
        | ',' :: rest4 => parseMembers fuel (setMember "urls" v []) rest4
        | '}' :: rest4 => some (.obj (setMember "urls" v []), rest4)
        | _ => none := rfl
  rw [e, h]
  rfl

/-- The text of `{ urls }` goes through the two `replace` calls and
`JSON.parse` unchanged when no URL has a double quote, a backslash or a control
character. -/
theorem reparseJson_downloadJson_plain (urls : List String)
    (h : ∀ x ∈ urls, plainText x = true) :
    reparseJson (downloadJson urls) = some (downloadJson urls) := by
  have hno : '\\' ∉ stringifyChars (downloadJson urls) := by
    rw [stringifyChars_downloadJson]
    intro hm
    simp only [List.mem_cons, List.mem_append, List.mem_singleton] at hm
    have hi := not_mem_stringifyItems urls h
    revert hm
    simp [hi]
  have hpost : postProcess (stringify (downloadJson urls)) = stringify (downloadJson urls) := by
    simp only [postProcess, stringify]
    rw [replacePair_of_not_mem _ _ _ _ hno, replacePair_of_not_mem _ _ _ _ hno]
  have hlen := length_le_stringifyItems urls
  rw [reparseJson, hpost]
  simp only [parse, stringify]
  rw [stringifyChars_downloadJson]
  have hvalue : ∀ fuel, urls.length + 4 ≤ fuel →
      parseValue fuel ('{' :: '"' :: 'u' :: 'r' :: 'l' :: 's' :: '"' :: ':' :: '[' ::
        (stringifyItems (urls.map Json.str) ++ [']', '}'])) = some (downloadJson urls, []) := by
    intro fuel hf
    obtain ⟨k, rfl⟩ : ∃ k, fuel = k + 3 := ⟨fuel - 3, by omega⟩
    rw [parseValue_object]
    apply parseMembers_urls
    cases urls with
    | nil => exact parseValue_array_empty _ _
    | cons u us =>
      have hq : ∃ body, stringifyItems ((u :: us).map Json.str) = '"' :: body := by
        cases us with
        | nil => exact ⟨_, rfl⟩
        | cons v vs => exact ⟨_, rfl⟩
      obtain ⟨body, hbody⟩ := hq
      have hp := parseItems_plain us u [] ['}'] k h (by simp at hf; omega)
      rw [hbody] at hp ⊢
      simp only [List.cons_append] at hp ⊢
      rw [parseValue_array]
      have e : body ++ [']', '}'] = body ++ ']' :: ['}'] := rfl
      rw [e, hp]
      rfl
  rw [hvalue _ (by simp; omega)]
  rfl

theorem urlsOfBody_downloadJson (urls : List String) :
    urlsOfBody (downloadJson urls) = urls := by
  have hmap : ∀ l : List String, (l.map Json.str).map itemText = l := by
    intro l
    induction l with
    | nil => rfl
    | cons u us ih => simp only [List.map_cons, ih, itemText]
  simp only [urlsOfBody, downloadJson, member, if_true, hmap]

/-- The composite of lines 196-203 hands back the chosen list when no URL has a
double quote, a backslash or a control character. -/
theorem reparseUrlsJson_plain (urls : List String) (h : ∀ x ∈ urls, plainText x = true) :
    reparseUrlsJson urls = .ok urls := by
  simp only [reparseUrlsJson, reparseJson_downloadJson_plain urls h, urlsOfBody_downloadJson]

/-! ## C1: the URLs sent to the download endpoint -/

set_option maxRecDepth 100000 in
/-- C1, as stated, fails: for the output list with the one URL
`https://h/a"b/textured_mesh.glb` the sub-list of the URLs that contain
`textured_mesh.glb` is that list, not empty, and yet nothing is sent to the
download endpoint: `JSON.stringify` escapes the quote, the first `replace` call
strips the escape, `JSON.parse` throws, and `downloadModelFiles` ends in its
`catch` and `finally` blocks with an error notification. -/
theorem downloadModelFiles_quote_posts_nothing :
    ["https://h/a\"b/textured_mesh.glb"].filter (fun url => includes url "textured_mesh.glb") =
      ["https://h/a\"b/textured_mesh.glb"] ∧
    reparseJson (downloadJson ["https://h/a\"b/textured_mesh.glb"]) = none ∧
    ∃ s1, downloadModelFiles reparseUrlsJson (init sampleImage) ⟨0, "A", "key", none⟩
        (.array ["https://h/a\"b/textured_mesh.glb"]) = .ok s1 ∧
      s1.requests = [] ∧ s1.pending = [] ∧ s1.toasts.length = 1 ∧ s1.isGenerating = false :=
  ⟨rfl, rfl,
    downloadFinally (downloadCatch (init sampleImage) "Unexpected token in JSON"),
    rfl, rfl, rfl, rfl, rfl⟩

/-- C1, amended: for every output list whose chosen URLs come back unchanged
from `JSON.stringify`, the two `replace` calls and `JSON.parse` of lines
196-203, as they do when none of them has a double quote, a backslash or a
control character, `downloadModelFiles` posts to the download endpoint the
sub-list of the URLs that contain `textured_mesh.glb` when that sub-list is
non-empty, and otherwise the sub-list of the URLs that end with `.glb`, in the
order of the output; when both sub-lists are empty nothing is posted. -/
theorem downloadModelFiles_posts_round_trip (s : State) (t : Timer) (output : List String)
    (h : (∀ url ∈ selectUrls output, plainText url = true) ∨
      reparseJson (downloadJson (selectUrls output)) = some (downloadJson (selectUrls output))) :
    ∃ s1, downloadModelFiles reparseUrlsJson s t (.array output) = .ok s1 ∧
      s1.requests = s.requests ++
        (if output.filter (fun url => decide ("textured_mesh.glb".data <:+: url.data)) ≠ [] then
          [Request.download
            (output.filter (fun url => decide ("textured_mesh.glb".data <:+: url.data)))]
        else if output.filter (fun url => decide (".glb".data <:+ url.data)) ≠ [] then
          [Request.download (output.filter (fun url => decide (".glb".data <:+ url.data)))]
        else []) := by
  apply downloadModelFiles_of_reparse reparseUrlsJson s t output
  rcases h with h | h
  · exact reparseUrlsJson_plain (selectUrls output) h
  · simp only [reparseUrlsJson, h, urlsOfBody_downloadJson]

theorem downloadModelFiles_posts_round_trip_witness :
    ((∀ url ∈ selectUrls ["https://h/a/white_mesh.glb", "https://h/a/textured_mesh.glb",
        "https://h/a/log.txt"], plainText url = true) ∨
      reparseJson (downloadJson (selectUrls ["https://h/a/white_mesh.glb",
        "https://h/a/textured_mesh.glb", "https://h/a/log.txt"])) =
        some (downloadJson (selectUrls ["https://h/a/white_mesh.glb",
          "https://h/a/textured_mesh.glb", "https://h/a/log.txt"]))) ∧
    ∃ s1, downloadModelFiles reparseUrlsJson (init sampleImage) ⟨0, "A", "key", none⟩
        (.array ["https://h/a/white_mesh.glb", "https://h/a/textured_mesh.glb", "https://h/a/log.txt"])
        = .ok s1 ∧
      s1.requests = [Request.download ["https://h/a/textured_mesh.glb"]] := by
  have hplain : (∀ url ∈ selectUrls ["https://h/a/white_mesh.glb",
      "https://h/a/textured_mesh.glb", "https://h/a/log.txt"], plainText url = true) ∨
      reparseJson (downloadJson (selectUrls ["https://h/a/white_mesh.glb",
        "https://h/a/textured_mesh.glb", "https://h/a/log.txt"])) =
        some (downloadJson (selectUrls ["https://h/a/white_mesh.glb",
          "https://h/a/textured_mesh.glb", "https://h/a/log.txt"])) :=
    Or.inl (by decide)
  refine ⟨hplain, ?_⟩
  obtain ⟨s1, h1, h2⟩ := downloadModelFiles_posts_round_trip (init sampleImage)
    ⟨0, "A", "key", none⟩
    ["https://h/a/white_mesh.glb", "https://h/a/textured_mesh.glb", "https://h/a/log.txt"] hplain
  refine ⟨s1, h1, ?_⟩
  rw [h2]
  decide

set_option maxRecDepth 100000 in
theorem reparseJson_downloadJson_examples :
    reparseJson (downloadJson ["https://h/a/textured_mesh.glb"]) =
      some (downloadJson ["https://h/a/textured_mesh.glb"]) ∧
    reparseJson (downloadJson ["https://h/a\\b.glb"]) = some (downloadJson ["https://h/a\\b.glb"]) ∧
    reparseJson (downloadJson ["https://h/a\\/b.glb"]) = some (downloadJson ["https://h/a/b.glb"]) ∧
    reparseJson (downloadJson ["https://h/a\nb.glb"]) = some (downloadJson ["https://h/a\nb.glb"]) :=
  ⟨rfl, rfl, rfl, rfl⟩

/-! ## C2, C3: the search filter of the gallery -/

/-- C2: the search filter at the model list `[Duck.glb]` with the query `duck`.
The filename contains the query when both are lower-cased and the query has a
non-blank character, yet the filter step drops the model: the callback asks
whether the filename contains the text `true`. -/
theorem filterStep_search_drops_match :
    includes (asciiLower "Duck.glb") (asciiLower "duck") = true ∧
    truthy (trim "duck") = true ∧
    filterStep asciiLower
      [{ filename := "Duck.glb", url := "https://h/Duck.glb", size := 1, created := "2025-01-01" }]
      "all" "duck" = [] := by
  decide

/-- What the search filter computes for a query with a non-blank character: it
keeps the models whose lower-cased filename contains the text `true` when it
contains the query, and the text `false` when it does not. -/
theorem applySearchFilter_eq (toLowerCase : String → String) (searchQuery : String)
    (filtered : List Model) (h : truthy (trim searchQuery) = true) :
    applySearchFilter toLowerCase searchQuery filtered =
      filtered.filter (fun model =>
        if (toLowerCase searchQuery).data <:+: (toLowerCase model.filename).data then
          decide ("true".data <:+: (toLowerCase model.filename).data)
        else decide ("false".data <:+: (toLowerCase model.filename).data)) := by
  unfold applySearchFilter
  rw [if_pos h]
  show List.filter _ filtered = List.filter _ filtered
  congr 1
  funext model
  by_cases hq : (toLowerCase searchQuery).data <:+: (toLowerCase model.filename).data
  · rw [if_pos hq, (includes_iff _ _).mpr hq, Bool.eq_iff_iff, includes_iff]
    simp [boolToString]
  · have hf : includes (toLowerCase model.filename) (toLowerCase searchQuery) = false := by
      rw [← Bool.not_eq_true, includes_iff]
      exact hq
    rw [if_neg hq, hf, Bool.eq_iff_iff, includes_iff]
    simp [boolToString]

/-- C3: when the search query is empty or consists of white space only, the
search removes no model of a non-empty model list: the list handed to sorting
is the list that passed the type filter, in its order, and with the filter
`all` it is the whole model list. -/
theorem filterStep_blank_query (toLowerCase : String → String) (models : List Model)
    (filter searchQuery : String) (_hne : models ≠ [])
    (h : ∀ c ∈ searchQuery.data, isWhiteSpace c = true) :
    filterStep toLowerCase models filter searchQuery = applyTypeFilter filter models ∧
    (filter = "all" → filterStep toLowerCase models filter searchQuery = models) := by
  have h1 : filterStep toLowerCase models filter searchQuery = applyTypeFilter filter models := by
    unfold filterStep applySearchFilter
    rw [trim_of_all_whiteSpace searchQuery h]
    simp
  refine ⟨h1, ?_⟩
  intro hall
  rw [h1, hall]
  unfold applyTypeFilter
  rw [if_neg (by decide), if_neg (by decide)]

theorem filterStep_blank_query_witness :
    filterStep asciiLower
      [{ filename := "Duck.glb", url := "u", size := 1, created := "c" },
       { filename := "cat_white.glb", url := "v", size := 2, created := "d" }] "white" " \t" =
      applyTypeFilter "white"
        [{ filename := "Duck.glb", url := "u", size := 1, created := "c" },
         { filename := "cat_white.glb", url := "v", size := 2, created := "d" }] ∧
    ("white" = "all" → filterStep asciiLower
      [{ filename := "Duck.glb", url := "u", size := 1, created := "c" },
       { filename := "cat_white.glb", url := "v", size := 2, created := "d" }] "white" " \t" =
      [{ filename := "Duck.glb", url := "u", size := 1, created := "c" },
       { filename := "cat_white.glb", url := "v", size := 2, created := "d" }]) :=
  filterStep_blank_query asciiLower _ "white" " \t" (by decide) (by decide)

/-! ## Timers -/

theorem mem_clearInterval (s : State) (c : Nat) (x : Timer) :
    x ∈ (clearInterval s c).timers ↔ x ∈ s.timers ∧ x.id ≠ c := by
  simp [clearInterval, List.mem_filter]

theorem mem_effectCleanup (p : Option Nat) (s : State) (x : Timer) :
    x ∈ (effectCleanup p s).timers ↔ x ∈ s.timers ∧ p ≠ some x.id := by
  cases p with
  | none => simp [effectCleanup]
  | some c =>
    simp only [effectCleanup, mem_clearInterval, ne_eq, Option.some.injEq]
    constructor
    · rintro ⟨h1, h2⟩
      exact ⟨h1, fun e => h2 e.symm⟩
    · rintro ⟨h1, h2⟩
      exact ⟨h1, fun e => h2 e.symm⟩

theorem mem_rerender (prev next : State) (x : Timer) (h : x ∈ (rerender prev next).timers) :
    x ∈ next.timers := by
  unfold rerender at h
  split_ifs at h
  · exact h
  · exact ((mem_effectCleanup _ _ _).mp h).1

theorem tick_none_of_not_live (env : Env) (s : State) (timer : Nat)
    (h : ∀ x ∈ s.timers, x.id ≠ timer) : step env s (.tick timer) = none := by
  have hf : s.timers.find? (fun t => t.id == timer) = none := by
    rw [List.find?_eq_none]
    intro x hx
    simpa using h x hx
  simp only [step, hf]

/-! ## C6: the guards of `onSubmit` -/

/-- C6: when there is no uploaded image, or the submitted `api_key` is empty,
or the chosen image URL (`serverUrl` when it is present and non-empty,
otherwise `url`) starts with `blob:`, the handler `onSubmit` sends no request,
leaves the generating flag and the progress as they are and starts no timer. -/
theorem onSubmit_guarded (env : Env) (s : State) (data : FormData) (seed : Nat)
    (h : s.uploadedImage = none ∨ data.api_key = "" ∨
      ∃ image imageUrl, s.uploadedImage = some image ∧ "blob:".data <+: imageUrl.data ∧
        ((image.serverUrl = some imageUrl ∧ imageUrl ≠ "") ∨
         ((image.serverUrl = none ∨ image.serverUrl = some "") ∧ image.url = some imageUrl))) :
    (onSubmit env.reparse s data seed).requests = s.requests ∧
    (onSubmit env.reparse s data seed).pending = s.pending ∧
    (onSubmit env.reparse s data seed).isGenerating = s.isGenerating ∧
    (onSubmit env.reparse s data seed).generationProgress = s.generationProgress ∧
    (onSubmit env.reparse s data seed).timers = s.timers ∧
    (onSubmit env.reparse s data seed).nextTimer = s.nextTimer ∧
    (onSubmit env.reparse s data seed).pollInterval = s.pollInterval := by
  rcases h with h | h | ⟨image, imageUrl, himg, hblob, hurl⟩
  · simp [onSubmit, h, toastError]
  · cases hu : s.uploadedImage with
    | none => simp [onSubmit, hu, toastError]
    | some image => simp [onSubmit, hu, h, truthy, toastError]
  · have hchosen : orElse image.serverUrl image.url = some imageUrl := by
      rcases hurl with ⟨h1, h2⟩ | ⟨h1 | h1, h2⟩
      · have ht : truthy imageUrl = true := by
          cases imageUrl with
          | mk l =>
            cases l with
            | nil => exact absurd rfl h2
            | cons a l => rfl
        simp [orElse, h1, ht]
      · simp [orElse, h1, h2]
      · simp [orElse, h1, h2, truthy]
    have hb : startsWith imageUrl "blob:" = true := (startsWith_iff _ _).mpr hblob
    by_cases hk : truthy data.api_key = true
    · simp [onSubmit, himg, hk, hchosen, hb, toastError]
    · simp [onSubmit, himg, hk, toastError]

theorem onSubmit_guarded_witness :
    (onSubmit plainEnv.reparse (init ⟨some "blob:http://localhost/1", none⟩)
      ⟨30, 5, true, "256", "", "key"⟩ 7).requests = [] ∧
    (onSubmit plainEnv.reparse (init ⟨some "blob:http://localhost/1", none⟩)
      ⟨30, 5, true, "256", "", "key"⟩ 7).pending = [] ∧
    (onSubmit plainEnv.reparse (init ⟨some "blob:http://localhost/1", none⟩)
      ⟨30, 5, true, "256", "", "key"⟩ 7).isGenerating = false ∧
    (onSubmit plainEnv.reparse (init ⟨some "blob:http://localhost/1", none⟩)
      ⟨30, 5, true, "256", "", "key"⟩ 7).generationProgress = 0 ∧
    (onSubmit plainEnv.reparse (init ⟨some "blob:http://localhost/1", none⟩)
      ⟨30, 5, true, "256", "", "key"⟩ 7).timers = [] ∧
    (onSubmit plainEnv.reparse (init ⟨some "blob:http://localhost/1", none⟩)
      ⟨30, 5, true, "256", "", "key"⟩ 7).nextTimer = 0 ∧
    (onSubmit plainEnv.reparse (init ⟨some "blob:http://localhost/1", none⟩)
      ⟨30, 5, true, "256", "", "key"⟩ 7).pollInterval = none :=
  onSubmit_guarded plainEnv (init ⟨some "blob:http://localhost/1", none⟩)
    ⟨30, 5, true, "256", "", "key"⟩ 7
    (Or.inr (Or.inr ⟨⟨some "blob:http://localhost/1", none⟩, "blob:http://localhost/1", rfl,
      by decide, Or.inr ⟨Or.inl rfl, rfl⟩⟩))

/-! ## C7: cancellation -/

/-- C7: `cancelGeneration` clears the recorded polling timer if there is one
and leaves every other timer alone, sets the recorded timer to null, the
generating flag to false, the progress to 0 and the prediction id to null, and
issues no HTTP request. -/
theorem cancelGeneration_effect (s : State) :
    (∀ x, x ∈ (cancelGeneration s).timers ↔ x ∈ s.timers ∧ s.pollInterval ≠ some x.id) ∧
    (cancelGeneration s).pollInterval = none ∧
    (cancelGeneration s).isGenerating = false ∧
    (cancelGeneration s).generationProgress = 0 ∧
    (cancelGeneration s).predictionId = none ∧
    (cancelGeneration s).requests = s.requests ∧
    (cancelGeneration s).pending = s.pending := by
  cases hp : s.pollInterval with
  | none => simp [cancelGeneration, hp, toastSuccess]
  | some c =>
    refine ⟨?_, ?_⟩
    · intro x
      have h := mem_clearInterval s c x
      simp only [cancelGeneration, hp, toastSuccess, ne_eq, Option.some.injEq]
      rw [h]
      constructor
      · rintro ⟨h1, h2⟩
        exact ⟨h1, fun e => h2 e.symm⟩
      · rintro ⟨h1, h2⟩
        exact ⟨h1, fun e => h2 e.symm⟩
    · simp [cancelGeneration, hp, toastSuccess, clearInterval]

/-! ## C9: a poll whose status request fails -/

/-- C9: when the status request of a poll is rejected (network error or non-2xx
response), the callback clears its timer and leaves the other timers alone,
sets the recorded timer to null, the generating flag to false and the progress
to 0, and shows an error message; it issues no request, so the status request
is not retried, and its timer cannot fire again. -/
theorem pollResume_failure (env : Env) (s : State) (t : Timer) (message : String)
    (serverError : Option String) :
    (∀ x, x ∈ (pollResume env.reparseUrls s t (.failure message serverError)).timers ↔
      x ∈ s.timers ∧ x.id ≠ t.id) ∧
    (pollResume env.reparseUrls s t (.failure message serverError)).pollInterval = none ∧
    (pollResume env.reparseUrls s t (.failure message serverError)).isGenerating = false ∧
    (pollResume env.reparseUrls s t (.failure message serverError)).generationProgress = 0 ∧
    (pollResume env.reparseUrls s t (.failure message serverError)).toasts =
      s.toasts ++ [Toast.error ("Error checking model status: " ++ message)] ∧
    (pollResume env.reparseUrls s t (.failure message serverError)).requests = s.requests ∧
    (pollResume env.reparseUrls s t (.failure message serverError)).pending = s.pending ∧
    step env (rerender s (pollResume env.reparseUrls s t (.failure message serverError)))
      (.tick t.id) = none := by
  have hmem : ∀ x, x ∈ (pollResume env.reparseUrls s t (.failure message serverError)).timers ↔
      x ∈ s.timers ∧ x.id ≠ t.id := by
    intro x
    simp only [pollResume, pollCatch, toastError]
    exact mem_clearInterval s t.id x
  refine ⟨hmem, ?_, ?_, ?_, ?_, ?_, ?_, ?_⟩
  · simp [pollResume, pollCatch, toastError]
  · simp [pollResume, pollCatch, toastError]
  · simp [pollResume, pollCatch, toastError]
  · simp [pollResume, pollCatch, toastError, clearInterval]
  · simp [pollResume, pollCatch, toastError, clearInterval]
  · simp [pollResume, pollCatch, toastError, clearInterval]
  · apply tick_none_of_not_live
    intro x hx
    exact ((hmem x).mp (mem_rerender _ _ _ hx)).2

/-! ## C10: a poll answered with a status that is not terminal -/

/-- C10: when a poll is answered with a status other than `succeeded` and
`failed`, the live timers, the recorded timer and the generating flag are as
before, no clean-up runs on the commit, and no request is issued; when the
status is not `processing` either, the progress is unchanged as well. -/
theorem pollResume_not_terminal (env : Env) (s : State) (t : Timer) (data : ResponseData)
    (h1 : data.status ≠ some "succeeded") (h2 : data.status ≠ some "failed") :
    (rerender s (pollResume env.reparseUrls s t (.ok data))).timers = s.timers ∧
    (rerender s (pollResume env.reparseUrls s t (.ok data))).pollInterval = s.pollInterval ∧
    (rerender s (pollResume env.reparseUrls s t (.ok data))).isGenerating = s.isGenerating ∧
    (rerender s (pollResume env.reparseUrls s t (.ok data))).requests = s.requests ∧
    (rerender s (pollResume env.reparseUrls s t (.ok data))).pending = s.pending ∧
    (data.status ≠ some "processing" →
      rerender s (pollResume env.reparseUrls s t (.ok data)) = s) := by
  by_cases hp : data.status = some "processing"
  · simp [pollResume, hp, rerender]
  · simp [pollResume, hp, h1, h2, rerender]

theorem pollResume_not_terminal_witness :
    (rerender samplePolling (pollResume plainEnv.reparseUrls samplePolling
      { id := 0, jobId := "A", apiKey := "key", predictionId := none }
      (.ok (statusData "queued")))).timers = samplePolling.timers ∧
    (rerender samplePolling (pollResume plainEnv.reparseUrls samplePolling
      { id := 0, jobId := "A", apiKey := "key", predictionId := none }
      (.ok (statusData "queued")))).pollInterval = samplePolling.pollInterval ∧
    (rerender samplePolling (pollResume plainEnv.reparseUrls samplePolling
      { id := 0, jobId := "A", apiKey := "key", predictionId := none }
      (.ok (statusData "queued")))).isGenerating = samplePolling.isGenerating ∧
    (rerender samplePolling (pollResume plainEnv.reparseUrls samplePolling
      { id := 0, jobId := "A", apiKey := "key", predictionId := none }
      (.ok (statusData "queued")))).requests = samplePolling.requests ∧
    (rerender samplePolling (pollResume plainEnv.reparseUrls samplePolling
      { id := 0, jobId := "A", apiKey := "key", predictionId := none }
      (.ok (statusData "queued")))).pending = samplePolling.pending ∧
    ((statusData "queued").status ≠ some "processing" →
      rerender samplePolling (pollResume plainEnv.reparseUrls samplePolling
        { id := 0, jobId := "A", apiKey := "key", predictionId := none }
        (.ok (statusData "queued"))) = samplePolling) :=
  pollResume_not_terminal plainEnv samplePolling
    { id := 0, jobId := "A", apiKey := "key", predictionId := none }
    (statusData "queued") (by decide) (by decide)

/-! ## The timer invariant of the settings component -/

theorem quiet_refl (s : State) : Quiet s s :=
  ⟨List.Sublist.refl _, Or.inl rfl, rfl, fun _ h => Or.inl h⟩

theorem quiet_trans {a b c : State} (h1 : Quiet a b) (h2 : Quiet b c) : Quiet a c := by
  obtain ⟨t1, p1, n1, q1⟩ := h1
  obtain ⟨t2, p2, n2, q2⟩ := h2
  refine ⟨t2.trans t1, ?_, n2.trans n1, ?_⟩
  · rcases p2 with e | e
    · rw [e]; exact p1
    · exact Or.inr e
  · intro t ht
    rcases q2 t ht with h | h
    · exact q1 t h
    · exact Or.inr (t1.subset h)

theorem clearInterval_sublist (s : State) (c : Nat) :
    (clearInterval s c).timers.Sublist s.timers := by
  simp only [clearInterval]
  exact List.filter_sublist _

theorem quiet_erase (s : State) (i : Nat) : Quiet s { s with pending := s.pending.eraseIdx i } :=
  ⟨List.Sublist.refl _, Or.inl rfl, rfl,
    fun _ h => Or.inl ((List.eraseIdx_sublist s.pending i).subset h)⟩

theorem quiet_onSubmitCatch (s : State) (message : String) (e : Option String) :
    Quiet s (onSubmitCatch s message e) :=
  ⟨List.Sublist.refl _, Or.inl rfl, rfl, fun _ h => Or.inl h⟩

theorem quiet_onSubmit (env : Env) (s : State) (data : FormData) (seed : Nat) :
    Quiet s (onSubmit env.reparse s data seed) := by
  unfold onSubmit
  split
  · exact ⟨List.Sublist.refl _, Or.inl rfl, rfl, fun _ h => Or.inl h⟩
  · split
    · exact ⟨List.Sublist.refl _, Or.inl rfl, rfl, fun _ h => Or.inl h⟩
    · split
      · exact quiet_refl s
      · split
        · exact ⟨List.Sublist.refl _, Or.inl rfl, rfl, fun _ h => Or.inl h⟩
        · dsimp only
          split
          · exact ⟨List.Sublist.refl _, Or.inl rfl, rfl, fun _ h => Or.inl h⟩
          · refine ⟨List.Sublist.refl _, Or.inl rfl, rfl, ?_⟩
            intro t ht
            simp only [List.mem_append, List.mem_singleton] at ht
            rcases ht with h | h
            · exact Or.inl h
            · exact absurd h (by simp)

theorem quiet_pollTick (s : State) (t : Timer) (ht : t ∈ s.timers) : Quiet s (pollTick s t) := by
  refine ⟨List.Sublist.refl _, Or.inl rfl, rfl, ?_⟩
  intro x hx
  simp only [pollTick, List.mem_append, List.mem_singleton, Pending.status.injEq] at hx
  rcases hx with h | h
  · exact Or.inl h
  · exact Or.inr (h ▸ ht)

theorem quiet_pollCatch (s : State) (c : Nat) (message : String) :
    Quiet s (pollCatch s c message) :=
  ⟨clearInterval_sublist s c, Or.inr rfl, rfl, fun _ h => Or.inl h⟩

theorem quiet_downloadFinally (s : State) : Quiet s (downloadFinally s) :=
  ⟨List.Sublist.refl _, Or.inl rfl, rfl, fun _ h => Or.inl h⟩

theorem quiet_downloadCatch (s : State) (message : String) : Quiet s (downloadCatch s message) :=
  ⟨List.Sublist.refl _, Or.inl rfl, rfl, fun _ h => Or.inl h⟩

theorem quiet_downloadFail (s : State) (message : String) :
    Quiet s (downloadFinally (downloadCatch s message)) :=
  quiet_trans (quiet_downloadCatch s message) (quiet_downloadFinally _)

theorem quiet_downloadModelFiles (env : Env) (s s1 : State) (t : Timer) (output : Output)
    (h : downloadModelFiles env.reparseUrls s t output = .ok s1) : Quiet s s1 := by
  unfold downloadModelFiles at h
  split at h
  · exact absurd h (by simp)
  · exact absurd h (by simp)
  · dsimp only at h
    split at h
    · injection h with h
      exact h ▸ quiet_downloadFail s _
    · split at h
      · injection h with h
        exact h ▸ quiet_downloadFail s _
      · injection h with h
        subst h
        refine ⟨List.Sublist.refl _, Or.inl rfl, rfl, ?_⟩
        intro x hx
        simp only [List.mem_append, List.mem_singleton] at hx
        rcases hx with h | h
        · exact Or.inl h
        · exact absurd h (by simp)

theorem quiet_downloadResume (s : State) (p : Option String) (r : Response) (now : String) :
    Quiet s (downloadResume s p r now) := by
  unfold downloadResume
  split
  · exact quiet_downloadFail s _
  · split
    · split
      · exact quiet_downloadFail s _
      · exact quiet_downloadFail s _
      · exact ⟨List.Sublist.refl _, Or.inl rfl, rfl, fun _ h => Or.inl h⟩
    · exact quiet_downloadFail s _

theorem quiet_pollResume (env : Env) (s : State) (t : Timer) (r : Response) :
    Quiet s (pollResume env.reparseUrls s t r) := by
  unfold pollResume
  split
  · exact quiet_pollCatch s _ _
  · split
    · exact ⟨List.Sublist.refl _, Or.inl rfl, rfl, fun _ h => Or.inl h⟩
    · have hq : Quiet s
          { clearInterval s t.id with pollInterval := none, generationProgress := 100 } :=
        ⟨clearInterval_sublist s t.id, Or.inr rfl, rfl, fun _ h => Or.inl h⟩
      split
      · dsimp only
        split
        · rename_i s2 hs2
          exact quiet_trans hq (quiet_downloadModelFiles env _ _ t _ hs2)
        · exact quiet_trans hq (quiet_pollCatch _ _ _)
      · split
        · have hq2 : Quiet s { clearInterval s t.id with pollInterval := none } :=
            ⟨clearInterval_sublist s t.id, Or.inr rfl, rfl, fun _ h => Or.inl h⟩
          exact quiet_trans hq2 (quiet_pollCatch _ _ _)
        · exact quiet_refl s

theorem quiet_cancelGeneration (s : State) : Quiet s (cancelGeneration s) := by
  cases hp : s.pollInterval with
  | none =>
    simp only [cancelGeneration, hp, toastSuccess]
    exact ⟨List.Sublist.refl _, Or.inr rfl, rfl, fun _ h => Or.inl h⟩
  | some c =>
    simp only [cancelGeneration, hp, toastSuccess]
    exact ⟨clearInterval_sublist s c, Or.inr rfl, rfl, fun _ h => Or.inl h⟩

theorem inv_init (image : UploadedImage) : Inv (init image) := by
  refine ⟨by simp [init], ?_, ?_, ?_⟩ <;> simp [init]

theorem timers_nil_of_none {s : State} (hi : Inv s) (h : s.pollInterval = none) :
    s.timers = [] := by
  apply List.eq_nil_iff_forall_not_mem.mpr
  intro x hx
  have := hi.2.1 x hx
  rw [h] at this
  exact absurd this (by simp)

theorem inv_rerender_quiet {s next : State} (hi : Inv s) (hq : Quiet s next) :
    Inv (rerender s next) := by
  obtain ⟨i1, i2, i3, i4⟩ := hi
  obtain ⟨q1, q2, q3, q4⟩ := hq
  have hpend : ∀ t, Pending.status t ∈ next.pending → t.id < next.nextTimer := by
    intro t ht
    rw [q3]
    rcases q4 t ht with h | h
    · exact i4 t h
    · exact i3 _ (i2 t h)
  unfold rerender
  split_ifs with hsame
  · refine ⟨le_trans q1.length_le i1, ?_, ?_, hpend⟩
    · intro x hx
      rw [← hsame]
      exact i2 x (q1.subset hx)
    · intro c hc
      rw [q3]
      exact i3 c (hsame ▸ hc)
  · have hnone : next.pollInterval = none := by
      rcases q2 with h | h
      · exact absurd h.symm hsame
      · exact h
    have hnil : (effectCleanup s.pollInterval next).timers = [] := by
      apply List.eq_nil_iff_forall_not_mem.mpr
      intro x hx
      have hx2 := (mem_effectCleanup _ _ _).mp hx
      exact hx2.2 (i2 x (q1.subset hx2.1))
    have hpi : (effectCleanup s.pollInterval next).pollInterval = none := by
      cases hs : s.pollInterval <;> simp [effectCleanup, clearInterval, hnone]
    have hnt : (effectCleanup s.pollInterval next).nextTimer = next.nextTimer := by
      cases hs : s.pollInterval <;> simp [effectCleanup, clearInterval]
    have hpd : (effectCleanup s.pollInterval next).pending = next.pending := by
      cases hs : s.pollInterval <;> simp [effectCleanup, clearInterval]
    refine ⟨by rw [hnil]; simp, ?_, ?_, ?_⟩
    · intro x hx
      rw [hnil] at hx
      exact absurd hx (List.not_mem_nil x)
    · intro c hc
      rw [hpi] at hc
      exact absurd hc (by simp)
    · intro t ht
      rw [hpd] at ht
      rw [hnt]
      exact hpend t ht

theorem startPolling_fields (pollInterval : Option Nat) (predictionId : Option String)
    (s0 : State) (id apiKey : String) :
    ∃ l : List Timer, l.Sublist s0.timers ∧
      (startPolling pollInterval predictionId s0 id apiKey).timers =
        l ++ [{ id := s0.nextTimer, jobId := id, apiKey := apiKey,
                predictionId := predictionId }] ∧
      (startPolling pollInterval predictionId s0 id apiKey).pollInterval = some s0.nextTimer ∧
      (startPolling pollInterval predictionId s0 id apiKey).nextTimer = s0.nextTimer + 1 ∧
      (startPolling pollInterval predictionId s0 id apiKey).pending = s0.pending := by
  cases pollInterval with
  | none => exact ⟨s0.timers, List.Sublist.refl _, rfl, rfl, rfl, rfl⟩
  | some c => exact ⟨(clearInterval s0 c).timers, clearInterval_sublist s0 c, rfl, rfl, rfl, rfl⟩

/-- Committing a run of `startPolling` leaves exactly the new timer live. -/
theorem rerender_startPolling {s s0 : State} (hi : Inv s)
    (pollInterval : Option Nat) (predictionId : Option String) (id apiKey : String)
    (ht : s0.timers.Sublist s.timers) (hn : s0.nextTimer = s.nextTimer) :
    (rerender s (startPolling pollInterval predictionId s0 id apiKey)).timers =
      [{ id := s.nextTimer, jobId := id, apiKey := apiKey, predictionId := predictionId }] ∧
    (rerender s (startPolling pollInterval predictionId s0 id apiKey)).pollInterval =
      some s.nextTimer ∧
    (rerender s (startPolling pollInterval predictionId s0 id apiKey)).nextTimer =
      s.nextTimer + 1 ∧
    (rerender s (startPolling pollInterval predictionId s0 id apiKey)).pending = s0.pending := by
  obtain ⟨i1, i2, i3, i4⟩ := hi
  obtain ⟨l, hl, h1, h2, h3, h4⟩ := startPolling_fields pollInterval predictionId s0 id apiKey
  rw [hn] at h1 h2 h3
  generalize startPolling pollInterval predictionId s0 id apiKey = next at h1 h2 h3 h4
  have hne : ¬ s.pollInterval = next.pollInterval := by
    intro e
    rw [h2] at e
    exact absurd (i3 _ e) (lt_irrefl _)
  unfold rerender
  rw [if_neg hne]
  cases hs : s.pollInterval with
  | none =>
    have hnil : s.timers = [] := timers_nil_of_none ⟨i1, i2, i3, i4⟩ hs
    have hl0 : l = [] := by
      have := hl.trans ht
      rw [hnil] at this
      exact List.sublist_nil.mp this
    rw [hl0] at h1
    simp only [effectCleanup]
    exact ⟨by simpa using h1, h2, h3, h4⟩
  | some c =>
    have hc : c < s.nextTimer := i3 c hs
    have hfl : l.filter (fun x => x.id != c) = [] := by
      rw [List.filter_eq_nil_iff]
      intro x hx
      have hx2 := i2 x (ht.subset (hl.subset hx))
      rw [hs] at hx2
      simp only [Option.some.injEq] at hx2
      simp [hx2]
    have hT : (s.nextTimer != c) = true := by
      simp only [bne_iff_ne, ne_eq]
      omega
    refine ⟨?_, ?_, ?_, ?_⟩
    · simp only [effectCleanup, clearInterval, h1, List.filter_append, hfl, List.nil_append]
      simp [List.filter, hT]
    · simp only [effectCleanup, clearInterval, h2]
    · simp only [effectCleanup, clearInterval, h3]
    · simp only [effectCleanup, clearInterval, h4]

theorem inv_startPolling {s s0 : State} (hi : Inv s)
    (pollInterval : Option Nat) (predictionId : Option String) (id apiKey : String)
    (ht : s0.timers.Sublist s.timers) (hn : s0.nextTimer = s.nextTimer)
    (hp : s0.pending.Sublist s.pending) :
    Inv (rerender s (startPolling pollInterval predictionId s0 id apiKey)) := by
  obtain ⟨h1, h2, h3, h4⟩ := rerender_startPolling hi pollInterval predictionId id apiKey ht hn
  refine ⟨by rw [h1]; simp, ?_, ?_, ?_⟩
  · intro x hx
    rw [h1] at hx
    simp only [List.mem_singleton] at hx
    rw [h2, hx]
  · intro c hc
    rw [h2] at hc
    simp only [Option.some.injEq] at hc
    rw [h3]
    omega
  · intro t ht2
    rw [h4] at ht2
    rw [h3]
    exact Nat.lt_succ_of_lt (hi.2.2.2 t (hp.subset ht2))

theorem inv_onSubmitResume {s : State} (hi : Inv s) (i : Nat) (apiKey : String)
    (pollInterval : Option Nat) (predictionId : Option String) (r : Response) :
    Inv (rerender s (onSubmitResume { s with pending := s.pending.eraseIdx i } apiKey
      pollInterval predictionId r)) := by
  have hq := quiet_erase s i
  unfold onSubmitResume
  split
  · exact inv_rerender_quiet hi (quiet_trans hq (quiet_onSubmitCatch _ _ _))
  · split
    · split
      · exact inv_startPolling hi _ _ _ _ (List.Sublist.refl _) rfl (List.eraseIdx_sublist _ _)
      · exact inv_rerender_quiet hi (quiet_trans hq (quiet_onSubmitCatch _ _ _))
    · exact inv_rerender_quiet hi (quiet_trans hq (quiet_onSubmitCatch _ _ _))

theorem inv_step {env : Env} {s s1 : State} {e : Event} (hi : Inv s)
    (h : step env s e = some s1) : Inv s1 := by
  cases e with
  | submit data seed =>
    simp only [step] at h
    split_ifs at h
    injection h with h
    exact h ▸ inv_rerender_quiet hi (quiet_onSubmit env s data seed)
  | tick timer =>
    simp only [step] at h
    split at h
    · rename_i t ht
      injection h with h
      exact h ▸ inv_rerender_quiet hi (quiet_pollTick s t (List.mem_of_find?_eq_some ht))
    · exact absurd h (by simp)
  | respond i r now =>
    simp only [step] at h
    split at h
    · rename_i p hp
      injection h with h
      subst h
      cases p with
      | create apiKey pollInterval predictionId =>
        exact inv_onSubmitResume hi i apiKey pollInterval predictionId r
      | status t =>
        exact inv_rerender_quiet hi (quiet_trans (quiet_erase s i) (quiet_pollResume env _ t r))
      | download predictionId =>
        exact inv_rerender_quiet hi (quiet_trans (quiet_erase s i) (quiet_downloadResume _ predictionId r now))
    · exact absurd h (by simp)
  | cancel =>
    simp only [step] at h
    injection h with h
    exact h ▸ inv_rerender_quiet hi (quiet_cancelGeneration s)
  | imageUploaded image =>
    simp only [step] at h
    injection h with h
    subst h
    obtain ⟨i1, i2, i3, i4⟩ := hi
    cases hs : s.pollInterval with
    | none =>
      simp only [effectCleanup]
      exact ⟨i1, fun x hx => by have := i2 x hx; rw [hs] at this; exact this,
        fun c hc => absurd hc (by simp), i4⟩
    | some c =>
      have hnil : (s.timers.filter (fun x => x.id != c)) = [] := by
        rw [List.filter_eq_nil_iff]
        intro x hx
        have hx2 := i2 x hx
        rw [hs] at hx2
        simp only [Option.some.injEq] at hx2
        simp [hx2]
      simp only [effectCleanup, clearInterval, hnil]
      exact ⟨by simp, by simp, fun c1 hc => i3 c1 (by rw [hs]; exact hc), i4⟩

theorem inv_run {env : Env} (es : List Event) {s s1 : State} (hi : Inv s)
    (h : run env s es = some s1) : Inv s1 := by
  induction es generalizing s with
  | nil =>
    simp only [run, Option.some.injEq] at h
    exact h ▸ hi
  | cons e es ih =>
    simp only [run] at h
    cases hs : step env s e with
    | none => rw [hs] at h; exact absurd h (by simp)
    | some s2 =>
      rw [hs] at h
      exact ih (inv_step hi hs) h

theorem inv_reachable {env : Env} {s : State} (h : Reachable env s) : Inv s := by
  obtain ⟨image, es, h⟩ := h
  exact inv_run es (inv_init image) h

/-! ## The sample session is reachable -/

theorem sampleSubmitted_reachable : Reachable plainEnv sampleSubmitted :=
  ⟨sampleImage, [.submit sampleForm 7], by decide⟩

theorem samplePolling_reachable : Reachable plainEnv samplePolling :=
  ⟨sampleImage, [.submit sampleForm 7, .respond 0 (.ok (createdData "A")) "", .tick 0],
    by decide⟩

/-! ## C8: polling timers -/

/-- In every state the settings component can reach, once its handler has
been committed, at most one polling timer is live and it is the recorded one,
and the form can be submitted only while the generating flag is false. -/
theorem committed_one_timer (env : Env) (s : State) (h : Reachable env s) :
    s.timers.length ≤ 1 ∧
    (∀ x ∈ s.timers, s.pollInterval = some x.id) ∧
    (∀ data seed s1, step env s (.submit data seed) = some s1 → s.isGenerating = false) := by
  obtain ⟨i1, i2, _, _⟩ := inv_reachable h
  refine ⟨i1, i2, ?_⟩
  intro data seed s1 hs
  simp only [step] at hs
  split_ifs at hs with hb
  simp only [Bool.and_eq_true, Bool.not_eq_true'] at hb
  exact hb.2

theorem doubleCreationState_reachable : Reachable plainEnv doubleCreationState :=
  ⟨sampleImage, doubleCreationSession, by decide⟩

/-- C8: the session `doubleCreationSession`, without cancellation, ends with
timer 1 live and recorded and a creation request in flight whose handler was
created while no timer was recorded.  When that request is answered with the
id `C`, `startPolling` tests the `pollInterval` of its closure, which is
`null`: it clears nothing and creates timer 2, so the handler leaves the two
timers 1 and 2 live, and timer 1 is the recorded one that `startPolling` did
not clear.  Only the clean-up of the effect, run when the new `pollInterval` is
committed, clears timer 1. -/
theorem startPolling_keeps_recorded_timer :
    Reachable plainEnv doubleCreationState ∧
    doubleCreationState.pollInterval = some 1 ∧
    doubleCreationState.timers.map Timer.id = [1] ∧
    doubleCreationState.pending[0]? = some (Pending.create "key" none (some "A")) ∧
    (startPolling none (some "A")
      { doubleCreationState with
        pending := [], predictionId := some "C", generationProgress := 10 }
      "C" "key").timers.map Timer.id = [1, 2] ∧
    (resume plainEnv { doubleCreationState with pending := [] }
      (Pending.create "key" none (some "A")) (.ok (createdData "C")) "").timers.map Timer.id
      = [1, 2] ∧
    (step plainEnv doubleCreationState (.respond 0 (.ok (createdData "C")) "")).map
      (fun s => s.timers.map Timer.id) = some [2] :=
  ⟨doubleCreationState_reachable, by decide, by decide, by decide, by decide, by decide,
    by decide⟩

/-! ## C4: a poll answered with the status `failed` -/

theorem nextTimer_rerender (prev next : State) :
    (rerender prev next).nextTimer = next.nextTimer := by
  unfold rerender
  split_ifs
  · rfl
  · cases prev.pollInterval <;> rfl

theorem dead_rerender_quiet {c : Nat} {s next : State} (hd : Dead c s) (hq : Quiet s next) :
    Dead c (rerender s next) := by
  refine ⟨?_, ?_⟩
  · rw [nextTimer_rerender, hq.2.2.1]
    exact hd.1
  · intro x hx
    exact hd.2 x (hq.1.subset (mem_rerender _ _ _ hx))

theorem dead_startPolling {c : Nat} {s s0 : State} (hd : Dead c s)
    (pollInterval : Option Nat) (predictionId : Option String) (id apiKey : String)
    (ht : s0.timers.Sublist s.timers) (hn : s0.nextTimer = s.nextTimer) :
    Dead c (rerender s (startPolling pollInterval predictionId s0 id apiKey)) := by
  obtain ⟨l, hl, h1, _, h3, _⟩ := startPolling_fields pollInterval predictionId s0 id apiKey
  refine ⟨?_, ?_⟩
  · rw [nextTimer_rerender, h3, hn]
    exact Nat.lt_succ_of_lt hd.1
  · intro x hx
    have hx2 := mem_rerender _ _ _ hx
    rw [h1] at hx2
    simp only [List.mem_append, List.mem_singleton] at hx2
    rcases hx2 with hx2 | hx2
    · exact hd.2 x (ht.subset (hl.subset hx2))
    · rw [hx2, hn]
      exact Nat.ne_of_gt hd.1

theorem dead_step {c : Nat} {env : Env} {s s1 : State} {e : Event} (hd : Dead c s)
    (h : step env s e = some s1) : Dead c s1 := by
  cases e with
  | submit data seed =>
    simp only [step] at h
    split_ifs at h
    injection h with h
    exact h ▸ dead_rerender_quiet hd (quiet_onSubmit env s data seed)
  | tick timer =>
    simp only [step] at h
    split at h
    · rename_i t ht
      injection h with h
      exact h ▸ dead_rerender_quiet hd (quiet_pollTick s t (List.mem_of_find?_eq_some ht))
    · exact absurd h (by simp)
  | respond i r now =>
    simp only [step] at h
    split at h
    · rename_i p hp
      injection h with h
      subst h
      have hq := quiet_erase s i
      cases p with
      | create apiKey pollInterval predictionId =>
        simp only [resume]
        unfold onSubmitResume
        split
        · exact dead_rerender_quiet hd (quiet_trans hq (quiet_onSubmitCatch _ _ _))
        · split
          · split
            · exact dead_startPolling hd _ _ _ _ (List.Sublist.refl _) rfl
            · exact dead_rerender_quiet hd (quiet_trans hq (quiet_onSubmitCatch _ _ _))
          · exact dead_rerender_quiet hd (quiet_trans hq (quiet_onSubmitCatch _ _ _))
      | status t =>
        exact dead_rerender_quiet hd (quiet_trans hq (quiet_pollResume env _ t r))
      | download predictionId =>
        exact dead_rerender_quiet hd (quiet_trans hq (quiet_downloadResume _ predictionId r now))
    · exact absurd h (by simp)
  | cancel =>
    simp only [step] at h
    injection h with h
    exact h ▸ dead_rerender_quiet hd (quiet_cancelGeneration s)
  | imageUploaded image =>
    simp only [step] at h
    injection h with h
    subst h
    refine ⟨?_, ?_⟩
    · cases s.pollInterval <;> exact hd.1
    · intro x hx
      exact hd.2 x ((mem_effectCleanup _ _ _).mp hx).1

theorem dead_run {c : Nat} {env : Env} (es : List Event) {s s1 : State} (hd : Dead c s)
    (h : run env s es = some s1) : Dead c s1 := by
  induction es generalizing s with
  | nil =>
    simp only [run, Option.some.injEq] at h
    exact h ▸ hd
  | cons e es ih =>
    simp only [run] at h
    cases hs : step env s e with
    | none => rw [hs] at h; exact absurd h (by simp)
    | some s2 =>
      rw [hs] at h
      exact ih (dead_step hd hs) h

/-- C4: when a poll of a reachable state is answered with the status `failed`,
the callback clears its timer, and in the state it leaves no timer is live, no
timer is recorded, the generating flag is false and the progress is 0; no
timer can fire in that state, and the timer of the poll never fires again, so
it issues no further status request. -/
theorem poll_failed_stops (env : Env) (s : State) (i : Nat) (t : Timer)
    (data : ResponseData) (now : String) (hr : Reachable env s)
    (hp : s.pending[i]? = some (Pending.status t)) (hf : data.status = some "failed") :
    (∀ x ∈ (pollResume env.reparseUrls { s with pending := s.pending.eraseIdx i } t
        (.ok data)).timers, x.id ≠ t.id) ∧
    ∃ s1, step env s (.respond i (.ok data) now) = some s1 ∧
      s1.timers = [] ∧ s1.pollInterval = none ∧
      s1.isGenerating = false ∧ s1.generationProgress = 0 ∧
      (∀ timer, step env s1 (.tick timer) = none) ∧
      (∀ es s2, run env s1 es = some s2 → step env s2 (.tick t.id) = none) := by
  have hi := inv_reachable hr
  have hres : pollResume env.reparseUrls { s with pending := s.pending.eraseIdx i } t (.ok data) =
      pollCatch { clearInterval { s with pending := s.pending.eraseIdx i } t.id with
                  pollInterval := none } t.id (orDefault data.error "Generation failed") := by
    simp [pollResume, hf]
  have hcleared : ∀ x ∈ (pollResume env.reparseUrls { s with pending := s.pending.eraseIdx i } t
      (.ok data)).timers, x.id ≠ t.id := by
    intro x hx
    rw [hres] at hx
    simp only [pollCatch, toastError, clearInterval, List.mem_filter] at hx
    simpa using hx.2
  refine ⟨hcleared, rerender s (pollResume env.reparseUrls
    { s with pending := s.pending.eraseIdx i } t (.ok data)), by simp only [step, hp, resume], ?_⟩
  have hq : Quiet s (pollResume env.reparseUrls { s with pending := s.pending.eraseIdx i } t
      (.ok data)) := quiet_trans (quiet_erase s i) (quiet_pollResume env _ t _)
  have hinv := inv_rerender_quiet hi hq
  have hpi : (rerender s (pollResume env.reparseUrls { s with pending := s.pending.eraseIdx i } t
      (.ok data))).pollInterval = none := by
    rw [hres]
    unfold rerender
    split_ifs with h
    · rw [← h, h]; rfl
    · cases s.pollInterval <;> rfl
  have hnil := timers_nil_of_none hinv hpi
  have hgen : (rerender s (pollResume env.reparseUrls { s with pending := s.pending.eraseIdx i } t
      (.ok data))).isGenerating = false := by
    rw [hres]
    unfold rerender
    split_ifs with h
    · rfl
    · cases s.pollInterval <;> rfl
  have hprog : (rerender s (pollResume env.reparseUrls { s with pending := s.pending.eraseIdx i }
      t (.ok data))).generationProgress = 0 := by
    rw [hres]
    unfold rerender
    split_ifs with h
    · rfl
    · cases s.pollInterval <;> rfl
  refine ⟨hnil, hpi, hgen, hprog, ?_, ?_⟩
  · intro timer
    apply tick_none_of_not_live
    intro x hx
    rw [hnil] at hx
    exact absurd hx (List.not_mem_nil x)
  · intro es s2 hs2
    have hlt : t.id < s.nextTimer := hi.2.2.2 t (List.getElem?_mem hp)
    have hd : Dead t.id (rerender s (pollResume env.reparseUrls
        { s with pending := s.pending.eraseIdx i } t (.ok data))) := by
      refine ⟨?_, ?_⟩
      · rw [nextTimer_rerender, hq.2.2.1]
        exact hlt
      · intro x hx
        rw [hnil] at hx
        exact absurd hx (List.not_mem_nil x)
    exact tick_none_of_not_live env s2 t.id (dead_run es hd hs2).2

theorem poll_failed_stops_witness :
    (∀ x ∈ (pollResume plainEnv.reparseUrls
        { samplePolling with pending := samplePolling.pending.eraseIdx 0 }
        { id := 0, jobId := "A", apiKey := "key", predictionId := none }
        (.ok (statusData "failed"))).timers, x.id ≠ 0) ∧
    ∃ s1, step plainEnv samplePolling (.respond 0 (.ok (statusData "failed")) "") = some s1 ∧
      s1.timers = [] ∧ s1.pollInterval = none ∧
      s1.isGenerating = false ∧ s1.generationProgress = 0 ∧
      (∀ timer, step plainEnv s1 (.tick timer) = none) ∧
      (∀ es s2, run plainEnv s1 es = some s2 → step plainEnv s2 (.tick 0) = none) :=
  poll_failed_stops plainEnv samplePolling 0
    { id := 0, jobId := "A", apiKey := "key", predictionId := none } (statusData "failed") ""
    samplePolling_reachable (by decide) (by decide)

/-! ## C5: the progress heuristic -/

theorem nextProgress_iterate (n : Nat) : nextProgress^[n] 10 = min (10 + 5 * n) 90 := by
  induction n with
  | zero => rfl
  | succ n ih =>
    rw [Function.iterate_succ_apply', ih]
    unfold nextProgress
    split_ifs with h
    · have : 10 + 5 * n < 90 := by
        rcases Nat.lt_or_ge (10 + 5 * n) 90 with h1 | h1
        · exact h1
        · rw [Nat.min_eq_right h1] at h
          exact absurd h (lt_irrefl _)
      rw [Nat.min_eq_left (le_of_lt this)]
      omega
    · have h1 : 90 ≤ 10 + 5 * n := by
        by_contra hc
        push_neg at hc
        rw [Nat.min_eq_left (le_of_lt hc)] at h
        exact h hc
      rw [Nat.min_eq_right h1, Nat.min_eq_right (by omega)]

theorem poll_processing (env : Env) (s : State) (timer : Nat) (t : Timer) (d : ResponseData)
    (ht : s.timers.find? (fun x => x.id == timer) = some t)
    (hd : d.status = some "processing") :
    poll env s timer (.ok d) =
      some { s with
        requests := s.requests ++ [Request.status t.jobId t.apiKey]
        generationProgress := nextProgress s.generationProgress } := by
  have h1 : step env s (.tick timer) = some (pollTick s t) := by
    simp [step, ht, rerender, pollTick]
  have h2 : (s.pending ++ [Pending.status t])[s.pending.length]? = some (Pending.status t) := by
    simp
  have h3 : (s.pending ++ [Pending.status t]).eraseIdx s.pending.length = s.pending := by
    rw [List.eraseIdx_append_of_length_le (le_refl _)]
    simp
  have h4 : step env (pollTick s t) (.respond s.pending.length (.ok d) "") =
      some { s with
        requests := s.requests ++ [Request.status t.jobId t.apiKey]
        generationProgress := nextProgress s.generationProgress } := by
    have h2a : (pollTick s t).pending[s.pending.length]? = some (Pending.status t) := h2
    have h3a : (pollTick s t).pending.eraseIdx s.pending.length = s.pending := h3
    simp only [step, h2a, h3a, resume, pollResume, hd, if_true, rerender]
    rfl
  unfold poll
  rw [h1]
  exact h4

theorem polls_processing (env : Env) (timer : Nat) (ds : List ResponseData)
    (hd : ∀ d ∈ ds, d.status = some "processing") (s : State)
    (ht : (s.timers.find? (fun x => x.id == timer)).isSome = true) :
    ∃ s1, polls env s timer ds = some s1 ∧ s1.timers = s.timers ∧
      s1.isGenerating = s.isGenerating ∧
      s1.generationProgress = nextProgress^[ds.length] s.generationProgress := by
  induction ds generalizing s with
  | nil => exact ⟨s, rfl, rfl, rfl, rfl⟩
  | cons d ds ih =>
    obtain ⟨t, ht1⟩ := Option.isSome_iff_exists.mp ht
    have hp := poll_processing env s timer t d ht1 (hd d (List.mem_cons_self _ _))
    obtain ⟨s1, h1, h2, h3, h4⟩ := ih (fun d hd1 => hd d (List.mem_cons_of_mem _ hd1))
      { s with
        requests := s.requests ++ [Request.status t.jobId t.apiKey]
        generationProgress := nextProgress s.generationProgress } ht
    refine ⟨s1, ?_, h2, h3, ?_⟩
    · simp only [polls, hp, Option.bind_some]
      exact h1
    · rw [h4, List.length_cons, Function.iterate_succ_apply]

/-- C5: when a creation request of a reachable state is answered with a job
id, the progress is 10 and the new timer is live; after `n` consecutive polls
of that timer answered with the status `processing` the progress is
`min (10 + 5 * n) 90`, which is at most 90, and the job is still generating. -/
theorem progress_after_processing (env : Env) (s : State) (i : Nat) (apiKey : String)
    (pollInterval : Option Nat) (predictionId : Option String) (data : ResponseData)
    (id now : String) (ds : List ResponseData)
    (hr : Reachable env s)
    (hp : s.pending[i]? = some (Pending.create apiKey pollInterval predictionId))
    (hid : data.id = some id) (hne : id ≠ "")
    (hd : ∀ d ∈ ds, d.status = some "processing") :
    ∃ s0 s1, step env s (.respond i (.ok data) now) = some s0 ∧
      s0.generationProgress = 10 ∧
      polls env s0 s.nextTimer ds = some s1 ∧
      s1.generationProgress = min (10 + 5 * ds.length) 90 ∧
      s1.generationProgress ≤ 90 ∧
      s1.isGenerating = s0.isGenerating := by
  have hi := inv_reachable hr
  have htr : truthy id = true := by
    cases id with
    | mk l =>
      cases l with
      | nil => exact absurd rfl hne
      | cons a l => rfl
  have hstep : step env s (.respond i (.ok data) now) =
      some (rerender s (startPolling pollInterval predictionId
        { s with pending := s.pending.eraseIdx i, predictionId := some id,
                 generationProgress := 10 } id apiKey)) := by
    simp only [step, hp, resume, onSubmitResume, hid, htr, if_true]
  obtain ⟨h1, _, _, _⟩ := @rerender_startPolling s
    { s with pending := s.pending.eraseIdx i, predictionId := some id, generationProgress := 10 }
    hi pollInterval predictionId id apiKey (List.Sublist.refl _) rfl
  have hprog : (rerender s (startPolling pollInterval predictionId
        { s with pending := s.pending.eraseIdx i, predictionId := some id,
                 generationProgress := 10 } id apiKey)).generationProgress = 10 := by
    unfold rerender
    split_ifs
    · cases pollInterval <;> rfl
    · cases s.pollInterval <;> cases pollInterval <;> rfl
  obtain ⟨s1, p1, _, p3, p4⟩ := polls_processing env s.nextTimer ds hd
    (rerender s (startPolling pollInterval predictionId
        { s with pending := s.pending.eraseIdx i, predictionId := some id,
                 generationProgress := 10 } id apiKey))
    (by rw [h1]; simp [List.find?])
  refine ⟨_, s1, hstep, hprog, p1, ?_, ?_, p3⟩
  · rw [p4, hprog, nextProgress_iterate]
  · rw [p4, hprog, nextProgress_iterate]
    exact Nat.min_le_right _ _

theorem progress_after_processing_witness :
    ∃ s0 s1, step plainEnv sampleSubmitted (.respond 0 (.ok (createdData "A")) "") = some s0 ∧
      s0.generationProgress = 10 ∧
      polls plainEnv s0 sampleSubmitted.nextTimer
        [statusData "processing", statusData "processing", statusData "processing"] = some s1 ∧
      s1.generationProgress =
        min (10 + 5 * [statusData "processing", statusData "processing",
          statusData "processing"].length) 90 ∧
      s1.generationProgress ≤ 90 ∧
      s1.isGenerating = s0.isGenerating :=
  progress_after_processing plainEnv sampleSubmitted 0 "key" none none (createdData "A") "A" ""
    [statusData "processing", statusData "processing", statusData "processing"]
    sampleSubmitted_reachable (by decide) (by decide) (by decide) (by decide)

/-! ## C11: a succeeded job without a usable output -/

theorem rerender_frame (prev next : State) :
    (rerender prev next).requests = next.requests ∧
    (rerender prev next).generated = next.generated ∧
    (rerender prev next).isGenerating = next.isGenerating ∧
    (rerender prev next).generationProgress = next.generationProgress ∧
    (rerender prev next).pending = next.pending ∧
    (rerender prev next).toasts = next.toasts ∧
    (rerender prev next).pollInterval = next.pollInterval ∧
    (rerender prev next).predictionId = next.predictionId := by
  unfold rerender
  split_ifs
  · exact ⟨rfl, rfl, rfl, rfl, rfl, rfl, rfl, rfl⟩
  · cases prev.pollInterval <;> exact ⟨rfl, rfl, rfl, rfl, rfl, rfl, rfl, rfl⟩

theorem selectUrls_nil_of_no_glb (urls : List String)
    (h : ∀ url ∈ urls, ¬ "textured_mesh.glb".data <:+: url.data ∧ ¬ ".glb".data <:+ url.data) :
    selectUrls urls = [] := by
  rw [selectUrls_eq]
  have h1 : urls.filter (fun url => decide ("textured_mesh.glb".data <:+: url.data)) = [] := by
    rw [List.filter_eq_nil_iff]
    intro url hu
    simpa using (h url hu).1
  have h2 : urls.filter (fun url => decide (".glb".data <:+ url.data)) = [] := by
    rw [List.filter_eq_nil_iff]
    intro url hu
    simpa using (h url hu).2
  rw [h1, h2]
  simp

/-- C11: when the output of a succeeded job is missing, is not a list, or is a
list in which no URL contains `textured_mesh.glb` and no URL ends with `.glb`,
`downloadModelFiles` posts no download request, parks no continuation and does
not call `onModelGenerated`, and the poll that called it ends, after the
commit, with the generating flag false and the progress 0. -/
theorem succeeded_without_glb (env : Env) (s : State) (t : Timer) (data : ResponseData)
    (hs : data.status = some "succeeded")
    (ho : data.output = .absent ∨ data.output = .notArray ∨
      ∃ urls, data.output = .array urls ∧
        ∀ url ∈ urls, ¬ "textured_mesh.glb".data <:+: url.data ∧ ¬ ".glb".data <:+ url.data) :
    (∀ s0 s1, downloadModelFiles env.reparseUrls s0 t data.output = .ok s1 →
      s1.requests = s0.requests ∧ s1.pending = s0.pending ∧ s1.generated = s0.generated) ∧
    (rerender s (pollResume env.reparseUrls s t (.ok data))).requests = s.requests ∧
    (rerender s (pollResume env.reparseUrls s t (.ok data))).pending = s.pending ∧
    (rerender s (pollResume env.reparseUrls s t (.ok data))).generated = s.generated ∧
    (rerender s (pollResume env.reparseUrls s t (.ok data))).isGenerating = false ∧
    (rerender s (pollResume env.reparseUrls s t (.ok data))).generationProgress = 0 := by
  have hne : data.status ≠ some "processing" := by rw [hs]; decide
  obtain ⟨f1, f2, f3, f4, f5, _, _, _⟩ := rerender_frame s (pollResume env.reparseUrls s t (.ok data))
  rw [f1, f2, f3, f4, f5]
  rcases ho with ho | ho | ⟨urls, ho, hu⟩
  · refine ⟨?_, ?_⟩
    · intro s0 s1 h
      rw [ho] at h
      exact absurd h (by simp [downloadModelFiles])
    · simp [pollResume, hs, ho, downloadModelFiles, pollCatch, toastError, clearInterval]
  · refine ⟨?_, ?_⟩
    · intro s0 s1 h
      rw [ho] at h
      exact absurd h (by simp [downloadModelFiles])
    · simp [pollResume, hs, ho, downloadModelFiles, pollCatch, toastError, clearInterval]
  · have hsel := selectUrls_nil_of_no_glb urls hu
    refine ⟨?_, ?_⟩
    · intro s0 s1 h
      rw [ho] at h
      simp only [downloadModelFiles, hsel, List.length_nil, if_true, Except.ok.injEq] at h
      rw [← h]
      simp [downloadFinally, downloadCatch, toastError]
    · simp [pollResume, hs, ho, downloadModelFiles, hsel, downloadFinally, downloadCatch,
        toastError, clearInterval]

theorem succeeded_without_glb_witness :
    (∀ s0 s1, downloadModelFiles plainEnv.reparseUrls s0
        { id := 0, jobId := "A", apiKey := "key", predictionId := none }
        (Output.array ["https://h/a/log.txt"]) = .ok s1 →
      s1.requests = s0.requests ∧ s1.pending = s0.pending ∧ s1.generated = s0.generated) ∧
    (rerender samplePolling (pollResume plainEnv.reparseUrls samplePolling
      { id := 0, jobId := "A", apiKey := "key", predictionId := none }
      (.ok { id := none, status := some "succeeded", output := .array ["https://h/a/log.txt"],
             error := none, success := false, downloaded := none }))).requests
        = samplePolling.requests ∧
    (rerender samplePolling (pollResume plainEnv.reparseUrls samplePolling
      { id := 0, jobId := "A", apiKey := "key", predictionId := none }
      (.ok { id := none, status := some "succeeded", output := .array ["https://h/a/log.txt"],
             error := none, success := false, downloaded := none }))).pending
        = samplePolling.pending ∧
    (rerender samplePolling (pollResume plainEnv.reparseUrls samplePolling
      { id := 0, jobId := "A", apiKey := "key", predictionId := none }
      (.ok { id := none, status := some "succeeded", output := .array ["https://h/a/log.txt"],
             error := none, success := false, downloaded := none }))).generated
        = samplePolling.generated ∧
    (rerender samplePolling (pollResume plainEnv.reparseUrls samplePolling
      { id := 0, jobId := "A", apiKey := "key", predictionId := none }
      (.ok { id := none, status := some "succeeded", output := .array ["https://h/a/log.txt"],
             error := none, success := false, downloaded := none }))).isGenerating = false ∧
    (rerender samplePolling (pollResume plainEnv.reparseUrls samplePolling
      { id := 0, jobId := "A", apiKey := "key", predictionId := none }
      (.ok { id := none, status := some "succeeded", output := .array ["https://h/a/log.txt"],
             error := none, success := false, downloaded := none }))).generationProgress = 0 :=
  succeeded_without_glb plainEnv samplePolling
    { id := 0, jobId := "A", apiKey := "key", predictionId := none }
    { id := none, status := some "succeeded", output := .array ["https://h/a/log.txt"],
      error := none, success := false, downloaded := none }
    rfl (Or.inr (Or.inr ⟨["https://h/a/log.txt"], rfl, by decide⟩))

/-! ## C12: the answer to the creation request -/

theorem truthy_of_ne_empty (id : String) (h : id ≠ "") : truthy id = true := by
  cases id with
  | mk l =>
    cases l with
    | nil => exact absurd rfl h
    | cons a l => rfl

/-- C12: when the creation request of a reachable state is answered without a
job id, no timer is started, the generating flag is set to false, the progress
to 0, and an error message is shown; when it is answered with an id, the
progress becomes 10, the id is recorded, and after the commit the one live
timer is a new one that polls exactly that id with the submitted key. -/
theorem creation_answered (env : Env) (s : State) (apiKey : String)
    (pollInterval : Option Nat) (predictionId : Option String) (data : ResponseData)
    (hr : Reachable env s) :
    ((data.id = none ∨ data.id = some "") →
      (rerender s (onSubmitResume s apiKey pollInterval predictionId (.ok data))).timers
        = s.timers ∧
      (rerender s (onSubmitResume s apiKey pollInterval predictionId (.ok data))).nextTimer
        = s.nextTimer ∧
      (rerender s (onSubmitResume s apiKey pollInterval predictionId (.ok data))).pollInterval
        = s.pollInterval ∧
      (rerender s (onSubmitResume s apiKey pollInterval predictionId (.ok data))).requests
        = s.requests ∧
      (rerender s (onSubmitResume s apiKey pollInterval predictionId (.ok data))).isGenerating
        = false ∧
      (rerender s (onSubmitResume s apiKey pollInterval predictionId
        (.ok data))).generationProgress = 0 ∧
      (rerender s (onSubmitResume s apiKey pollInterval predictionId (.ok data))).toasts
        = s.toasts ++ [Toast.error ("Failed to generate model: " ++
            orDefault data.error "Failed to start generation")]) ∧
    (∀ id, data.id = some id → id ≠ "" →
      (rerender s (onSubmitResume s apiKey pollInterval predictionId
        (.ok data))).generationProgress = 10 ∧
      (rerender s (onSubmitResume s apiKey pollInterval predictionId (.ok data))).predictionId
        = some id ∧
      (rerender s (onSubmitResume s apiKey pollInterval predictionId (.ok data))).timers
        = [{ id := s.nextTimer, jobId := id, apiKey := apiKey, predictionId := predictionId }] ∧
      (rerender s (onSubmitResume s apiKey pollInterval predictionId (.ok data))).pollInterval
        = some s.nextTimer ∧
      ∃ s2, step env (rerender s (onSubmitResume s apiKey pollInterval predictionId (.ok data)))
          (.tick s.nextTimer) = some s2 ∧
        s2.requests = s.requests ++ [Request.status id apiKey]) := by
  have hi := inv_reachable hr
  refine ⟨?_, ?_⟩
  · intro hid
    have hres : onSubmitResume s apiKey pollInterval predictionId (.ok data) =
        onSubmitCatch s (orDefault data.error "Failed to start generation") none := by
      rcases hid with h | h
      · simp [onSubmitResume, h]
      · simp [onSubmitResume, h, truthy]
    rw [hres]
    simp [rerender, onSubmitCatch, toastError, orDefault]
  · intro id hid hne
    have htr := truthy_of_ne_empty id hne
    have hres : onSubmitResume s apiKey pollInterval predictionId (.ok data) =
        startPolling pollInterval predictionId
          { s with predictionId := some id, generationProgress := 10 } id apiKey := by
      simp [onSubmitResume, hid, htr]
    obtain ⟨f1, _, _, f4, _, _, f7, f8⟩ :=
      rerender_frame s (onSubmitResume s apiKey pollInterval predictionId (.ok data))
    obtain ⟨h1, h2, _, _⟩ := @rerender_startPolling s
      { s with predictionId := some id, generationProgress := 10 }
      hi pollInterval predictionId id apiKey (List.Sublist.refl _) rfl
    rw [← hres] at h1 h2
    refine ⟨?_, ?_, h1, h2, ?_⟩
    · rw [f4, hres]
      cases pollInterval <;> rfl
    · rw [f8, hres]
      cases pollInterval <;> rfl
    · obtain ⟨s1, hs1⟩ : ∃ s1, s1 = rerender s (onSubmitResume s apiKey pollInterval
          predictionId (.ok data)) := ⟨_, rfl⟩
      rw [← hs1] at h1 f1
      rw [← hs1]
      have hfind : s1.timers.find? (fun t => t.id == s.nextTimer) =
          some { id := s.nextTimer, jobId := id, apiKey := apiKey,
                 predictionId := predictionId } := by
        rw [h1]
        simp [List.find?]
      refine ⟨rerender s1 (pollTick s1 ⟨s.nextTimer, id, apiKey, predictionId⟩),
        by simp only [step, hfind], ?_⟩
      obtain ⟨g1, _⟩ := rerender_frame s1 (pollTick s1 ⟨s.nextTimer, id, apiKey, predictionId⟩)
      rw [g1]
      simp only [pollTick]
      rw [f1, hres]
      cases pollInterval <;> rfl

theorem creation_answered_witness :
    (((createdData "A").id = none ∨ (createdData "A").id = some "") →
      (rerender sampleSubmitted (onSubmitResume sampleSubmitted "key" none none
        (.ok (createdData "A")))).timers = sampleSubmitted.timers ∧
      (rerender sampleSubmitted (onSubmitResume sampleSubmitted "key" none none
        (.ok (createdData "A")))).nextTimer = sampleSubmitted.nextTimer ∧
      (rerender sampleSubmitted (onSubmitResume sampleSubmitted "key" none none
        (.ok (createdData "A")))).pollInterval = sampleSubmitted.pollInterval ∧
      (rerender sampleSubmitted (onSubmitResume sampleSubmitted "key" none none
        (.ok (createdData "A")))).requests = sampleSubmitted.requests ∧
      (rerender sampleSubmitted (onSubmitResume sampleSubmitted "key" none none
        (.ok (createdData "A")))).isGenerating = false ∧
      (rerender sampleSubmitted (onSubmitResume sampleSubmitted "key" none none
        (.ok (createdData "A")))).generationProgress = 0 ∧
      (rerender sampleSubmitted (onSubmitResume sampleSubmitted "key" none none
        (.ok (createdData "A")))).toasts
        = sampleSubmitted.toasts ++ [Toast.error ("Failed to generate model: " ++
            orDefault (createdData "A").error "Failed to start generation")]) ∧
    (∀ id, (createdData "A").id = some id → id ≠ "" →
      (rerender sampleSubmitted (onSubmitResume sampleSubmitted "key" none none
        (.ok (createdData "A")))).generationProgress = 10 ∧
      (rerender sampleSubmitted (onSubmitResume sampleSubmitted "key" none none
        (.ok (createdData "A")))).predictionId = some id ∧
      (rerender sampleSubmitted (onSubmitResume sampleSubmitted "key" none none
        (.ok (createdData "A")))).timers
        = [{ id := sampleSubmitted.nextTimer, jobId := id, apiKey := "key",
             predictionId := none }] ∧
      (rerender sampleSubmitted (onSubmitResume sampleSubmitted "key" none none
        (.ok (createdData "A")))).pollInterval = some sampleSubmitted.nextTimer ∧
      ∃ s2, step plainEnv (rerender sampleSubmitted (onSubmitResume sampleSubmitted "key" none
          none (.ok (createdData "A")))) (.tick sampleSubmitted.nextTimer) = some s2 ∧
        s2.requests = sampleSubmitted.requests ++ [Request.status id "key"]) :=
  creation_answered plainEnv sampleSubmitted "key" none none (createdData "A")
    sampleSubmitted_reachable

/-! ## C13: `uploadImage` and `onImageUploaded` -/

theorem uploadCatch_uploaded (development : Bool) (createObjectURL : File → String)
    (s : Uploader) (file : File) (message : String) :
    (uploadCatch development createObjectURL s file message).uploaded =
      if development then
        s.uploaded ++ [some { url := some (createObjectURL file),
                              serverUrl := some ("https://example.com/fake-upload-path/" ++
                                file.name) }]
      else s.uploaded := by
  unfold uploadCatch
  cases development <;> simp <;> split_ifs <;> rfl

/-- C13, as stated, fails in development mode: the upload request is rejected
and `onImageUploaded` is called all the same, with a mock record. -/
theorem uploadImage_development_fallback :
    (uploadImage true sampleObjectURL Uploader.init
      { name := "duck.png", size := 2048, type := "image/png" }
      (.rejected "Failed to fetch")).uploaded =
      [some { url := some "blob:http://localhost:3000/duck.png",
              serverUrl := some "https://example.com/fake-upload-path/duck.png" }] := by
  decide

/-- C13, amended: outside development mode `uploadImage` passes a record to
`onImageUploaded` only after a successful upload: when the response is not ok,
or the request or the reading of the body throws, or the body has
`success = false`, it does not call `onImageUploaded`.  In development mode a
response that is not ok or a throwing request passes a mock record instead; a
body with `success = false` passes none in either mode.  A successful upload
passes one record with the server URL of the body.  In every case the
uploading flag is false when `uploadImage` finishes. -/
theorem uploadImage_calls (development : Bool) (createObjectURL : File → String)
    (s : Uploader) (file : File) (outcome : UploadOutcome) :
    (uploadImage development createObjectURL s file outcome).isUploading = false ∧
    (∀ url filename error, outcome = .body false url filename error →
      (uploadImage development createObjectURL s file outcome).uploaded = s.uploaded) ∧
    (∀ url filename error, outcome = .body true url filename error →
      (uploadImage development createObjectURL s file outcome).uploaded =
        s.uploaded ++ [some { url := some (createObjectURL file), serverUrl := url }]) ∧
    ((∀ success url filename error, outcome ≠ .body success url filename error) →
      (uploadImage development createObjectURL s file outcome).uploaded =
        if development then
          s.uploaded ++ [some { url := some (createObjectURL file),
                                serverUrl := some ("https://example.com/fake-upload-path/" ++
                                  file.name) }]
        else s.uploaded) := by
  refine ⟨rfl, ?_, ?_, ?_⟩
  · intro url filename error h
    rw [h]
    rfl
  · intro url filename error h
    rw [h]
    rfl
  · intro h
    cases outcome with
    | rejected message => exact uploadCatch_uploaded _ _ _ _ _
    | notOk status statusText => exact uploadCatch_uploaded _ _ _ _ _
    | invalidJson message => exact uploadCatch_uploaded _ _ _ _ _
    | body success url filename error => exact absurd rfl (h success url filename error)

/-! ## C14, C15: `onDrop` -/

/-- C14: an image file of 11 MB among the accepted files is uploaded like any
other: `onDrop` looks at the type of the file only, and the options passed to
`useDropzone` (lines 127-134) set no `maxSize`. -/
theorem onDrop_uploads_large_file :
    10 * 1024 * 1024 < (11 * 1024 * 1024 : Nat) ∧
    (onDrop false sampleObjectURL Uploader.init
      [{ name := "big.png", size := 11 * 1024 * 1024, type := "image/png" }]
      (.body true (some "https://h/up/big.png") (some "big.png") none)).requests =
      [UploadRequest.preflight,
       UploadRequest.upload { name := "big.png", size := 11 * 1024 * 1024,
                              type := "image/png" }] := by
  decide

/-- C15: `onDrop` does nothing for an empty list of accepted files; for a
non-empty list it considers the first file only; when the MIME type of that
file starts with `image/` it uploads it, which issues the upload request for
that file and no other, and otherwise it shows an error and issues no request
and calls nothing. -/
theorem onDrop_first_file (development : Bool) (createObjectURL : File → String)
    (s : Uploader) (file : File) (rest : List File) (outcome : UploadOutcome) :
    onDrop development createObjectURL s [] outcome = s ∧
    onDrop development createObjectURL s (file :: rest) outcome =
      onDrop development createObjectURL s [file] outcome ∧
    ("image/".data <+: file.type.data →
      onDrop development createObjectURL s (file :: rest) outcome =
        uploadImage development createObjectURL s file outcome ∧
      (onDrop development createObjectURL s (file :: rest) outcome).requests =
        s.requests ++ [UploadRequest.preflight, UploadRequest.upload file]) ∧
    (¬ "image/".data <+: file.type.data →
      onDrop development createObjectURL s (file :: rest) outcome =
        { s with toasts := s.toasts ++ [Toast.error "Please upload an image file"] }) := by
  refine ⟨rfl, rfl, ?_, ?_⟩
  · intro h
    have hs : startsWith file.type "image/" = true := (startsWith_iff _ _).mpr h
    have he : onDrop development createObjectURL s (file :: rest) outcome =
        uploadImage development createObjectURL s file outcome := by
      simp only [onDrop, hs, if_true]
    refine ⟨he, ?_⟩
    rw [he]
    cases outcome with
    | rejected message =>
      simp only [uploadImage, uploadCatch]
      cases development <;> simp <;> split_ifs <;> rfl
    | notOk status statusText =>
      simp only [uploadImage, uploadCatch]
      cases development <;> simp <;> split_ifs <;> rfl
    | invalidJson message =>
      simp only [uploadImage, uploadCatch]
      cases development <;> simp <;> split_ifs <;> rfl
    | body success url filename error =>
      cases success <;> rfl
  · intro h
    have hs : startsWith file.type "image/" = false := by
      rw [← Bool.not_eq_true, startsWith_iff]
      exact h
    simp only [onDrop, hs]
    rfl

/-! ## C17: `cn` -/

theorem join_data (separator : String) (l : List String) :
    (join separator l).data = List.intercalate separator.data (l.map String.data) := by
  induction l with
  | nil => rfl
  | cons a l ih =>
    cases l with
    | nil => simp [join, List.intercalate]
    | cons b l =>
      simp only [join, String.data_append, ih]
      simp [List.intercalate, List.intersperse]

theorem text_ne_nil_of_truthy (v : ClassValue) (h : v.truthy = true) : v.text.data ≠ [] := by
  cases v with
  | str s =>
    simp only [ClassValue.truthy, truthy, Bool.not_eq_true', List.isEmpty_eq_false] at h
    simpa [ClassValue.text] using h
  | bool b =>
    simp only [ClassValue.truthy] at h
    rw [h]
    decide
  | null => exact absurd h (by simp [ClassValue.truthy])
  | undefined => exact absurd h (by simp [ClassValue.truthy])

theorem join_head (l : List String) (hne : ∀ p ∈ l, p.data ≠ [])
    (h : ∀ p ∈ l, p.data.head? ≠ some ' ') : (join " " l).data.head? ≠ some ' ' := by
  cases l with
  | nil => simp [join]
  | cons a l =>
    have ha := h a (List.mem_cons_self _ _)
    cases l with
    | nil => simpa [join] using ha
    | cons b l =>
      have hane := hne a (List.mem_cons_self _ _)
      simp only [join, String.data_append]
      rw [List.append_assoc, List.head?_append_of_ne_nil _ hane]
      exact ha

theorem join_getLast (l : List String) (hne : ∀ p ∈ l, p.data ≠ [])
    (h : ∀ p ∈ l, p.data.getLast? ≠ some ' ') : (join " " l).data.getLast? ≠ some ' ' := by
  induction l with
  | nil => simp [join]
  | cons a l ih =>
    cases l with
    | nil => simpa [join] using h a (List.mem_cons_self _ _)
    | cons b l =>
      have ih2 := ih (fun p hp => hne p (List.mem_cons_of_mem _ hp))
        (fun p hp => h p (List.mem_cons_of_mem _ hp))
      have hj : (join " " (b :: l)).data ≠ [] := by
        rw [join_data]
        have hb := hne b (List.mem_cons_of_mem _ (List.mem_cons_self _ _))
        cases l with
        | nil => simpa [List.intercalate] using hb
        | cons c l => simp [List.intercalate, List.intersperse, hb]
      simp only [join, String.data_append]
      rw [List.getLast?_append_of_ne_nil _ hj]
      exact ih2

/-- C17: `cn` returns the texts of its truthy arguments, in their order, with
one space between neighbours; the result is empty when every argument is
falsy, and it neither starts nor ends with a space when no truthy argument
does. -/
theorem cn_joins_truthy (classes : List ClassValue) :
    (cn classes).data = List.intercalate [' ']
      (((classes.filter (fun v => v.truthy)).map (fun v => v.text)).map String.data) ∧
    ((∀ v ∈ classes, v.truthy = false) → cn classes = "") ∧
    ((∀ v ∈ classes, v.truthy = true → v.text.data.head? ≠ some ' ') →
      (cn classes).data.head? ≠ some ' ') ∧
    ((∀ v ∈ classes, v.truthy = true → v.text.data.getLast? ≠ some ' ') →
      (cn classes).data.getLast? ≠ some ' ') := by
  have hne : ∀ p ∈ (classes.filter ClassValue.truthy).map ClassValue.text, p.data ≠ [] := by
    intro p hp
    obtain ⟨v, hv, rfl⟩ := List.mem_map.mp hp
    exact text_ne_nil_of_truthy v (List.mem_filter.mp hv).2
  refine ⟨join_data " " _, ?_, ?_, ?_⟩
  · intro h
    have hnil : classes.filter ClassValue.truthy = [] := by
      rw [List.filter_eq_nil_iff]
      intro v hv
      simp [h v hv]
    simp [cn, hnil, join]
  · intro h
    apply join_head _ hne
    intro p hp
    obtain ⟨v, hv, rfl⟩ := List.mem_map.mp hp
    exact h v (List.mem_filter.mp hv).1 (List.mem_filter.mp hv).2
  · intro h
    apply join_getLast _ hne
    intro p hp
    obtain ⟨v, hv, rfl⟩ := List.mem_map.mp hp
    exact h v (List.mem_filter.mp hv).1 (List.mem_filter.mp hv).2

/-! ## C18: teardown -/

theorem still_refl (s : State) : Still s s :=
  ⟨List.Sublist.refl _, rfl, fun _ h => Or.inl h, rfl⟩

theorem still_trans {a b c : State} (h1 : Still a b) (h2 : Still b c) : Still a c := by
  obtain ⟨t1, n1, p1, r1⟩ := h1
  obtain ⟨t2, n2, p2, r2⟩ := h2
  refine ⟨t2.trans t1, n2.trans n1, ?_, r2.trans r1⟩
  intro p hp
  rcases p2 p hp with h | h
  · exact p1 p h
  · exact Or.inr h

theorem still_erase (s : State) (i : Nat) : Still s { s with pending := s.pending.eraseIdx i } :=
  ⟨List.Sublist.refl _, rfl, fun _ h => Or.inl ((List.eraseIdx_sublist s.pending i).subset h),
    rfl⟩

theorem still_pollCatch (s : State) (c : Nat) (message : String) :
    Still s (pollCatch s c message) :=
  ⟨clearInterval_sublist s c, rfl, fun _ h => Or.inl h, rfl⟩

theorem still_downloadFail (s : State) (message : String) :
    Still s (downloadFinally (downloadCatch s message)) :=
  ⟨List.Sublist.refl _, rfl, fun _ h => Or.inl h, rfl⟩

theorem still_downloadModelFiles (env : Env) (s s1 : State) (t : Timer) (output : Output)
    (h : downloadModelFiles env.reparseUrls s t output = .ok s1) : Still s s1 := by
  unfold downloadModelFiles at h
  split at h
  · exact absurd h (by simp)
  · exact absurd h (by simp)
  · dsimp only at h
    split at h
    · injection h with h
      exact h ▸ still_downloadFail s _
    · split at h
      · injection h with h
        exact h ▸ still_downloadFail s _
      · injection h with h
        subst h
        refine ⟨List.Sublist.refl _, rfl, ?_, ?_⟩
        · intro x hx
          simp only [List.mem_append, List.mem_singleton] at hx
          rcases hx with h | h
          · exact Or.inl h
          · exact Or.inr (by rw [h]; rfl)
        · simp [List.filter_append, List.filter, Request.isStatus]

theorem still_downloadResume (s : State) (p : Option String) (r : Response) (now : String) :
    Still s (downloadResume s p r now) := by
  unfold downloadResume
  split
  · exact still_downloadFail s _
  · split
    · split
      · exact still_downloadFail s _
      · exact still_downloadFail s _
      · exact ⟨List.Sublist.refl _, rfl, fun _ h => Or.inl h, rfl⟩
    · exact still_downloadFail s _

theorem still_pollResume (env : Env) (s : State) (t : Timer) (r : Response) :
    Still s (pollResume env.reparseUrls s t r) := by
  unfold pollResume
  split
  · exact still_pollCatch s _ _
  · split
    · exact ⟨List.Sublist.refl _, rfl, fun _ h => Or.inl h, rfl⟩
    · have hq : Still s
          { clearInterval s t.id with pollInterval := none, generationProgress := 100 } :=
        ⟨clearInterval_sublist s t.id, rfl, fun _ h => Or.inl h, rfl⟩
      split
      · dsimp only
        split
        · rename_i s2 hs2
          exact still_trans hq (still_downloadModelFiles env _ _ t _ hs2)
        · exact still_trans hq (still_pollCatch _ _ _)
      · split
        · have hq2 : Still s { clearInterval s t.id with pollInterval := none } :=
            ⟨clearInterval_sublist s t.id, rfl, fun _ h => Or.inl h, rfl⟩
          exact still_trans hq2 (still_pollCatch _ _ _)
        · exact still_refl s

theorem still_settersIgnored (prev next : State) : Still next (settersIgnored prev next) :=
  ⟨List.Sublist.refl _, rfl, fun _ h => Or.inl h, rfl⟩

theorem unmount_timers_nil {s : State} (hi : Inv s) : (unmount s).timers = [] := by
  apply List.eq_nil_iff_forall_not_mem.mpr
  intro x hx
  have hx2 := (mem_effectCleanup _ _ _).mp hx
  exact hx2.2 (hi.2.1 x hx2.1)

theorem unmount_frame (s : State) :
    (unmount s).nextTimer = s.nextTimer ∧ (unmount s).pending = s.pending ∧
    (unmount s).requests = s.requests := by
  unfold unmount
  cases s.pollInterval <;> exact ⟨rfl, rfl, rfl⟩

theorem tickUnmounted_none (env : Env) (s : State) (timer : Nat)
    (h : ∀ x ∈ s.timers, x.id ≠ timer) : stepUnmounted env s (.tick timer) = none := by
  have hf : s.timers.find? (fun t => t.id == timer) = none := by
    rw [List.find?_eq_none]
    intro x hx
    simpa using h x hx
  simp only [stepUnmounted, hf]

theorem dead_of_still {c : Nat} {s next : State} (hd : Dead c s) (hq : Still s next) :
    Dead c next :=
  ⟨by rw [hq.2.1]; exact hd.1, fun x hx => hd.2 x (hq.1.subset hx)⟩

theorem dead_startPolling_plain {c : Nat} {s0 : State} (hd : Dead c s0)
    (pollInterval : Option Nat) (predictionId : Option String) (id apiKey : String) :
    Dead c (startPolling pollInterval predictionId s0 id apiKey) := by
  obtain ⟨l, hl, h1, _, h3, _⟩ := startPolling_fields pollInterval predictionId s0 id apiKey
  refine ⟨?_, ?_⟩
  · rw [h3]
    exact Nat.lt_succ_of_lt hd.1
  · intro x hx
    rw [h1] at hx
    simp only [List.mem_append, List.mem_singleton] at hx
    rcases hx with hx | hx
    · exact hd.2 x (hl.subset hx)
    · rw [hx]
      exact Nat.ne_of_gt hd.1

theorem dead_onSubmitResume {c : Nat} {s : State} (hd : Dead c s) (apiKey : String)
    (pollInterval : Option Nat) (predictionId : Option String) (r : Response) :
    Dead c (onSubmitResume s apiKey pollInterval predictionId r) := by
  unfold onSubmitResume
  split
  · exact hd
  · split
    · rename_i id _
      split
      · have hd2 : Dead c { s with predictionId := some id, generationProgress := 10 } := hd
        exact dead_startPolling_plain hd2 _ _ _ _
      · exact hd
    · exact hd

theorem dead_stepUnmounted {c : Nat} {env : Env} {s s1 : State} {e : Event} (hd : Dead c s)
    (h : stepUnmounted env s e = some s1) : Dead c s1 := by
  cases e with
  | submit data seed => exact absurd h (by simp [stepUnmounted])
  | cancel => exact absurd h (by simp [stepUnmounted])
  | imageUploaded image => exact absurd h (by simp [stepUnmounted])
  | tick timer =>
    simp only [stepUnmounted] at h
    split at h
    · injection h with h
      subst h
      exact hd
    · exact absurd h (by simp)
  | respond i r now =>
    simp only [stepUnmounted] at h
    split at h
    · rename_i p hp
      injection h with h
      subst h
      have he : Dead c { s with pending := s.pending.eraseIdx i } := hd
      cases p with
      | create apiKey pollInterval predictionId =>
        exact dead_onSubmitResume he apiKey pollInterval predictionId r
      | status t => exact dead_of_still he (still_pollResume env _ t r)
      | download predictionId => exact dead_of_still he (still_downloadResume _ predictionId r now)
    · exact absurd h (by simp)

theorem dead_runUnmounted {c : Nat} {env : Env} (es : List Event) {s s1 : State}
    (hd : Dead c s) (h : runUnmounted env s es = some s1) : Dead c s1 := by
  induction es generalizing s with
  | nil =>
    simp only [runUnmounted, Option.some.injEq] at h
    exact h ▸ hd
  | cons e es ih =>
    simp only [runUnmounted] at h
    cases hs : stepUnmounted env s e with
    | none => rw [hs] at h; exact absurd h (by simp)
    | some s2 =>
      rw [hs] at h
      exact ih (dead_stepUnmounted hd hs) h

theorem still_stepUnmounted {env : Env} {s s1 : State} {e : Event} (ht : s.timers = [])
    (hp : ∀ p ∈ s.pending, p.isCreate = false) (h : stepUnmounted env s e = some s1) :
    Still s s1 := by
  cases e with
  | submit data seed => exact absurd h (by simp [stepUnmounted])
  | cancel => exact absurd h (by simp [stepUnmounted])
  | imageUploaded image => exact absurd h (by simp [stepUnmounted])
  | tick timer => exact absurd h (by simp [stepUnmounted, ht])
  | respond i r now =>
    simp only [stepUnmounted] at h
    split at h
    · rename_i p hpi
      injection h with h
      subst h
      have hc := hp p (List.getElem?_mem hpi)
      cases p with
      | create apiKey pollInterval predictionId => exact absurd hc (by simp [Pending.isCreate])
      | status t =>
        exact still_trans (still_trans (still_erase s i) (still_pollResume env _ t r))
          (still_settersIgnored _ _)
      | download predictionId =>
        exact still_trans
          (still_trans (still_erase s i) (still_downloadResume _ predictionId r now))
          (still_settersIgnored _ _)
    · exact absurd h (by simp)

theorem still_runUnmounted {env : Env} (es : List Event) {s s1 : State} (ht : s.timers = [])
    (hp : ∀ p ∈ s.pending, p.isCreate = false) (h : runUnmounted env s es = some s1) :
    Still s s1 := by
  induction es generalizing s with
  | nil =>
    simp only [runUnmounted, Option.some.injEq] at h
    exact h ▸ still_refl s
  | cons e es ih =>
    simp only [runUnmounted] at h
    cases hs : stepUnmounted env s e with
    | none => rw [hs] at h; exact absurd h (by simp)
    | some s2 =>
      rw [hs] at h
      have hq := still_stepUnmounted ht hp hs
      have ht2 : s2.timers = [] := by
        have := hq.1
        rw [ht] at this
        exact List.sublist_nil.mp this
      have hp2 : ∀ p ∈ s2.pending, p.isCreate = false := by
        intro p hpm
        rcases hq.2.2.1 p hpm with h1 | h1
        · exact hp p h1
        · exact h1
      exact still_trans hq (ih ht2 hp2 h)

/-- C18, as stated, fails: the component is torn down in the reachable state
`doubleCreationState`, where timer 1 is recorded and a creation request is in
flight.  The clean-up clears timer 1 and no timer is live.  Then the creation
request is answered with the id `C`: its handler calls `startPolling`, which
creates timer 2, and nothing clears that timer.  It fires twice, and the four
status requests issued so far are two more than at teardown. -/
theorem unmount_creation_in_flight_polls :
    Reachable plainEnv doubleCreationState ∧
    doubleCreationState.pollInterval = some 1 ∧
    (unmount doubleCreationState).timers = [] ∧
    ((unmount doubleCreationState).requests.filter Request.isStatus).length = 2 ∧
    (runUnmounted plainEnv (unmount doubleCreationState)
      [.respond 0 (.ok (createdData "C")) "", .tick 2, .tick 2]).map
      (fun s => (s.timers.map Timer.id, s.requests.filter Request.isStatus)) =
      some ([2], [Request.status "A" "key", Request.status "A" "key",
                  Request.status "C" "key", Request.status "C" "key"]) :=
  ⟨doubleCreationState_reachable, by decide, by decide, by decide, by decide⟩

/-- C18, amended: when the component is torn down in a reachable state with a
recorded polling timer, the clean-up clears that timer and no timer is left
live, so no timer can fire; the recorded timer never fires again, whatever
responses arrive later; and when no creation request is in flight at teardown,
no timer is ever live again and no status request is issued after teardown. -/
theorem unmount_stops_polling (env : Env) (s : State) (c : Nat) (hr : Reachable env s)
    (hc : s.pollInterval = some c) :
    (unmount s).timers = [] ∧
    (unmount s).requests = s.requests ∧
    (∀ timer, stepUnmounted env (unmount s) (.tick timer) = none) ∧
    (∀ es s2, runUnmounted env (unmount s) es = some s2 →
      stepUnmounted env s2 (.tick c) = none) ∧
    ((∀ p ∈ s.pending, p.isCreate = false) →
      ∀ es s2, runUnmounted env (unmount s) es = some s2 →
        s2.timers = [] ∧
        s2.requests.filter Request.isStatus = s.requests.filter Request.isStatus) := by
  have hi := inv_reachable hr
  have hnil := unmount_timers_nil hi
  obtain ⟨u1, u2, u3⟩ := unmount_frame s
  refine ⟨hnil, u3, ?_, ?_, ?_⟩
  · intro timer
    apply tickUnmounted_none
    intro x hx
    rw [hnil] at hx
    exact absurd hx (List.not_mem_nil x)
  · intro es s2 h
    have hd : Dead c (unmount s) := by
      refine ⟨?_, ?_⟩
      · rw [u1]
        exact hi.2.2.1 c hc
      · intro x hx
        rw [hnil] at hx
        exact absurd hx (List.not_mem_nil x)
    exact tickUnmounted_none env s2 c (dead_runUnmounted es hd h).2
  · intro hp es s2 h
    have hq := still_runUnmounted es hnil (by rw [u2]; exact hp) h
    refine ⟨?_, ?_⟩
    · have := hq.1
      rw [hnil] at this
      exact List.sublist_nil.mp this
    · rw [hq.2.2.2, u3]

theorem unmount_stops_polling_witness :
    (unmount samplePolling).timers = [] ∧
    (unmount samplePolling).requests = samplePolling.requests ∧
    (∀ timer, stepUnmounted plainEnv (unmount samplePolling) (.tick timer) = none) ∧
    (∀ es s2, runUnmounted plainEnv (unmount samplePolling) es = some s2 →
      stepUnmounted plainEnv s2 (.tick 0) = none) ∧
    ((∀ p ∈ samplePolling.pending, p.isCreate = false) →
      ∀ es s2, runUnmounted plainEnv (unmount samplePolling) es = some s2 →
        s2.timers = [] ∧
        s2.requests.filter Request.isStatus =
          samplePolling.requests.filter Request.isStatus) :=
  unmount_stops_polling plainEnv samplePolling 0 samplePolling_reachable rfl

/-! ## C19: the JSON round trip of the request objects -/

set_option maxRecDepth 100000 in
theorem reparseJson_plain_request :
    reparseJson (requestJson (sampleRequest "a yellow duck")) =
      some (requestJson (sampleRequest "a yellow duck")) ∧
    reparseJson (downloadJson ["https://h/a/textured_mesh.glb"]) =
      some (downloadJson ["https://h/a/textured_mesh.glb"]) :=
  ⟨rfl, rfl⟩

set_option maxRecDepth 100000 in
/-- C19: the round trip of lines 92-99 at request objects whose texts contain a
double quote.  `JSON.stringify` escapes the quote, the first `replace` call
strips the escape, and the text no longer stands for the object: for the
caption `a "big" duck` and for the URL `https://h/a".glb` the call `JSON.parse`
throws, and for the caption `","model":"other` it yields an object whose
`model` is `other` and whose caption is empty. -/
theorem reparseJson_quote_breaks :
    reparseJson (requestJson (sampleRequest "a \"big\" duck")) = none ∧
    reparseJson (downloadJson ["https://h/a\".glb"]) = none ∧
    reparseJson (requestJson (sampleRequest "\",\"model\":\"other")) =
      some (requestJson
        { sampleRequest "" with model := "other" }) :=
  ⟨rfl, rfl, rfl⟩

/-! ## C23: the type filter of the gallery -/

/-- C23: in the filter step, for a non-empty model list, the filter `textured`
keeps exactly the models whose filename contains `textured`, the filter `white`
exactly those whose filename contains `white`, in their order and with the
case of the letters as it is, and any other filter value keeps every model. -/
theorem applyTypeFilter_keeps (models : List Model) (filter : String) (_hne : models ≠ []) :
    (filter = "textured" → applyTypeFilter filter models =
      models.filter (fun model => decide ("textured".data <:+: model.filename.data))) ∧
    (filter = "white" → applyTypeFilter filter models =
      models.filter (fun model => decide ("white".data <:+: model.filename.data))) ∧
    (filter ≠ "textured" → filter ≠ "white" → applyTypeFilter filter models = models) ∧
    (∀ toLowerCase, filterStep toLowerCase models filter "" = applyTypeFilter filter models) := by
  have hinc : ∀ p : String, (fun model : Model => includes model.filename p) =
      (fun model => decide (p.data <:+: model.filename.data)) := by
    intro p
    funext model
    rw [Bool.eq_iff_iff, includes_iff]
    simp
  refine ⟨?_, ?_, ?_, ?_⟩
  · intro h
    rw [h]
    simp only [applyTypeFilter, if_true, hinc]
  · intro h
    rw [h]
    have hd : ¬ ("white" : String) = "textured" := by decide
    simp only [applyTypeFilter, hd, if_false, if_true, hinc]
  · intro h1 h2
    simp only [applyTypeFilter, h1, h2, if_false]
  · intro toLowerCase
    rfl

theorem applyTypeFilter_keeps_witness :
    (("white" : String) = "textured" → applyTypeFilter "white"
        [{ filename := "Duck_white.glb", url := "u", size := 1, created := "c" },
         { filename := "Cat_White.glb", url := "v", size := 2, created := "d" }] =
      [{ filename := "Duck_white.glb", url := "u", size := 1, created := "c" },
       { filename := "Cat_White.glb", url := "v", size := 2, created := "d" }].filter
        (fun model => decide ("textured".data <:+: model.filename.data))) ∧
    (("white" : String) = "white" → applyTypeFilter "white"
        [{ filename := "Duck_white.glb", url := "u", size := 1, created := "c" },
         { filename := "Cat_White.glb", url := "v", size := 2, created := "d" }] =
      [{ filename := "Duck_white.glb", url := "u", size := 1, created := "c" },
       { filename := "Cat_White.glb", url := "v", size := 2, created := "d" }].filter
        (fun model => decide ("white".data <:+: model.filename.data))) ∧
    (("white" : String) ≠ "textured" → ("white" : String) ≠ "white" → applyTypeFilter "white"
        [{ filename := "Duck_white.glb", url := "u", size := 1, created := "c" },
         { filename := "Cat_White.glb", url := "v", size := 2, created := "d" }] =
      [{ filename := "Duck_white.glb", url := "u", size := 1, created := "c" },
       { filename := "Cat_White.glb", url := "v", size := 2, created := "d" }]) ∧
    (∀ toLowerCase, filterStep toLowerCase
        [{ filename := "Duck_white.glb", url := "u", size := 1, created := "c" },
         { filename := "Cat_White.glb", url := "v", size := 2, created := "d" }] "white" "" =
      applyTypeFilter "white"
        [{ filename := "Duck_white.glb", url := "u", size := 1, created := "c" },
         { filename := "Cat_White.glb", url := "v", size := 2, created := "d" }]) :=
  applyTypeFilter_keeps _ "white" (by decide)

/-! ## C26: `handleImageUploaded` -/

/-- C26: `handleImageUploaded` stores its argument as the uploaded image; it
resets the generated model to null when there is one and its URL is not the
URL of the example model, and leaves the generated model as it is otherwise. -/
theorem handleImageUploaded_effect (h : Home) (imageData : Option UploadedImage) :
    (handleImageUploaded h imageData).uploadedImage = imageData ∧
    ((∃ model, h.generatedModel = some model ∧ model.url ≠ exampleModelUrl) →
      (handleImageUploaded h imageData).generatedModel = none) ∧
    (¬ (∃ model, h.generatedModel = some model ∧ model.url ≠ exampleModelUrl) →
      (handleImageUploaded h imageData).generatedModel = h.generatedModel) := by
  cases hg : h.generatedModel with
  | none => simp [handleImageUploaded, hg]
  | some model =>
    by_cases hu : model.url = exampleModelUrl
    · simp [handleImageUploaded, hg, hu]
    · simp [handleImageUploaded, hg, hu]

/-! ## C27: the gallery never calls `onSelectModel` -/

theorem fetchModels_selected (localeCompare : String → String → Int)
    (time : String → Option Int) (g : Gallery) (outcome : ListOutcome) :
    (g.fetchModels localeCompare time outcome).selected = g.selected := by
  cases outcome with
  | rejected message serverError => rfl
  | body success models error => cases success <;> rfl

theorem filterEffect_selected (toLowerCase : String → String)
    (localeCompare : String → String → Int) (time : String → Option Int) (g : Gallery) :
    (g.filterEffect toLowerCase localeCompare time).selected = g.selected := by
  unfold Gallery.filterEffect
  split_ifs <;> rfl

theorem act_selected (toLowerCase : String → String) (localeCompare : String → String → Int)
    (time : String → Option Int) (g : Gallery) (action : GalleryAction) :
    (g.act toLowerCase localeCompare time action).selected = g.selected := by
  cases action with
  | refresh outcome =>
    cases outcome with
    | rejected message serverError => exact fetchModels_selected _ _ _ _
    | body success models error =>
      cases success
      · exact fetchModels_selected _ _ _ _
      · simp only [Gallery.act]
        rw [filterEffect_selected, fetchModels_selected]
  | selectCard model => rfl
  | closeModal =>
    simp only [Gallery.act, Gallery.handleCloseModal]
    cases g.selectedModel <;> rfl
  | searchChange value => exact filterEffect_selected _ _ _ _
  | clearSearch => exact filterEffect_selected _ _ _ _

/-- C27: a click on a model card only records the model as the one shown in
the modal; closing the modal, which always passes `false`, clears that
selection; and after every sequence of actions in the gallery the parent
callback `onSelectModel` has been called no more often than before. -/
theorem gallery_never_selects (toLowerCase : String → String)
    (localeCompare : String → String → Int) (time : String → Option Int) (g : Gallery)
    (actions : List GalleryAction) :
    (∀ model, g.act toLowerCase localeCompare time (.selectCard model) =
      { g with selectedModel := some model }) ∧
    g.act toLowerCase localeCompare time .closeModal = g.handleCloseModal false ∧
    (g.handleCloseModal false).selectedModel = none ∧
    (g.handleCloseModal false).selected = g.selected ∧
    (g.run toLowerCase localeCompare time actions).selected = g.selected := by
  refine ⟨fun _ => rfl, rfl, rfl, ?_, ?_⟩
  · simp only [Gallery.handleCloseModal]
    cases g.selectedModel <;> rfl
  · induction actions generalizing g with
    | nil => rfl
    | cons a l ih =>
      simp only [Gallery.run, List.foldl_cons]
      have := ih (g.act toLowerCase localeCompare time a)
      simp only [Gallery.run] at this
      rw [this, act_selected]

/-! ## C24: `fetchModels` -/

/-- C24: in `ModelGallery.fetchModels` and in `ModelsList.fetchModels`, when the
list request throws or the response has `success = false`, the stored model
list (and in the gallery the filtered list) is as before, an error message is
set, and the loading flag is false; the loading flag is false after every
outcome; and when the response succeeds without a `models` property the stored
list becomes empty. -/
theorem fetchModels_outcomes (localeCompare : String → String → Int)
    (time : String → Option Int) (g : Gallery) (l : ModelsList) (outcome : ListOutcome) :
    (g.fetchModels localeCompare time outcome).isLoading = false ∧
    (l.fetchModels outcome).isLoading = false ∧
    ((∀ models error, outcome ≠ .body true models error) →
      (g.fetchModels localeCompare time outcome).models = g.models ∧
      (g.fetchModels localeCompare time outcome).filteredModels = g.filteredModels ∧
      (g.fetchModels localeCompare time outcome).error =
        some "Failed to load models. Please try again." ∧
      (g.fetchModels localeCompare time outcome).toasts =
        g.toasts ++ [Toast.error "Failed to load models"] ∧
      (l.fetchModels outcome).models = l.models ∧
      (∃ message, (l.fetchModels outcome).error = some ("Failed to load models: " ++ message)) ∧
      (l.fetchModels outcome).toasts = l.toasts ++ [Toast.error "Failed to load models"]) ∧
    (∀ error, outcome = .body true none error →
      (g.fetchModels localeCompare time outcome).models = [] ∧
      (g.fetchModels localeCompare time outcome).filteredModels = [] ∧
      (l.fetchModels outcome).models = []) := by
  refine ⟨rfl, rfl, ?_, ?_⟩
  · intro h
    cases outcome with
    | rejected message serverError => exact ⟨rfl, rfl, rfl, rfl, rfl, ⟨_, rfl⟩, rfl⟩
    | body success models error =>
      cases success
      · exact ⟨rfl, rfl, rfl, rfl, rfl, ⟨_, rfl⟩, rfl⟩
      · exact absurd rfl (h models error)
  · intro error h
    rw [h]
    exact ⟨rfl, rfl, rfl⟩

/-! ## C25: `getShortFilename` -/

theorem splitUnits_ne_nil (separator : Nat) (l : List Nat) : splitUnits separator l ≠ [] := by
  cases l with
  | nil => simp [splitUnits]
  | cons c rest =>
    simp only [splitUnits]
    split_ifs
    · simp
    · split <;> simp

theorem splitUnits_of_not_mem (separator : Nat) (l : List Nat) (h : separator ∉ l) :
    splitUnits separator l = [l] := by
  induction l with
  | nil => rfl
  | cons c rest ih =>
    have hc : ¬ c = separator := fun e => h (e ▸ List.mem_cons_self _ _)
    have hr := ih (fun hm => h (List.mem_cons_of_mem _ hm))
    simp only [splitUnits, hc, if_false, hr]

theorem splitUnits_append (separator : Nat) (front back : List Nat) :
    splitUnits separator (front ++ separator :: back) =
      splitUnits separator front ++ splitUnits separator back := by
  induction front with
  | nil => simp [splitUnits]
  | cons c rest ih =>
    have hcons : splitUnits separator (c :: rest ++ separator :: back) =
        if c = separator then [] :: splitUnits separator (rest ++ separator :: back)
        else
          match splitUnits separator (rest ++ separator :: back) with
          | [] => [[c]]
          | piece :: pieces => (c :: piece) :: pieces := rfl
    rw [hcons, ih]
    by_cases hc : c = separator
    · simp only [splitUnits, hc, if_true, List.cons_append]
    · simp only [splitUnits, hc, if_false]
      cases hs : splitUnits separator rest with
      | nil => exact absurd hs (splitUnits_ne_nil _ _)
      | cons piece pieces => rfl

theorem joinUnits_splitUnits (separator : Nat) (l : List Nat) :
    joinUnits [separator] (splitUnits separator l) = l := by
  induction l with
  | nil => rfl
  | cons c rest ih =>
    by_cases hc : c = separator
    · simp only [splitUnits, hc, if_true]
      cases hs : splitUnits separator rest with
      | nil => exact absurd hs (splitUnits_ne_nil _ _)
      | cons piece pieces =>
        rw [hs] at ih
        simp only [joinUnits, ih, List.nil_append, List.singleton_append]
    · simp only [splitUnits, hc, if_false]
      cases hs : splitUnits separator rest with
      | nil => exact absurd hs (splitUnits_ne_nil _ _)
      | cons piece pieces =>
        rw [hs] at ih
        cases pieces with
        | nil =>
          simp only [joinUnits] at ih ⊢
          rw [ih]
        | cons q qs =>
          simp only [joinUnits] at ih ⊢
          rw [← ih]
          simp

/-- A filename with a dot splits at its last dot. -/
theorem exists_last_dot (filename : List Nat) (h : dot ∈ filename) :
    ∃ base ext, filename = base ++ dot :: ext ∧ dot ∉ ext := by
  induction filename with
  | nil => exact absurd h (List.not_mem_nil _)
  | cons c rest ih =>
    by_cases hr : dot ∈ rest
    · obtain ⟨base, ext, he, hn⟩ := ih hr
      exact ⟨c :: base, ext, by rw [he]; rfl, hn⟩
    · have hc : dot = c := by
        rcases List.mem_cons.mp h with h1 | h1
        · exact h1
        · exact absurd h1 hr
      exact ⟨[], rest, by rw [hc]; rfl, hr⟩

/-- C25: characters are counted as the code does, in UTF-16 code units.  For a
filename with a dot, with `base` the text before the last dot and `ext` the
text after it, `getShortFilename` returns the filename when `base` has at most
8 characters, and otherwise the first 8 characters of `base`, three dots and
`ext`; for a filename without a dot it returns the filename when it has at
most 10 characters, and otherwise its first 8 characters and three dots. -/
theorem getShortFilename_spec :
    (∀ base ext : List Nat, dot ∉ ext →
      getShortFilename (base ++ dot :: ext) =
        if base.length ≤ 8 then base ++ dot :: ext
        else base.take 8 ++ [dot, dot, dot] ++ ext) ∧
    (∀ filename : List Nat, dot ∉ filename →
      getShortFilename filename =
        if filename.length ≤ 10 then filename
        else filename.take 8 ++ [dot, dot, dot]) := by
  refine ⟨?_, ?_⟩
  · intro base ext hext
    have hparts : splitUnits dot (base ++ dot :: ext) = splitUnits dot base ++ [ext] := by
      rw [splitUnits_append, splitUnits_of_not_mem dot ext hext]
    have hlen : (splitUnits dot (base ++ dot :: ext)).length > 1 := by
      rw [hparts]
      have := List.length_pos.mpr (splitUnits_ne_nil dot base)
      simp only [List.length_append, List.length_singleton]
      omega
    have hlast : (splitUnits dot (base ++ dot :: ext)).getLast?.getD [] = ext := by
      rw [hparts]
      simp
    have hbase : joinUnits [dot] (splitUnits dot (base ++ dot :: ext)).dropLast = base := by
      rw [hparts, List.dropLast_concat]
      exact joinUnits_splitUnits dot base
    simp only [getShortFilename, hlen, if_true, hlast, hbase]
    by_cases h8 : base.length ≤ 8
    · have h8a : ¬ base.length > 8 := by omega
      rw [if_neg h8a, if_pos h8]
      simp
    · have h8a : base.length > 8 := by omega
      rw [if_pos h8a, if_neg h8]
  · intro filename hdot
    have hparts : splitUnits dot filename = [filename] := splitUnits_of_not_mem dot filename hdot
    have hlen : ¬ (splitUnits dot filename).length > 1 := by
      rw [hparts]
      simp
    simp only [getShortFilename, hlen, if_false]
    by_cases h10 : filename.length ≤ 10
    · have h10a : ¬ filename.length > 10 := by omega
      rw [if_neg h10a, if_pos h10]
    · have h10a : filename.length > 10 := by omega
      rw [if_pos h10a, if_neg h10]

theorem getShortFilename_spec_witness :
    dot ∉ utf16 "glb" ∧
    getShortFilename (utf16 "Rubber_Duck_textured" ++ dot :: utf16 "glb") =
      utf16 "Rubber_D...glb" ∧
    dot ∉ utf16 "averylongname" ∧
    getShortFilename (utf16 "averylongname") = utf16 "averylon..." := by
  have h1 : dot ∉ utf16 "glb" := by decide
  have h2 : dot ∉ utf16 "averylongname" := by decide
  refine ⟨h1, ?_, h2, ?_⟩
  · rw [getShortFilename_spec.1 (utf16 "Rubber_Duck_textured") (utf16 "glb") h1]
    decide
  · rw [getShortFilename_spec.2 (utf16 "averylongname") h2]
    decide

theorem getShortFilename_examples :
    getShortFilename (utf16 "Rubber_Duck_textured.glb") = utf16 "Rubber_D...glb" ∧
    getShortFilename (utf16 "duck.v2.glb") = utf16 "duck.v2.glb" ∧
    getShortFilename (utf16 "averylongname") = utf16 "averylon..." ∧
    getShortFilename (utf16 "short") = utf16 "short" ∧
    (utf16 "😀😀😀😀😀").length = 10 ∧
    getShortFilename (utf16 "😀😀😀😀😀.glb") = utf16 "😀😀😀😀...glb" := by
  decide

/-! ## C21, C22: `sortModels` -/

theorem orderedInsert_congr (r r1 : Model → Model → Prop) [DecidableRel r] [DecidableRel r1]
    (a : Model) (l : List Model) (h : ∀ b ∈ l, r a b ↔ r1 a b) :
    l.orderedInsert r a = l.orderedInsert r1 a := by
  induction l with
  | nil => rfl
  | cons b l ih =>
    have hb := h b (List.mem_cons_self _ _)
    have hl := ih (fun c hc => h c (List.mem_cons_of_mem _ hc))
    by_cases hr : r a b
    · simp only [List.orderedInsert, hr, hb.mp hr, if_true]
    · have hr1 : ¬ r1 a b := fun e => hr (hb.mpr e)
      simp only [List.orderedInsert, hr, hr1, if_false, hl]

theorem insertionSort_congr (r r1 : Model → Model → Prop) [DecidableRel r] [DecidableRel r1]
    (l : List Model) (h : ∀ a ∈ l, ∀ b ∈ l, r a b ↔ r1 a b) :
    l.insertionSort r = l.insertionSort r1 := by
  induction l with
  | nil => rfl
  | cons a l ih =>
    have hl := ih (fun x hx y hy => h x (List.mem_cons_of_mem _ hx) y (List.mem_cons_of_mem _ hy))
    simp only [List.insertionSort]
    rw [hl]
    apply orderedInsert_congr
    intro b hb
    have hb2 : b ∈ l := (List.perm_insertionSort r1 l).subset hb
    exact h a (List.mem_cons_self _ _) b (List.mem_cons_of_mem _ hb2)

/-- C21: for models with valid creation dates, `sortModels` with the sort key
`newest` and the direction `desc` returns the models from newest to oldest,
and with the sort key `size` and the direction `desc` from largest to
smallest; both results hold the models of the input. -/
theorem sortModels_defaults_descend (localeCompare : String → String → Int)
    (time : String → Option Int) (models : List Model)
    (hvalid : ∀ model ∈ models, ∃ t, time model.created = some t) :
    (sortModels localeCompare time models "newest" "desc").Pairwise
      (fun a b => ∀ ta tb, time a.created = some ta → time b.created = some tb → tb ≤ ta) ∧
    (sortModels localeCompare time models "newest" "desc").Perm models ∧
    (sortModels localeCompare time models "size" "desc").Pairwise
      (fun a b => b.size ≤ a.size) ∧
    (sortModels localeCompare time models "size" "desc").Perm models := by
  refine ⟨?_, List.perm_insertionSort _ _, ?_, List.perm_insertionSort _ _⟩
  · have hd1 : ¬ ("desc" : String) = "asc" := by decide
    have hcongr : sortModels localeCompare time models "newest" "desc" =
        models.insertionSort
          (fun a b => (time b.created).getD 0 ≤ (time a.created).getD 0) := by
      unfold sortModels
      apply insertionSort_congr
      intro a ha b hb
      obtain ⟨ta, hta⟩ := hvalid a ha
      obtain ⟨tb, htb⟩ := hvalid b hb
      simp only [comparator, comparison, hd1, if_false, if_true, hta, htb, dateDifference,
        Option.getD_some]
      omega
    rw [hcongr]
    haveI : IsTotal Model (fun a b => (time b.created).getD 0 ≤ (time a.created).getD 0) :=
      ⟨fun a b => le_total _ _⟩
    haveI : IsTrans Model (fun a b => (time b.created).getD 0 ≤ (time a.created).getD 0) :=
      ⟨fun a b c hab hbc => le_trans hbc hab⟩
    have hs := List.sorted_insertionSort
      (fun a b : Model => (time b.created).getD 0 ≤ (time a.created).getD 0) models
    refine List.Pairwise.imp ?_ hs
    intro a b hab ta tb hta htb
    simpa [hta, htb] using hab
  · have hd1 : ¬ ("desc" : String) = "asc" := by decide
    have hn : ¬ ("size" : String) = "newest" := by decide
    have ho : ¬ ("size" : String) = "oldest" := by decide
    have hcongr : sortModels localeCompare time models "size" "desc" =
        models.insertionSort (fun a b => b.size ≤ a.size) := by
      unfold sortModels
      apply insertionSort_congr
      intro a _ b _
      simp only [comparator, comparison, hd1, hn, ho, if_false, if_true]
      omega
    rw [hcongr]
    haveI : IsTotal Model (fun a b => b.size ≤ a.size) := ⟨fun a b => le_total _ _⟩
    haveI : IsTrans Model (fun a b => b.size ≤ a.size) :=
      ⟨fun a b c hab hbc => le_trans hbc hab⟩
    exact List.sorted_insertionSort (fun a b : Model => b.size ≤ a.size) models

theorem sortModels_defaults_descend_witness :
    (sortModels codePointCompare sampleTime sampleModels "newest" "desc").Pairwise
      (fun a b => ∀ ta tb, sampleTime a.created = some ta → sampleTime b.created = some tb →
        tb ≤ ta) ∧
    (sortModels codePointCompare sampleTime sampleModels "newest" "desc").Perm sampleModels ∧
    (sortModels codePointCompare sampleTime sampleModels "size" "desc").Pairwise
      (fun a b => b.size ≤ a.size) ∧
    (sortModels codePointCompare sampleTime sampleModels "size" "desc").Perm sampleModels :=
  sortModels_defaults_descend codePointCompare sampleTime sampleModels (by
    intro model hm
    simp only [sampleModels, List.mem_cons, List.mem_singleton, List.not_mem_nil,
      or_false] at hm
    rcases hm with rfl | rfl
    · exact ⟨1735689600000, by decide⟩
    · exact ⟨1735776000000, by decide⟩)

theorem sortModels_sample :
    sortModels codePointCompare sampleTime sampleModels "newest" "desc" = sampleModels.reverse ∧
    sortModels codePointCompare sampleTime sampleModels "size" "desc" = sampleModels.reverse := by
  decide

/-- C22: for every model list, sort key and direction, `sortModels` returns a
permutation of its argument, with the same models as often, and the argument
is the same list after the call: what is sorted is the copy `[...models]`. -/
theorem sortModels_perm (localeCompare : String → String → Int) (time : String → Option Int)
    (models : List Model) (sortBy direction : String) :
    (sortModels localeCompare time models sortBy direction).Perm models ∧
    (∀ model, (sortModels localeCompare time models sortBy direction).count model =
      models.count model) ∧
    (sortModelsCall localeCompare time models sortBy direction).1 = models ∧
    (sortModelsCall localeCompare time models sortBy direction).2 =
      sortModels localeCompare time models sortBy direction := by
  have hp : (sortModels localeCompare time models sortBy direction).Perm models :=
    List.perm_insertionSort _ _
  exact ⟨hp, fun model => hp.count_eq model, rfl, rfl⟩

/-! ## C20: sorting by name -/

/-- C20, as stated, fails: `sortModels` at the list `[a.glb, b.glb]` with the
sort key `name`.  With the direction `asc` the result is in descending filename
order, and with the direction `desc` it is in ascending filename order: the
comparator negates `localeCompare` for `asc`, as it negates every other
comparison. -/
theorem sortModels_name_asc_descends :
    codePointCompare "a.glb" "b.glb" < 0 ∧
    sortModels codePointCompare (fun _ => none)
      [{ filename := "a.glb", url := "u", size := 1, created := "c" },
       { filename := "b.glb", url := "v", size := 2, created := "d" }] "name" "asc" =
      [{ filename := "b.glb", url := "v", size := 2, created := "d" },
       { filename := "a.glb", url := "u", size := 1, created := "c" }] ∧
    sortModels codePointCompare (fun _ => none)
      [{ filename := "b.glb", url := "v", size := 2, created := "d" },
       { filename := "a.glb", url := "u", size := 1, created := "c" }] "name" "desc" =
      [{ filename := "a.glb", url := "u", size := 1, created := "c" },
       { filename := "b.glb", url := "v", size := 2, created := "d" }] := by
  decide

theorem codePointCompare_le_iff (a b : String) :
    codePointCompare a b ≤ 0 ↔ a.data ≤ b.data := by
  unfold codePointCompare
  by_cases h1 : a.data < b.data
  · simp only [h1, if_true]
    exact ⟨fun _ => le_of_lt h1, fun _ => by decide⟩
  · by_cases h2 : b.data < a.data
    · simp only [h1, h2, if_false, if_true]
      exact ⟨fun h => absurd h (by decide), fun h => absurd h (not_le_of_lt h2)⟩
    · simp only [h1, h2, if_false]
      exact ⟨fun _ => not_lt.mp h2, fun _ => le_refl _⟩

theorem codePointCompare_ge_iff (a b : String) :
    0 ≤ codePointCompare a b ↔ b.data ≤ a.data := by
  unfold codePointCompare
  by_cases h1 : a.data < b.data
  · simp only [h1, if_true]
    exact ⟨fun h => absurd h (by decide), fun h => absurd h (not_le_of_lt h1)⟩
  · by_cases h2 : b.data < a.data
    · simp only [h1, h2, if_false, if_true]
      exact ⟨fun _ => le_of_lt h2, fun _ => by decide⟩
    · simp only [h1, h2, if_false]
      exact ⟨fun _ => not_lt.mp h1, fun _ => le_refl _⟩

/-- C20, amended: for the sort key `name` and a `localeCompare` that is a
consistent comparator, `sortModels` with the direction `desc` returns the
models in ascending filename order and with the direction `asc` in descending
filename order; both results hold the models of the input. -/
theorem sortModels_name_order (localeCompare : String → String → Int)
    (time : String → Option Int) (models : List Model)
    (hsign : ∀ a b, 0 ≤ localeCompare a b ↔ localeCompare b a ≤ 0)
    (htrans : ∀ a b c, localeCompare a b ≤ 0 → localeCompare b c ≤ 0 → localeCompare a c ≤ 0) :
    (sortModels localeCompare time models "name" "desc").Pairwise
      (fun a b => localeCompare a.filename b.filename ≤ 0) ∧
    (sortModels localeCompare time models "name" "desc").Perm models ∧
    (sortModels localeCompare time models "name" "asc").Pairwise
      (fun a b => 0 ≤ localeCompare a.filename b.filename) ∧
    (sortModels localeCompare time models "name" "asc").Perm models := by
  have hd1 : ¬ ("desc" : String) = "asc" := by decide
  have hn : ¬ ("name" : String) = "newest" := by decide
  have ho : ¬ ("name" : String) = "oldest" := by decide
  have hz : ¬ ("name" : String) = "size" := by decide
  have htotal : ∀ a b, localeCompare a b ≤ 0 ∨ localeCompare b a ≤ 0 := by
    intro a b
    rcases le_total (localeCompare a b) 0 with h | h
    · exact Or.inl h
    · exact Or.inr ((hsign a b).mp h)
  refine ⟨?_, List.perm_insertionSort _ _, ?_, List.perm_insertionSort _ _⟩
  · have hcongr : sortModels localeCompare time models "name" "desc" =
        models.insertionSort (fun a b => localeCompare a.filename b.filename ≤ 0) := by
      unfold sortModels
      apply insertionSort_congr
      intro a _ b _
      simp only [comparator, comparison, hd1, hn, ho, hz, if_false, if_true]
    rw [hcongr]
    haveI : IsTotal Model (fun a b => localeCompare a.filename b.filename ≤ 0) :=
      ⟨fun a b => htotal _ _⟩
    haveI : IsTrans Model (fun a b => localeCompare a.filename b.filename ≤ 0) :=
      ⟨fun a b c hab hbc => htrans _ _ _ hab hbc⟩
    exact List.sorted_insertionSort
      (fun a b : Model => localeCompare a.filename b.filename ≤ 0) models
  · have hcongr : sortModels localeCompare time models "name" "asc" =
        models.insertionSort (fun a b => 0 ≤ localeCompare a.filename b.filename) := by
      unfold sortModels
      apply insertionSort_congr
      intro a _ b _
      simp only [comparator, comparison, hn, ho, hz, if_false, if_true]
      omega
    rw [hcongr]
    haveI : IsTotal Model (fun a b => 0 ≤ localeCompare a.filename b.filename) :=
      ⟨fun a b => by
        rcases htotal a.filename b.filename with h | h
        · exact Or.inr ((hsign _ _).mpr h)
        · exact Or.inl ((hsign _ _).mpr h)⟩
    haveI : IsTrans Model (fun a b => 0 ≤ localeCompare a.filename b.filename) :=
      ⟨fun a b c hab hbc =>
        (hsign _ _).mpr (htrans _ _ _ ((hsign _ _).mp hbc) ((hsign _ _).mp hab))⟩
    exact List.sorted_insertionSort
      (fun a b : Model => 0 ≤ localeCompare a.filename b.filename) models

theorem sortModels_name_order_witness :
    (sortModels codePointCompare sampleTime sampleModels "name" "desc").Pairwise
      (fun a b => codePointCompare a.filename b.filename ≤ 0) ∧
    (sortModels codePointCompare sampleTime sampleModels "name" "desc").Perm sampleModels ∧
    (sortModels codePointCompare sampleTime sampleModels "name" "asc").Pairwise
      (fun a b => 0 ≤ codePointCompare a.filename b.filename) ∧
    (sortModels codePointCompare sampleTime sampleModels "name" "asc").Perm sampleModels :=
  sortModels_name_order codePointCompare sampleTime sampleModels
    (fun a b => by rw [codePointCompare_ge_iff, codePointCompare_le_iff])
    (fun a b c hab hbc => by
      rw [codePointCompare_le_iff] at hab hbc ⊢
      exact le_trans hab hbc)

theorem sortModels_name_sample :
    sortModels codePointCompare sampleTime sampleModels "name" "desc" = sampleModels ∧
    sortModels codePointCompare sampleTime sampleModels "name" "asc" = sampleModels.reverse := by
  decide

/-! ## C28: the generating flag and the timers -/

/-- C28: two sessions that end with the generating flag false while the polling
timer of job `B` is live and recorded.  In the first, without cancellation, the
download of the earlier job `A` is answered after job `B` has started polling,
and its `finally` block sets the flag to false; in the second the creation
request of a cancelled job fails after job `B` has started polling, and the
`catch` block of `onSubmit` sets the flag to false.  Neither block touches
the timer. -/
theorem generating_false_timer_live :
    (run plainEnv (init sampleImage) staleDownloadSession).map
        (fun s => (s.isGenerating, s.timers, s.pollInterval)) =
      some (false, [{ id := 1, jobId := "B", apiKey := "key", predictionId := some "A" }],
        some 1) ∧
    (run plainEnv (init sampleImage) staleCreationSession).map
        (fun s => (s.isGenerating, s.timers, s.pollInterval)) =
      some (false, [{ id := 0, jobId := "B", apiKey := "key", predictionId := none }],
        some 0) := by
  decide

end MeshifAI
